import Mathlib

/-!
# timeframe: tokens to half-open time intervals

A shallow embedding of the Go package `timeframe` (files `timeframe.go`,
`range.go`, `absolute.go`, `relative.go`) together with the part of the Go
standard library it calls (`strconv.Atoi`, `strings.IndexByte`,
`time.Date`, `Time.AddDate`, `Time.Add`, the field accessors of `time.Time`
and `time.ParseInLocation` for the ten layouts the package uses).

Conventions.
* A Go string is a list of bytes; a byte is a natural number.
* Go `int` values are integers; every quantity the package computes stays far
  below 2^63, and `strconv.Atoi` reports the range error itself.
* An instant is a number of nanoseconds since 0001-01-01T00:00:00 UTC, the
  zero value of `time.Time`; the calendar is the proleptic Gregorian one and
  is not cut off at the limits of the 64-bit representation.
* A location is a table of UTC offsets with the instants at which the offset
  changes; `time.UTC` is the table with offset 0 and no change.
-/

namespace Timeframe

/-! ## Strings -/

/-- A Go string: its bytes in order. -/
abbrev Str := List Nat

/-- The bytes of an ASCII literal. -/
def lit (s : String) : Str := s.toList.map Char.toNat

/-- Go `strings.IndexByte`, with `none` for -1. -/
def IndexByte : Str → Nat → Option Nat
  | [], _ => none
  | b :: rest, c => if b = c then some 0 else (IndexByte rest c).map (· + 1)

/-- Go `strings.LastIndexByte`, with `none` for -1. -/
def LastIndexByte : Str → Nat → Option Nat
  | [], _ => none
  | b :: rest, c =>
    match LastIndexByte rest c with
    | some j => some (j + 1)
    | none => if b = c then some 0 else none

/-- Whether the byte is an ASCII digit. -/
def isDigitByte (c : Nat) : Bool := decide (48 ≤ c) && decide (c ≤ 57)

/-- The value of a string of decimal digits, `none` when a byte is not a digit;
the accumulator is the value read so far. -/
def digitsValue : Str → Nat → Option Nat
  | [], acc => some acc
  | c :: rest, acc => if isDigitByte c then digitsValue rest (acc * 10 + (c - 48)) else none

/-- Go `strconv.Atoi` on a 64-bit platform: an optional sign, then one or more
decimal digits, and the value must fit `int`; `none` is the error. -/
def Atoi (s : Str) : Option Int :=
  match s with
  | [] => none
  | c :: rest =>
    let body := if c = 45 ∨ c = 43 then rest else s
    match body with
    | [] => none
    | _ =>
      match digitsValue body 0 with
      | none => none
      | some v =>
        let n : Int := if c = 45 then -(v : Int) else (v : Int)
        if -(2 : Int) ^ 63 ≤ n ∧ n ≤ (2 : Int) ^ 63 - 1 then some n else none

/-! ## The `time` package -/

/-- A `*time.Location`: the offset in seconds east of UTC in force before the
first transition, and the transitions in ascending order of time, each with
the offset in force from that instant (in seconds since 0001-01-01T00:00:00
UTC) on. -/
structure Location where
  base : Int
  tx : List (Int × Int)
  deriving DecidableEq, Repr

/-- The location `time.UTC`. -/
def UTC : Location := ⟨0, []⟩

/-- The zone in force at an instant and its bounds (`none` for unbounded). -/
structure Zone where
  offset : Int
  start : Option Int
  stop : Option Int
  deriving DecidableEq, Repr

/-- Scan of the transition table for `Location.lookup`. -/
def lookupFrom (off : Int) (start : Option Int) : List (Int × Int) → Int → Zone
  | [], _ => ⟨off, start, none⟩
  | (w, o) :: rest, sec =>
    if sec < w then ⟨off, start, some w⟩ else lookupFrom o (some w) rest sec

/-- Go `(*Location).lookup`: the zone in force at the instant `sec`. -/
def Location.lookup (l : Location) (sec : Int) : Zone := lookupFrom l.base none l.tx sec

/-- A `time.Time`: an instant and the location it is shown in. -/
structure Time where
  ns : Int
  loc : Location
  deriving DecidableEq, Repr

/-- Go `norm`: carries `lo` into `hi` so that `0 ≤ lo < base`. -/
def norm (hi lo base : Int) : Int × Int :=
  let (hi, lo) := if lo < 0 then
      let n := (-lo - 1) / base + 1
      (hi - n, lo + n * base)
    else (hi, lo)
  if lo ≥ base then
    let n := lo / base
    (hi + n, lo - n * base)
  else (hi, lo)

/-- Go `isLeap`. -/
def isLeap (year : Int) : Bool :=
  decide (year % 4 = 0) && (decide (year % 100 ≠ 0) || decide (year % 400 = 0))

/-- Go `daysBefore[m]`: days of a non-leap year before month `m + 1`. -/
def daysBefore (m : Int) : Int :=
  match m.toNat with
  | 0 => 0
  | 1 => 31
  | 2 => 59
  | 3 => 90
  | 4 => 120
  | 5 => 151
  | 6 => 181
  | 7 => 212
  | 8 => 243
  | 9 => 273
  | 10 => 304
  | 11 => 334
  | _ => 365

/-- Go `daysIn`. -/
def daysIn (month year : Int) : Int :=
  if month = 2 ∧ isLeap year = true then 29 else daysBefore month - daysBefore (month - 1)

/-- Go `daysSinceEpoch`, counted from 0001-01-01: the days before January 1st
of `year`. -/
def daysSinceEpoch (year : Int) : Int :=
  let y := year - 1
  let n := y / 400
  let y := y - 400 * n
  let d := 146097 * n
  let n := y / 100
  let y := y - 100 * n
  let d := d + 36524 * n
  let n := y / 4
  let y := y - 4 * n
  let d := d + 1461 * n
  d + 365 * y

/-- The seconds between 0001-01-01T00:00:00 and the wall-clock reading given by
the fields, after Go's normalisation of out-of-range fields, and the
normalised nanosecond: the part of `time.Date` before the zone lookup. -/
def wallSeconds (year month day hour min sec nsec : Int) : Int × Int :=
  let (year, m) := norm year (month - 1) 12
  let (sec, nsec) := norm sec nsec 1000000000
  let (min, sec) := norm min sec 60
  let (hour, min) := norm hour min 60
  let (day, hour) := norm day hour 24
  let d := daysSinceEpoch year + daysBefore m
  let d := if isLeap year = true ∧ m + 1 ≥ 3 then d + 1 else d
  let d := d + (day - 1)
  (d * 86400 + (hour * 3600 + min * 60 + sec), nsec)

/-- Go `time.Date`. -/
def Date (year month day hour min sec nsec : Int) (loc : Location) : Time :=
  let (unix, nsec) := wallSeconds year month day hour min sec nsec
  let z := loc.lookup unix
  let unix :=
    if z.offset ≠ 0 then
      let utc := unix - z.offset
      let before := match z.start with
        | some s => decide (utc < s)
        | none => false
      let after := match z.stop with
        | some e => decide (utc ≥ e)
        | none => false
      if before || after then unix - (loc.lookup utc).offset else unix - z.offset
    else unix
  ⟨unix * 1000000000 + nsec, loc⟩

/-- Go `Time.abs`: the seconds since 0001-01-01T00:00:00 on the wall clock of
the time's location. -/
def Time.abs (t : Time) : Int :=
  let sec := t.ns / 1000000000
  sec + (t.loc.lookup sec).offset

/-- Go `absDate` down to the year: the year and the zero-based day of the year
of a day count since 0001-01-01. -/
def absYear (days : Int) : Int × Int :=
  let n := days / 146097
  let y := 400 * n
  let d := days - 146097 * n
  let n := d / 36524
  let n := n - n / 4
  let y := y + 100 * n
  let d := d - 36524 * n
  let n := d / 1461
  let y := y + 4 * n
  let d := d - 1461 * n
  let n := d / 365
  let n := n - n / 4
  let y := y + n
  let d := d - 365 * n
  (y + 1, d)

/-- Go `absDate` below the year: month and day of the month of the zero-based
day `yday` of a year. -/
def absMonthDay (leap : Bool) (yday : Int) : Int × Int :=
  if leap = true ∧ yday = 31 + 29 - 1 then (2, 29)
  else
    let day := if leap = true ∧ yday > 31 + 29 - 1 then yday - 1 else yday
    let month := day / 31
    let stop := daysBefore (month + 1)
    if day ≥ stop then (month + 2, day - stop + 1)
    else (month + 1, day - daysBefore month + 1)

/-- Go `Time.Year`. -/
def Time.Year (t : Time) : Int := (absYear (t.abs / 86400)).1

/-- Go `Time.YearDay`. -/
def Time.YearDay (t : Time) : Int := (absYear (t.abs / 86400)).2 + 1

/-- Go `Time.Month`. -/
def Time.Month (t : Time) : Int :=
  let yd := absYear (t.abs / 86400)
  (absMonthDay (isLeap yd.1) yd.2).1

/-- Go `Time.Day`. -/
def Time.Day (t : Time) : Int :=
  let yd := absYear (t.abs / 86400)
  (absMonthDay (isLeap yd.1) yd.2).2

/-- Go `Time.Hour`. -/
def Time.Hour (t : Time) : Int := t.abs % 86400 / 3600

/-- Go `Time.Minute`. -/
def Time.Minute (t : Time) : Int := t.abs % 3600 / 60

/-- Go `Time.Second`. -/
def Time.Second (t : Time) : Int := t.abs % 60

/-- Go `Time.Nanosecond`. -/
def Time.Nanosecond (t : Time) : Int := t.ns % 1000000000

/-- Go `Time.Weekday`, Sunday = 0 .. Saturday = 6; 0001-01-01 is a Monday. -/
def Time.Weekday (t : Time) : Int := (t.abs + 86400) % 604800 / 86400

/-- Go `Time.Add`, the duration in nanoseconds. -/
def Time.Add (t : Time) (d : Int) : Time := ⟨t.ns + d, t.loc⟩

/-- Go `Time.AddDate`. -/
def Time.AddDate (t : Time) (years months days : Int) : Time :=
  Date (t.Year + years) (t.Month + months) (t.Day + days) t.Hour t.Minute t.Second
    t.Nanosecond t.loc

/-- Go `Time.IsZero`. -/
def Time.IsZero (t : Time) : Bool := decide (t.ns = 0)

/-- The zero value `time.Time{}`. -/
def Time.zero : Time := ⟨0, UTC⟩

/-! ### `time.ParseInLocation` for the layouts of the package -/

/-- The pieces Go's `nextStdChunk` cuts the package's layouts into: a literal
byte, or one of the standard chunks `2006`, `01`, `02`, `15`, `04`, `05` and
`.000` (with its number of digits). -/
inductive Chunk where
  | literal (c : Nat)
  | stdLongYear
  | stdZeroMonth
  | stdZeroDay
  | stdHour
  | stdZeroMinute
  | stdZeroSecond
  | stdFracSecond0 (digits : Nat)
  deriving DecidableEq, Repr

/-- The fields `time.Parse` collects. -/
structure Fields where
  year : Int
  month : Int
  day : Int
  hour : Int
  min : Int
  sec : Int
  nsec : Int
  deriving DecidableEq, Repr

/-- Go `time.getnum`: a two-digit number, or a one-digit one unless `fixed`. -/
def getnum (s : Str) (fixed : Bool) : Option (Int × Str) :=
  match s with
  | [] => none
  | [c0] => if isDigitByte c0 && !fixed then some (((c0 - 48 : Nat) : Int), []) else none
  | c0 :: c1 :: rest =>
    if !isDigitByte c0 then none
    else if !isDigitByte c1 then
      (if fixed then none else some (((c0 - 48 : Nat) : Int), c1 :: rest))
    else some ((((c0 - 48) * 10 + (c1 - 48) : Nat) : Int), rest)

/-- Go `time.atoi`: an optional sign and then digits only (possibly none). -/
def timeAtoi (s : Str) : Option Int :=
  let neg : Bool := match s with
    | c :: _ => decide (c = 45)
    | [] => false
  let body := match s with
    | c :: rest => if c = 45 ∨ c = 43 then rest else s
    | [] => s
  match digitsValue body 0 with
  | none => none
  | some v =>
    if v > 2 ^ 63 then none
    else
      let x : Int := if v = 2 ^ 63 then -(2 : Int) ^ 63 else (v : Int)
      some (if neg then -x else x)

/-- Go `time.commaOrPeriod`. -/
def commaOrPeriod (c : Nat) : Bool := decide (c = 46) || decide (c = 44)

/-- Go `time.parseNanoseconds` on a non-empty `value`: the fraction written in
its first `nbytes` bytes, in nanoseconds. -/
def parseNanoseconds (value : Str) (nbytes : Nat) : Option Int :=
  match value with
  | [] => none
  | c :: _ =>
    if !commaOrPeriod c then none
    else
      let value := if nbytes > 10 then value.take 10 else value
      let nbytes := if nbytes > 10 then 10 else nbytes
      match timeAtoi ((value.take nbytes).drop 1) with
      | none => none
      | some ns => if ns < 0 then none else some (ns * 10 ^ (10 - nbytes))

/-- The length of the longest prefix of digits. -/
def digitRun : Str → Nat
  | [] => 0
  | c :: rest => if isDigitByte c then digitRun rest + 1 else 0

/-- The loop of Go `time.parse`: consumes `value` chunk by chunk; `none` is a
parse error. -/
def parseChunks : List Chunk → Str → Fields → Option Fields
  | [], value, f => if value = [] then some f else none
  | Chunk.literal c :: rest, value, f =>
    match value with
    | [] => none
    | v :: vs => if v = c then parseChunks rest vs f else none
  | Chunk.stdLongYear :: rest, value, f =>
    if value.length < 4 || !isDigitByte (value.headD 0) then none
    else
      match timeAtoi (value.take 4) with
      | none => none
      | some y => parseChunks rest (value.drop 4) { f with year := y }
  | Chunk.stdZeroMonth :: rest, value, f =>
    match getnum value true with
    | none => none
    | some (m, value) =>
      if m ≤ 0 ∨ 12 < m then none else parseChunks rest value { f with month := m }
  | Chunk.stdZeroDay :: rest, value, f =>
    match getnum value true with
    | none => none
    | some (d, value) => parseChunks rest value { f with day := d }
  | Chunk.stdHour :: rest, value, f =>
    match getnum value false with
    | none => none
    | some (h, value) =>
      if h < 0 ∨ 24 ≤ h then none else parseChunks rest value { f with hour := h }
  | Chunk.stdZeroMinute :: rest, value, f =>
    match getnum value true with
    | none => none
    | some (m, value) =>
      if m < 0 ∨ 60 ≤ m then none else parseChunks rest value { f with min := m }
  | Chunk.stdZeroSecond :: rest, value, f =>
    match getnum value true with
    | none => none
    | some (s, value) =>
      if s < 0 ∨ 60 ≤ s then none
      else
        let fracInLayout : Bool := match rest with
          | Chunk.stdFracSecond0 _ :: _ => true
          | _ => false
        let fracInValue : Bool := match value with
          | c0 :: c1 :: _ => commaOrPeriod c0 && isDigitByte c1
          | _ => false
        if fracInValue && !fracInLayout then
          let n := 2 + digitRun (value.drop 2)
          match parseNanoseconds value n with
          | none => none
          | some ns => parseChunks rest (value.drop n) { f with sec := s, nsec := ns }
        else parseChunks rest value { f with sec := s }
  | Chunk.stdFracSecond0 digits :: rest, value, f =>
    let ndigit := 1 + digits
    if value.length < ndigit then none
    else
      match parseNanoseconds value ndigit with
      | none => none
      | some ns => parseChunks rest (value.drop ndigit) { f with nsec := ns }

/-- Go `time.ParseInLocation` for a layout without zone information, given by
its chunks: the fields are parsed, the day of the month is validated, and the
time is built by `time.Date` in `loc`; `none` is a parse error. -/
def ParseInLocation (layout : List Chunk) (value : Str) (loc : Location) : Option Time :=
  match parseChunks layout value ⟨0, -1, -1, 0, 0, 0, 0⟩ with
  | none => none
  | some f =>
    let month := if f.month < 0 then 1 else f.month
    let day := if f.day < 0 then 1 else f.day
    if day < 1 ∨ day > daysIn month f.year then none
    else some (Date f.year month day f.hour f.min f.sec f.nsec loc)

/-- Layout `"20060102"`. -/
def layoutBasicDate : List Chunk := [Chunk.stdLongYear, Chunk.stdZeroMonth, Chunk.stdZeroDay]

/-- Layout `"2006-01-02"`. -/
def layoutDate : List Chunk :=
  [Chunk.stdLongYear, Chunk.literal 45, Chunk.stdZeroMonth, Chunk.literal 45, Chunk.stdZeroDay]

/-- Layout `"20060102T15"`. -/
def layoutBasicHour : List Chunk := layoutBasicDate ++ [Chunk.literal 84, Chunk.stdHour]

/-- Layout `"20060102T1504"`. -/
def layoutBasicMinute : List Chunk := layoutBasicHour ++ [Chunk.stdZeroMinute]

/-- Layout `"20060102T150405"`. -/
def layoutBasicSecond : List Chunk := layoutBasicMinute ++ [Chunk.stdZeroSecond]

/-- Layout `"20060102T150405.000"`. -/
def layoutBasicMilli : List Chunk := layoutBasicSecond ++ [Chunk.stdFracSecond0 3]

/-- Layout `"2006-01-02T15"`. -/
def layoutHour : List Chunk := layoutDate ++ [Chunk.literal 84, Chunk.stdHour]

/-- Layout `"2006-01-02T15:04"`. -/
def layoutMinute : List Chunk := layoutHour ++ [Chunk.literal 58, Chunk.stdZeroMinute]

/-- Layout `"2006-01-02T15:04:05"`. -/
def layoutSecond : List Chunk := layoutMinute ++ [Chunk.literal 58, Chunk.stdZeroSecond]

/-- Layout `"2006-01-02T15:04:05.000"`. -/
def layoutMilli : List Chunk := layoutSecond ++ [Chunk.stdFracSecond0 3]

/-- Go `time.Hour`, `time.Minute`, `time.Second`, `time.Millisecond`: durations
in nanoseconds. -/
def Hour : Int := 3600000000000

def Minute : Int := 60000000000

def Second : Int := 1000000000

def Millisecond : Int := 1000000

/-- Go `time.Monday`. -/
def Monday : Int := 1

/-! ## The package `timeframe` -/

/-- What the package reads from its environment: `time.Local` and the instant
`time.Now()` returns. -/
structure Env where
  Local : Location
  now : Int

/-- The location a parser works in: the one passed, or `time.Local` for nil. -/
def Env.locOf (env : Env) (loc : Option Location) : Location :=
  match loc with
  | none => env.Local
  | some l => l

/-- The reference instant the relative parser works from: the one passed, or
`time.Now()` for nil. -/
def Env.timeOf (env : Env) (t : Option Time) : Time :=
  match t with
  | none => ⟨env.now, env.Local⟩
  | some t => t

/-- File `range.go`: `Range`. -/
structure Range where
  LowerInc : Time
  UpperExc : Time
  deriving DecidableEq, Repr

/-- File `range.go`: `Range.IsZero`. -/
def Range.IsZero (r : Range) : Bool := r.LowerInc.IsZero && r.UpperExc.IsZero

/-- The pair `(Range, error)` a parser returns; `failed` says that the error is
not nil. -/
structure Result where
  range : Range
  failed : Bool
  deriving DecidableEq, Repr

def maxOffset : Int := 999

def firstWeekday : Int := Monday

def allowYYYYMM : Bool := true

def minYear : Int := 1

def maxYear : Int := 9999

/-- File `timeframe.go`: `err`. -/
def err : Result := ⟨⟨Time.zero, Time.zero⟩, true⟩

/-- File `timeframe.go`: `year`. -/
def year (y l : Int) (loc : Location) : Result :=
  let year := Date y 1 1 0 0 0 0 loc
  ⟨⟨year, year.AddDate l 0 0⟩, false⟩

/-- File `timeframe.go`: `month`. -/
def month (y m l : Int) (loc : Location) : Result :=
  let month := Date y m 1 0 0 0 0 loc
  ⟨⟨month, month.AddDate 0 l 0⟩, false⟩

/-- File `timeframe.go`: `day`. -/
def day (y m d l : Int) (loc : Location) : Result :=
  let today := Date y m d 0 0 0 0 loc
  ⟨⟨today, today.AddDate 0 0 l⟩, false⟩

/-- File `timeframe.go`: `minute`. -/
def minute (y m d hh mm l : Int) (loc : Location) : Result :=
  let t := Date y m d hh mm 0 0 loc
  ⟨⟨t, t.Add (Minute * l)⟩, false⟩

/-- File `timeframe.go`: `week`. -/
def week (y w o l : Int) (loc : Location) : Result :=
  let jan4 := Date y 1 4 0 0 0 0 loc
  let d := jan4.Weekday - firstWeekday
  let d := if d < 0 then d + 7 else d
  let week := jan4.AddDate 0 0 (-d + w * 7 - 7 + o)
  ⟨⟨week, week.AddDate 0 0 l⟩, false⟩

/-- The Go slice expression `s[lo:hi]`; `none` is the run-time panic for bounds
out of range. -/
def substr (s : Str) (lo hi : Nat) : Option Str :=
  if lo ≤ hi ∧ hi ≤ s.length then some ((s.take hi).drop lo) else none

/-- File `absolute.go`: `parse`, with `none` for the sentinel -1. -/
def parse (s : Str) (min max : Int) : Option Int :=
  match Atoi s with
  | none => none
  | some i => if i < min ∨ i > max then none else some i

/-- File `absolute.go`: `parseYear`. -/
def parseYear (sy : Str) (loc : Location) : Result :=
  match parse sy minYear maxYear with
  | none => err
  | some y => year y 1 loc

/-- File `absolute.go`: `parseMonth`. -/
def parseMonth (sy sm : Str) (loc : Location) : Result :=
  match parse sy minYear maxYear, parse sm 1 12 with
  | some y, some m => month y m 1 loc
  | _, _ => err

/-- File `absolute.go`: `parseISOWeek`. -/
def parseISOWeek (sy sw : Str) (loc : Location) : Result :=
  match parse sy minYear maxYear, parse sw 1 53 with
  | some y, some w => week y w 0 7 loc
  | _, _ => err

/-- File `absolute.go`: `parseISOWeekDate`. -/
def parseISOWeekDate (sy sw swd : Str) (loc : Location) : Result :=
  match parse sy minYear maxYear, parse sw 1 53, parse swd 1 7 with
  | some y, some w, some dw => week y w (dw - 1) 1 loc
  | _, _, _ => err

/-- File `absolute.go`: `parseOrdinalDate`. -/
def parseOrdinalDate (sy sdy : Str) (loc : Location) : Result :=
  match parse sy minYear maxYear, parse sdy 1 366 with
  | some y, some dy => day y 1 dy 1 loc
  | _, _ => err

/-- File `absolute.go`: `parseDate`. -/
def parseDate (layout : List Chunk) (value : Str) (loc : Location) : Result :=
  match ParseInLocation layout value loc with
  | none => err
  | some t => ⟨⟨t, t.AddDate 0 0 1⟩, false⟩

/-- File `absolute.go`: `parseTime`. -/
def parseTime (layout : List Chunk) (value : Str) (d : Int) (loc : Location) : Result :=
  match ParseInLocation layout value loc with
  | none => err
  | some t => ⟨⟨t, t.Add d⟩, false⟩

/-- File `absolute.go`: `Absolute`. The location `none` is Go's `nil`; the
result `none` is a run-time panic (an index or slice out of range). -/
def Absolute (env : Env) (s : Str) (loc : Option Location) : Option Result :=
  if s.length < 4 ∨ s.length > 23 then some err
  else
    let loc := env.locOf loc
    match IndexByte s 45 with
    | none =>
      if s.length = 4 then some (parseYear s loc)
      else if s.length = 6 then
        (if allowYYYYMM then do
          let sy ← substr s 0 4
          let sm ← substr s 4 s.length
          pure (parseMonth sy sm loc)
        else some err)
      else if s.length = 7 then do
        let c ← s[4]?
        if c = 87 then
          let sy ← substr s 0 4
          let sw ← substr s 5 s.length
          pure (parseISOWeek sy sw loc)
        else
          let sy ← substr s 0 4
          let sdy ← substr s 4 s.length
          pure (parseOrdinalDate sy sdy loc)
      else if s.length = 8 then do
        let c ← s[4]?
        if c = 87 then
          let sy ← substr s 0 4
          let sw ← substr s 5 7
          let swd ← substr s 7 s.length
          pure (parseISOWeekDate sy sw swd loc)
        else pure (parseDate layoutBasicDate s loc)
      else if s.length = 11 then some (parseTime layoutBasicHour s Hour loc)
      else if s.length = 13 then some (parseTime layoutBasicMinute s Minute loc)
      else if s.length = 15 then some (parseTime layoutBasicSecond s Second loc)
      else if s.length = 19 then some (parseTime layoutBasicMilli s Millisecond loc)
      else some err
    | some i =>
      if i = 4 then
        if s.length = 7 then do
          let sy ← substr s 0 4
          let sm ← substr s 5 s.length
          pure (parseMonth sy sm loc)
        else if s.length = 8 then do
          let c ← s[5]?
          if c = 87 then
            let sy ← substr s 0 4
            let sw ← substr s 6 s.length
            pure (parseISOWeek sy sw loc)
          else
            let sy ← substr s 0 4
            let sdy ← substr s 5 s.length
            pure (parseOrdinalDate sy sdy loc)
        else if s.length = 10 then do
          let c ← s[5]?
          if c = 87 then
            let c8 ← s[8]?
            if c8 = 45 then
              let sy ← substr s 0 4
              let sw ← substr s 6 8
              let swd ← substr s 9 s.length
              pure (parseISOWeekDate sy sw swd loc)
            else pure (parseDate layoutDate s loc)
          else pure (parseDate layoutDate s loc)
        else if s.length = 13 then some (parseTime layoutHour s Hour loc)
        else if s.length = 16 then some (parseTime layoutMinute s Minute loc)
        else if s.length = 19 then some (parseTime layoutSecond s Second loc)
        else if s.length = 23 then some (parseTime layoutMilli s Millisecond loc)
        else some err
      else some err

/-- File `relative.go`: `newRange`. -/
def newRange (dp : Str) (l u : Int) (t : Time) : Result :=
  let loc := t.loc
  if dp = lit "day" then day t.Year t.Month (t.Day + l) (u - l + 1) loc
  else if dp = lit "hour" then
    minute t.Year t.Month t.Day (t.Hour + l) 0 ((u - l + 1) * 60) loc
  else if dp = lit "min" ∨ dp = lit "minute" then
    minute t.Year t.Month t.Day t.Hour (t.Minute + l) (u - l + 1) loc
  else if dp = lit "month" then month t.Year (t.Month + l) (u - l + 1) loc
  else if dp = lit "year" then year (t.Year + l) (u - l + 1) loc
  else if dp = lit "week" then
    let d := t.Weekday - firstWeekday
    let d := if d < 0 then d + 7 else d
    day t.Year t.Month (-d + t.Day + l * 7) ((u - l + 1) * 7) loc
  else err

/-- File `relative.go`: `slice`. -/
def slice (dp vs : Str) (n : Int) (t : Time) : Result :=
  if vs = lit "ago" then newRange dp (-n) (-n) t
  else if vs = lit "ahead" then newRange dp n n t
  else if vs = lit "prev" ∨ vs = lit "previous" then newRange dp (-n) (-1) t
  else if vs = lit "last" then newRange dp (1 - n) 0 t
  else if vs = lit "this" then newRange dp 0 (n - 1) t
  else if vs = lit "next" then newRange dp 1 n t
  else err

/-- File `relative.go`, `Relative`: the block for a token with one underscore
(`prev_day`), after the token is cut into `vs` and `dp`. -/
def relativeOne (vs dp : Str) (t : Time) : Option Result :=
  if vs.length = 0 ∨ dp.length = 0 then pure err
  else do
    let c ← dp[dp.length - 1]?
    if c = 115 ∨ vs = lit "last" then pure err
    else pure (slice dp vs 1 t)

/-- File `relative.go`, `Relative`: the block for a token with two or more
underscores (`1_day_ago`, `prev_1_day`), after the token is cut into `ns`, `dp`
and `vs`. -/
def relativeThree (ns dp vs : Str) (t : Time) : Option Result :=
  if ns.length = 0 ∨ dp.length = 0 ∨ vs.length = 0 then pure err
  else do
    let c ← vs[0]?
    let (vs, ns, dp) := if c ≠ 97 then (ns, dp, vs) else (vs, ns, dp)
    match Atoi ns with
    | none => pure err
    | some n =>
      if n < 0 ∨ n > maxOffset then pure err
      else
        let rest : Option Result := do
          let c ← dp[dp.length - 1]?
          let dp := if c = 115 then dp.take (dp.length - 1) else dp
          pure (slice dp vs n t)
        if n = 0 then
          let c ← vs[0]?
          if c ≠ 97 then pure err else rest
        else rest

/-- File `relative.go`: `Relative`. The reference `none` is Go's `nil`; the
result `none` is a run-time panic (an index or slice out of range). -/
def Relative (env : Env) (s : Str) (t : Option Time) : Option Result :=
  if s.length < 5 ∨ s.length > 20 then some err
  else
    let t := env.timeOf t
    match IndexByte s 95 with
    | none =>
      if s = lit "yesterday" then some (newRange (lit "day") (-1) (-1) t)
      else if s = lit "today" then some (newRange (lit "day") 0 0 t)
      else if s = lit "tomorrow" then some (newRange (lit "day") 1 1 t)
      else some err
    | some i =>
      match LastIndexByte s 95 with
      | none => none
      | some j =>
        if i = j then do
          let vs ← substr s 0 i
          let dp ← substr s (j + 1) s.length
          relativeOne vs dp t
        else do
          let ns ← substr s 0 i
          let dp ← substr s (i + 1) j
          let vs ← substr s (j + 1) s.length
          relativeThree ns dp vs t

/-- File `timeframe.go`: `Expand`. -/
def Expand (env : Env) (s : Str) (loc : Option Location) : Option Result :=
  if s.length < 4 then some err
  else
    let loc := env.locOf loc
    match s[3]? with
    | none => none
    | some c =>
      if c ≥ 48 ∧ c ≤ 57 then Absolute env s (some loc)
      else Relative env s (some ⟨env.now, loc⟩)

/-! ## Vocabulary of the statements -/

/-- Days in the year `y`. -/
def yearLen (y : Int) : Int := if isLeap y = true then 366 else 365

/-- One from March on in a leap year, when the leap day has passed. -/
def leapShift (leap : Bool) (m : Int) : Int := if leap = true ∧ m ≥ 3 then 1 else 0

/-- Days of the month `m`, February by `leap`. -/
def monthLen (leap : Bool) (m : Int) : Int :=
  if m = 2 ∧ leap = true then 29 else daysBefore m - daysBefore (m - 1)

/-- Days from 0001-01-01 to the day `d` of month `m` (1 to 12) of year `y`, as
`time.Date` counts them; `d` may lie outside the month. -/
def civilDays (y m d : Int) : Int :=
  daysSinceEpoch y + daysBefore (m - 1) + leapShift (isLeap y) m + (d - 1)

/-- Days from 0001-01-01 to the first day of the month with linear index `i`,
the month `i % 12 + 1` of the year `i / 12`. -/
def monthStartDays (i : Int) : Int := civilDays (i / 12) (i % 12 + 1) 1

/-- Nanoseconds in a day. -/
def dayNs : Int := 86400000000000

/-- The location keeps one UTC offset for ever (as `time.UTC` and the result of
`time.FixedZone` do). -/
def Location.fixed (l : Location) : Prop := l.tx = []

instance (l : Location) : Decidable l.fixed := by
  unfold Location.fixed
  infer_instance

/-- The instant of midnight at the start of a day count, in a location with the
constant offset `base`. -/
def midnightNs (days base : Int) : Int := (days * 86400 - base) * 1000000000

/-- The ASCII digit for the last decimal digit of `n`. -/
def digit (n : Nat) : Nat := 48 + n % 10

/-- The two-digit decimal field for `n`. -/
def dec2 (n : Nat) : Str := [digit (n / 10), digit n]

/-- The three-digit decimal field for `n`. -/
def dec3 (n : Nat) : Str := [digit (n / 100), digit (n / 10), digit n]

/-- The four-digit decimal field for `n`. -/
def dec4 (n : Nat) : Str := [digit (n / 1000), digit (n / 100), digit (n / 10), digit n]

/-- The extended calendar-date token `YYYY-MM-DD` with the given decimal fields. -/
def dateToken (y m d : Nat) : Str := dec4 y ++ 45 :: (dec2 m ++ 45 :: dec2 d)

/-- The basic calendar-date token `YYYYMMDD` with the given decimal fields. -/
def basicDateToken (y m d : Nat) : Str := dec4 y ++ (dec2 m ++ dec2 d)

/-- The offsets of Pacific/Apia around the end of 2011: UTC-10 until
2011-12-30T10:00:00Z, UTC+14 from then on (the calendar day 2011-12-30 was
skipped). -/
def apia2011 : Location := ⟨-36000, [(63460836000, 50400)]⟩

/-- A synthetic zone table: 24 hours behind UTC until one second after
0001-01-01T00:00:00Z, and at UTC from then on. -/
def dayJump : Location := ⟨-86400, [(1, 0)]⟩

/-- A synthetic zone table: 48 hours behind UTC until one second after
0001-01-01T00:00:00Z, and at UTC from then on. -/
def twoDayJump : Location := ⟨-172800, [(1, 0)]⟩

/-- The lower bound is not after the upper one, and lies strictly before it
when no error is returned. -/
def Result.ordered (r : Result) : Prop :=
  r.range.LowerInc.ns ≤ r.range.UpperExc.ns ∧
    (r.failed = false → r.range.LowerInc.ns < r.range.UpperExc.ns)

/-- The error is not nil exactly when the `Range` is the zero one. -/
def Result.errorIffZero (r : Result) : Prop := r.failed = true ↔ r.range.IsZero = true

/-- The extended ISO-week token `YYYY-Www`. -/
def weekToken (y w : Nat) : Str := dec4 y ++ 45 :: 87 :: dec2 w

/-- The basic ISO-week token `YYYYWww`. -/
def basicWeekToken (y w : Nat) : Str := dec4 y ++ 87 :: dec2 w

/-- The extended ISO-week-date token `YYYY-Www-D`. -/
def weekDateToken (y w k : Nat) : Str := dec4 y ++ 45 :: 87 :: (dec2 w ++ [45, digit k])

/-- The basic ISO-week-date token `YYYYWwwD`. -/
def basicWeekDateToken (y w k : Nat) : Str := dec4 y ++ 87 :: (dec2 w ++ [digit k])

/-- The extended ordinal-date token `YYYY-DDD`. -/
def ordinalToken (y n : Nat) : Str := dec4 y ++ 45 :: dec3 n

/-- The basic ordinal-date token `YYYYDDD`. -/
def basicOrdinalToken (y n : Nat) : Str := dec4 y ++ dec3 n

/-- The instant is 00:00 UTC of a Monday. -/
def mondayMidnight (M : Int) : Prop := (⟨M, UTC⟩ : Time).Weekday = Monday ∧ M % dayNs = 0

/-- The string `ds` writes the number `n` in one, two or three decimal digits
(leading zeros allowed). -/
def isDecimal (ds : Str) (n : Nat) : Prop :=
  (n ≤ 9 ∧ ds = [digit n]) ∨ (n ≤ 99 ∧ ds = dec2 n) ∨ (n ≤ 999 ∧ ds = dec3 n)

/-- The unit word without its plural `s`, as the last statements of `Relative`
strip it. -/
def stripS (dp : Str) : Str :=
  if dp[dp.length - 1]? = some 115 then dp.take (dp.length - 1) else dp

/-- The instant 00:00 UTC of the day of the instant `tn`. -/
def startOfDay (tn : Int) : Int := tn - tn % dayNs

/-- The start of the minute of the instant `tn` (in UTC). -/
def startOfMinute (tn : Int) : Int := tn - tn % Minute

/-- The start of the hour of the instant `tn` (in UTC). -/
def startOfHour (tn : Int) : Int := tn - tn % Hour

/-- The successful result with the bounds `lo` and `hi` in UTC. -/
def okUTC (lo hi : Int) : Option Result := some ⟨⟨⟨lo, UTC⟩, ⟨hi, UTC⟩⟩, false⟩

/-- The token with every `-` and `:` deleted. -/
def stripSeparators (s : Str) : Str := s.filter (fun c => !(decide (c = 45) || decide (c = 58)))

/-- The unit words of the relative grammar, in the singular. -/
def units : List Str :=
  [lit "day", lit "week", lit "month", lit "year", lit "hour", lit "min", lit "minute"]

/-- The modifiers that may stand before a unit without a count (`prev_day`). -/
def aliasModifiers : List Str := [lit "prev", lit "previous", lit "this", lit "next"]

/-- The modifiers written before the count (`prev_3_days`). -/
def prefixModifiers : List Str :=
  [lit "prev", lit "previous", lit "last", lit "this", lit "next"]

/-- The modifiers written after the unit (`3_days_ago`). -/
def suffixModifiers : List Str := [lit "ago", lit "ahead"]

/-- The instant 00:00 UTC of the first day of the month with linear index `i`:
the month `i % 12 + 1` of the year `i / 12` (rounded down). -/
def monthStartNs (i : Int) : Int := (Date (i / 12) (i % 12 + 1) 1 0 0 0 0 UTC).ns

/-- The linear index `12 y + (m - 1)` of the month of a time. -/
def monthIndex (t : Time) : Int := 12 * t.Year + (t.Month - 1)

/-- Every result the computation returns is a failure. -/
def allFailed (o : Option Result) : Prop := ∀ r, o = some r → r.failed = true

/-- The field does not denote an integer of the range: `strconv.Atoi` reads no
integer from it, or one outside `[lo, hi]`. -/
def notIntegerIn (field : Str) (lo hi : Int) : Prop :=
  ∀ n, Atoi field = some n → n < lo ∨ hi < n

/-- The UTC offsets of the location: the one in force before the first
transition and those the transitions bring in. -/
def Location.offsets (l : Location) : List Int := l.base :: l.tx.map Prod.snd

/-- No two UTC offsets of the location differ by more than `B` seconds. -/
def Location.spanAtMost (l : Location) (B : Int) : Prop :=
  ∀ a ∈ l.offsets, ∀ b ∈ l.offsets, b - a ≤ B

instance (l : Location) (B : Int) : Decidable (l.spanAtMost B) := by
  unfold Location.spanAtMost
  infer_instance

/-- Any two UTC offsets of the location differ by less than `B` seconds. -/
def Location.spanBelow (l : Location) (B : Int) : Prop :=
  ∀ a ∈ l.offsets, ∀ b ∈ l.offsets, b - a < B

instance (l : Location) (B : Int) : Decidable (l.spanBelow B) := by
  unfold Location.spanBelow
  infer_instance

/-- No UTC offset of the location is `B` seconds or more ahead of the offset in
force at the zero instant 0001-01-01T00:00:00Z. -/
def Location.aheadOfZeroBelow (l : Location) (B : Int) : Prop :=
  ∀ b ∈ l.offsets, b - (l.lookup 0).offset < B

instance (l : Location) (B : Int) : Decidable (l.aheadOfZeroBelow B) := by
  unfold Location.aheadOfZeroBelow
  infer_instance

/-- What every result satisfies in the location `loc` it was computed in: a
failure carries the zero `Range`; in a success the upper bound is after the
lower one, or it lies a whole number `k ≥ 1` of days after it on the wall
clock, the lower bound read with the offset in force at it and the upper one
with an offset `b` of the location. -/
def Result.spaced (r : Result) (loc : Location) : Prop :=
  (r.failed = true → r.range = ⟨Time.zero, Time.zero⟩) ∧
    (r.failed = false →
      r.range.LowerInc.ns < r.range.UpperExc.ns ∨
        ∃ b ∈ loc.offsets, ∃ k : Int, 1 ≤ k ∧
          r.range.UpperExc.ns - r.range.LowerInc.ns =
            ((loc.lookup (r.range.LowerInc.ns / 1000000000)).offset - b + 86400 * k) *
              1000000000)

/-- Every result the computation can return is spaced in `loc`. -/
def allSpaced (loc : Location) (o : Option Result) : Prop := ∀ r, o = some r → r.spaced loc

/-- Europe/London in 2017: at UTC until 2017-03-26T01:00:00Z, one hour ahead
until 2017-10-29T01:00:00Z, at UTC afterwards. -/
def london2017 : Location := ⟨0, [(63626086800, 3600), (63644835600, 0)]⟩

/-- The seven tokens with a count for the unit word `W`, the count written `ds`
with the value `n`: each yields `R l u` for the offsets `(l, u)` of its
modifier, `(-n, -n)` for `ago` and `(n, n)` for `ahead` (any `n`), and for `n`
of at least 1 `(-n, -1)` for `prev` and `previous`, `(1 - n, 0)` for `last`,
`(0, n - 1)` for `this` and `(1, n)` for `next`. -/
def countedForms (env : Env) (t : Time) (ds : Str) (n : Nat) (W : Str)
    (R : Int → Int → Option Result) : Prop :=
  Relative env (ds ++ lit "_" ++ W ++ lit "_ago") (some t) = R (-(n : Int)) (-(n : Int)) ∧
    Relative env (ds ++ lit "_" ++ W ++ lit "_ahead") (some t) = R n n ∧
    (1 ≤ n →
      Relative env (lit "prev_" ++ ds ++ lit "_" ++ W) (some t) = R (-(n : Int)) (-1) ∧
      Relative env (lit "previous_" ++ ds ++ lit "_" ++ W) (some t) = R (-(n : Int)) (-1) ∧
      Relative env (lit "last_" ++ ds ++ lit "_" ++ W) (some t) = R (1 - (n : Int)) 0 ∧
      Relative env (lit "this_" ++ ds ++ lit "_" ++ W) (some t) = R 0 ((n : Int) - 1) ∧
      Relative env (lit "next_" ++ ds ++ lit "_" ++ W) (some t) = R 1 n)

/-- The four tokens without a count for the unit word `W`: each yields `R l u`
for the offsets of its modifier at the count 1. -/
def uncountedForms (env : Env) (t : Time) (W : Str) (R : Int → Int → Option Result) : Prop :=
  Relative env (lit "prev_" ++ W) (some t) = R (-1) (-1) ∧
    Relative env (lit "previous_" ++ W) (some t) = R (-1) (-1) ∧
    Relative env (lit "this_" ++ W) (some t) = R 0 0 ∧
    Relative env (lit "next_" ++ W) (some t) = R 1 1

/-- The interval from `l` steps to `u + 1` steps after `start`, in UTC, without
error. -/
def stepRange (start step l u : Int) : Option Result :=
  okUTC (start + l * step) (start + (u + 1) * step)

/-- The interval from the start of the month `l` months after the month of index
`i` to the start of the month `u + 1` months after it, in UTC, without error. -/
def monthRange (i l u : Int) : Option Result :=
  okUTC (monthStartNs (i + l)) (monthStartNs (i + u + 1))

/-! ## The calendar of the `time` package -/

theorem norm_12 (hi lo : Int) : norm hi lo 12 = (hi + lo / 12, lo % 12) := by
  unfold norm
  by_cases h : lo < 0 <;> simp only [h, if_true, if_false] <;> split_ifs <;>
    refine Prod.ext ?_ ?_ <;> simp only <;> omega

theorem norm_24 (hi lo : Int) : norm hi lo 24 = (hi + lo / 24, lo % 24) := by
  unfold norm
  by_cases h : lo < 0 <;> simp only [h, if_true, if_false] <;> split_ifs <;>
    refine Prod.ext ?_ ?_ <;> simp only <;> omega

theorem norm_60 (hi lo : Int) : norm hi lo 60 = (hi + lo / 60, lo % 60) := by
  unfold norm
  by_cases h : lo < 0 <;> simp only [h, if_true, if_false] <;> split_ifs <;>
    refine Prod.ext ?_ ?_ <;> simp only <;> omega

theorem norm_nano (hi lo : Int) :
    norm hi lo 1000000000 = (hi + lo / 1000000000, lo % 1000000000) := by
  unfold norm
  by_cases h : lo < 0 <;> simp only [h, if_true, if_false] <;> split_ifs <;>
    refine Prod.ext ?_ ?_ <;> simp only <;> omega

theorem isLeap_iff (y : Int) :
    isLeap y = true ↔ (y % 4 = 0 ∧ (y % 100 ≠ 0 ∨ y % 400 = 0)) := by
  simp [isLeap]

theorem yearLen_ge (y : Int) : 365 ≤ yearLen y ∧ yearLen y ≤ 366 := by
  unfold yearLen
  split_ifs <;> omega

/-- The year and the day of the year `absDate` finds recompose to the day
count, and the day lies inside the year. -/
theorem absYear_spec (D : Int) :
    daysSinceEpoch (absYear D).1 + (absYear D).2 = D ∧ 0 ≤ (absYear D).2 ∧
      (absYear D).2 < yearLen (absYear D).1 := by
  simp only [absYear, daysSinceEpoch, yearLen, isLeap_iff]
  generalize hq : D / 146097 = q
  have hr : 0 ≤ D - 146097 * q ∧ D - 146097 * q < 146097 := by omega
  generalize hrr : D - 146097 * q = r at *
  generalize hn1 : r / 36524 = n1
  have h1 : 0 ≤ n1 ∧ n1 ≤ 4 := by omega
  generalize hc : n1 - n1 / 4 = c
  have h2 : 0 ≤ c ∧ c ≤ 3 ∧ 0 ≤ r - 36524 * c ∧ r - 36524 * c ≤ 36524 := by omega
  generalize hr2 : r - 36524 * c = r2 at *
  generalize hn4 : r2 / 1461 = n4
  have h3 : 0 ≤ n4 ∧ n4 ≤ 24 ∧ 0 ≤ r2 - 1461 * n4 ∧ r2 - 1461 * n4 < 1461 := by omega
  generalize hr3 : r2 - 1461 * n4 = r3 at *
  generalize hn : r3 / 365 = n
  have h4 : 0 ≤ n ∧ n ≤ 4 := by omega
  generalize hk : n - n / 4 = k
  have h5 : 0 ≤ k ∧ k ≤ 3 ∧ 0 ≤ r3 - 365 * k ∧ r3 - 365 * k ≤ 365 := by omega
  have e1 : (400 * q + 100 * c + 4 * n4 + k + 1 - 1) / 400 = q := by omega
  rw [e1]
  have e2 : (400 * q + 100 * c + 4 * n4 + k + 1 - 1 - 400 * q) / 100 = c := by omega
  rw [e2]
  have e3 : (400 * q + 100 * c + 4 * n4 + k + 1 - 1 - 400 * q - 100 * c) / 4 = n4 := by omega
  rw [e3]
  refine ⟨by omega, by omega, ?_⟩
  split_ifs with hl
  · omega
  · omega

theorem daysSinceEpoch_closed (y : Int) :
    daysSinceEpoch y = 365 * (y - 1) + (y - 1) / 4 - (y - 1) / 100 + (y - 1) / 400 := by
  simp only [daysSinceEpoch]
  omega

theorem daysSinceEpoch_succ (y : Int) :
    daysSinceEpoch (y + 1) = daysSinceEpoch y + yearLen y := by
  simp only [daysSinceEpoch_closed, yearLen, isLeap_iff]
  split_ifs <;> omega

theorem daysSinceEpoch_add (y : Int) (k : Nat) :
    daysSinceEpoch y + 365 * k ≤ daysSinceEpoch (y + k) := by
  induction k with
  | zero => simp
  | succ n ih =>
    have h := daysSinceEpoch_succ (y + n)
    have h2 := yearLen_ge (y + n)
    push_cast
    rw [← add_assoc, h]
    omega

theorem daysSinceEpoch_lt {y z : Int} (h : y < z) :
    daysSinceEpoch y + yearLen y ≤ daysSinceEpoch z := by
  obtain ⟨k, rfl⟩ : ∃ k : Nat, z = y + 1 + k := ⟨(z - y - 1).toNat, by omega⟩
  have := daysSinceEpoch_add (y + 1) k
  rw [daysSinceEpoch_succ] at this
  omega

/-- A day count written as year and day of the year is read back by `absDate`. -/
theorem absYear_days (y yd : Int) (h0 : 0 ≤ yd) (h1 : yd < yearLen y) :
    absYear (daysSinceEpoch y + yd) = (y, yd) := by
  obtain ⟨e, p0, p1⟩ := absYear_spec (daysSinceEpoch y + yd)
  generalize absYear (daysSinceEpoch y + yd) = p at *
  obtain ⟨Y, d⟩ := p
  simp only at e p0 p1
  have hY : Y = y := by
    rcases lt_trichotomy Y y with hlt | heq | hgt
    · have := daysSinceEpoch_lt hlt
      omega
    · exact heq
    · have := daysSinceEpoch_lt hgt
      omega
  subst hY
  simp only [Prod.mk.injEq, true_and]
  omega

theorem wallSeconds_eq (y m d h mi s ns : Int) :
    wallSeconds y m d h mi s ns =
      (civilDays (y + (m - 1) / 12) ((m - 1) % 12 + 1) d * 86400 + h * 3600 + mi * 60 + s
          + ns / 1000000000, ns % 1000000000) := by
  unfold wallSeconds
  rw [norm_12, norm_nano]
  simp only []
  rw [norm_60]
  simp only []
  rw [norm_60]
  simp only []
  rw [norm_24]
  simp only [civilDays, leapShift, add_sub_cancel_right]
  refine Prod.ext ?_ rfl
  simp only
  generalize daysSinceEpoch (y + (m - 1) / 12) = A
  generalize daysBefore ((m - 1) % 12) = B
  split_ifs <;> omega

set_option maxRecDepth 100000 in
theorem absMonthDay_inv_table : ∀ m : Nat, m < 13 → ∀ d : Nat, d < 32 → ∀ b : Bool,
    (1 ≤ m ∧ 1 ≤ d ∧ (d : Int) ≤ monthLen b m) →
      absMonthDay b (daysBefore ((m : Int) - 1) + leapShift b m + ((d : Int) - 1)) = ((m : Int), (d : Int)) := by
  decide

set_option maxRecDepth 100000 in
theorem absMonthDay_table : ∀ n : Nat, n < 366 → ∀ b : Bool, (b = true ∨ n < 365) →
    1 ≤ (absMonthDay b n).1 ∧ (absMonthDay b n).1 ≤ 12 ∧ 1 ≤ (absMonthDay b n).2 ∧
      (absMonthDay b n).2 ≤ monthLen b (absMonthDay b n).1 ∧
      daysBefore ((absMonthDay b n).1 - 1) + leapShift b (absMonthDay b n).1 +
        ((absMonthDay b n).2 - 1) = n := by
  decide

theorem monthLen_table : ∀ n : Nat, n < 13 → ∀ b : Bool, 1 ≤ n →
    28 ≤ monthLen b n ∧ monthLen b n ≤ 31 := by
  decide

theorem monthLen_bounds (b : Bool) (m : Int) (h1 : 1 ≤ m) (h2 : m ≤ 12) :
    28 ≤ monthLen b m ∧ monthLen b m ≤ 31 := by
  obtain ⟨n, rfl⟩ : ∃ n : Nat, m = n := ⟨m.toNat, by omega⟩
  exact monthLen_table n (by omega) b (by omega)

/-- The month and the day `absDate` finds recompose to the day of the year. -/
theorem absMonthDay_spec (b : Bool) (yd : Int) (h0 : 0 ≤ yd)
    (h1 : yd < (if b = true then 366 else 365)) :
    1 ≤ (absMonthDay b yd).1 ∧ (absMonthDay b yd).1 ≤ 12 ∧ 1 ≤ (absMonthDay b yd).2 ∧
      (absMonthDay b yd).2 ≤ monthLen b (absMonthDay b yd).1 ∧
      daysBefore ((absMonthDay b yd).1 - 1) + leapShift b (absMonthDay b yd).1 +
        ((absMonthDay b yd).2 - 1) = yd := by
  obtain ⟨n, rfl⟩ : ∃ n : Nat, yd = n := ⟨yd.toNat, by omega⟩
  have hn : n < 366 := by split_ifs at h1 <;> omega
  have hb : b = true ∨ n < 365 := by
    cases b
    · right; simp at h1; omega
    · left; rfl
  exact absMonthDay_table n hn b hb

/-- A day of the year written as month and day is read back by `absDate`. -/
theorem absMonthDay_inv (b : Bool) (m d : Int) (hm1 : 1 ≤ m) (hm2 : m ≤ 12) (hd1 : 1 ≤ d)
    (hd2 : d ≤ monthLen b m) :
    absMonthDay b (daysBefore (m - 1) + leapShift b m + (d - 1)) = (m, d) := by
  have hb := monthLen_bounds b m hm1 hm2
  obtain ⟨n, rfl⟩ : ∃ n : Nat, m = n := ⟨m.toNat, by omega⟩
  obtain ⟨k, rfl⟩ : ∃ k : Nat, d = k := ⟨d.toNat, by omega⟩
  exact absMonthDay_inv_table n (by omega) k (by omega) b ⟨by omega, by omega, hd2⟩

theorem lookup_fixed (l : Location) (h : l.fixed) (sec : Int) :
    l.lookup sec = ⟨l.base, none, none⟩ := by
  unfold Location.fixed at h
  simp [Location.lookup, h, lookupFrom]

theorem Date_fixed (y m d h mi s ns : Int) (loc : Location) (hl : loc.fixed) :
    Date y m d h mi s ns loc =
      ⟨((wallSeconds y m d h mi s ns).1 - loc.base) * 1000000000
        + (wallSeconds y m d h mi s ns).2, loc⟩ := by
  unfold Date
  simp only [lookup_fixed loc hl]
  by_cases h0 : loc.base = 0
  · simp [h0]
  · simp [h0]

theorem abs_fixed (t : Time) (hl : t.loc.fixed) : t.abs = t.ns / 1000000000 + t.loc.base := by
  simp [Time.abs, lookup_fixed t.loc hl]

/-- The date fields of a time recompose to the day count of its wall clock. -/
theorem fields_days (t : Time) :
    civilDays t.Year t.Month t.Day = t.abs / 86400 ∧ 1 ≤ t.Month ∧ t.Month ≤ 12 ∧
      1 ≤ t.Day ∧ t.Day ≤ monthLen (isLeap t.Year) t.Month := by
  unfold Time.Year Time.Month Time.Day civilDays
  obtain ⟨e, p0, p1⟩ := absYear_spec (t.abs / 86400)
  generalize absYear (t.abs / 86400) = p at *
  obtain ⟨Y, yd⟩ := p
  simp only at e p0 p1 ⊢
  have := absMonthDay_spec (isLeap Y) yd p0 (by unfold yearLen at p1; exact p1)
  omega

/-- The clock fields of a time recompose to the second of the day. -/
theorem fields_clock (t : Time) :
    t.Hour * 3600 + t.Minute * 60 + t.Second = t.abs % 86400 ∧ 0 ≤ t.Hour ∧ t.Hour < 24 ∧
      0 ≤ t.Minute ∧ t.Minute < 60 ∧ 0 ≤ t.Second ∧ t.Second < 60 ∧
      0 ≤ t.Nanosecond ∧ t.Nanosecond < 1000000000 := by
  unfold Time.Hour Time.Minute Time.Second Time.Nanosecond
  omega

theorem weekday_eq (t : Time) : t.Weekday = (t.abs / 86400 + 1) % 7 := by
  unfold Time.Weekday
  omega

/-- In a location with a constant offset, `AddDate` by days moves the instant by
that many days of 24 hours. -/
theorem AddDate_days (t : Time) (hl : t.loc.fixed) (k : Int) :
    t.AddDate 0 0 k = ⟨t.ns + k * dayNs, t.loc⟩ := by
  obtain ⟨e, m1, m2, -, -⟩ := fields_days t
  obtain ⟨c, -, -, -, -, -, -, n0, n1⟩ := fields_clock t
  have ha := abs_fixed t hl
  unfold Time.AddDate
  rw [Date_fixed _ _ _ _ _ _ _ _ hl, wallSeconds_eq]
  simp only [add_zero, dayNs]
  have hm : (t.Month - 1) / 12 = 0 := by omega
  have hm' : (t.Month - 1) % 12 + 1 = t.Month := by omega
  rw [hm, hm', add_zero]
  have hc : civilDays t.Year t.Month (t.Day + k) = civilDays t.Year t.Month t.Day + k := by
    unfold civilDays; omega
  rw [hc, e]
  congr 1
  unfold Time.Nanosecond at *
  omega

theorem Date_loc (y m d h mi s ns : Int) (loc : Location) :
    (Date y m d h mi s ns loc).loc = loc := by
  unfold Date
  rfl

/-- `time.Date` normalises the month into the year. -/
theorem Date_norm_month (y m d h mi s ns : Int) (loc : Location) :
    Date y m d h mi s ns loc =
      Date (y + (m - 1) / 12) ((m - 1) % 12 + 1) d h mi s ns loc := by
  have e : wallSeconds y m d h mi s ns =
      wallSeconds (y + (m - 1) / 12) ((m - 1) % 12 + 1) d h mi s ns := by
    rw [wallSeconds_eq, wallSeconds_eq]
    have h1 : ((m - 1) % 12 + 1 - 1) / 12 = 0 := by omega
    have h2 : ((m - 1) % 12 + 1 - 1) % 12 = (m - 1) % 12 := by omega
    rw [h1, h2, add_zero]
  unfold Date
  rw [e]

theorem yearDay_table : ∀ n : Nat, n < 13 → ∀ b : Bool, 1 ≤ n →
    0 ≤ daysBefore ((n : Int) - 1) ∧
      daysBefore ((n : Int) - 1) + leapShift b n + monthLen b n ≤ (if b = true then 366 else 365) := by
  decide

/-- In a location with a constant offset, `time.Date` at in-range fields gives a
time with exactly these fields. -/
theorem Date_fields (y m d h mi s ns : Int) (loc : Location) (hl : loc.fixed)
    (hm1 : 1 ≤ m) (hm2 : m ≤ 12) (hd1 : 1 ≤ d) (hd2 : d ≤ monthLen (isLeap y) m)
    (hh1 : 0 ≤ h) (hh2 : h < 24) (hmi1 : 0 ≤ mi) (hmi2 : mi < 60) (hs1 : 0 ≤ s) (hs2 : s < 60)
    (hn1 : 0 ≤ ns) (hn2 : ns < 1000000000) :
    (Date y m d h mi s ns loc).Year = y ∧ (Date y m d h mi s ns loc).Month = m ∧
      (Date y m d h mi s ns loc).Day = d ∧ (Date y m d h mi s ns loc).Hour = h ∧
      (Date y m d h mi s ns loc).Minute = mi ∧ (Date y m d h mi s ns loc).Second = s ∧
      (Date y m d h mi s ns loc).Nanosecond = ns := by
  have hloc : (Date y m d h mi s ns loc).loc.fixed := by rw [Date_loc]; exact hl
  have ha := abs_fixed _ hloc
  rw [Date_loc] at ha
  have hns : (Date y m d h mi s ns loc).ns =
      (civilDays y m d * 86400 + h * 3600 + mi * 60 + s - loc.base) * 1000000000 + ns := by
    rw [Date_fixed _ _ _ _ _ _ _ _ hl, wallSeconds_eq]
    have h1 : (m - 1) / 12 = 0 := by omega
    have h2 : (m - 1) % 12 + 1 = m := by omega
    simp only [h1, h2, add_zero]
    omega
  have habs : (Date y m d h mi s ns loc).abs = civilDays y m d * 86400 + h * 3600 + mi * 60 + s := by
    rw [ha, hns]; omega
  obtain ⟨n, rfl⟩ : ∃ n : Nat, m = n := ⟨m.toNat, by omega⟩
  have ht := yearDay_table n (by omega) (isLeap y) (by omega)
  have hday : (Date y (↑n) d h mi s ns loc).abs / 86400 = civilDays y n d := by
    rw [habs]; omega
  have hY : absYear (civilDays y n d) =
      (y, daysBefore ((n : Int) - 1) + leapShift (isLeap y) n + (d - 1)) := by
    have := absYear_days y (daysBefore ((n : Int) - 1) + leapShift (isLeap y) n + (d - 1))
      (by unfold leapShift; split_ifs <;> omega) (by unfold yearLen; omega)
    rw [← this]
    unfold civilDays
    congr 1
    omega
  have hMD := absMonthDay_inv (isLeap y) n d hm1 hm2 hd1 hd2
  unfold Time.Year Time.Month Time.Day Time.Hour Time.Minute Time.Second Time.Nanosecond
  rw [hday, hY]
  simp only [hMD, true_and]
  rw [habs, hns]
  omega

theorem daysBefore_step_table : ∀ r : Nat, r < 11 → ∀ b : Bool,
    daysBefore (r : Int) + leapShift b ((r : Int) + 1) + 28 ≤
      daysBefore ((r : Int) + 1) + leapShift b ((r : Int) + 1 + 1) := by
  decide

/-- Consecutive months start at least 28 days apart. -/
theorem monthStartDays_succ (i : Int) : monthStartDays i + 28 ≤ monthStartDays (i + 1) := by
  unfold monthStartDays civilDays
  by_cases h : i % 12 = 11
  · have h1 : (i + 1) / 12 = i / 12 + 1 := by omega
    have h2 : (i + 1) % 12 = 0 := by omega
    rw [h1, h2, h, daysSinceEpoch_succ]
    have e1 : daysBefore ((11 : Int) + 1 - 1) = 334 := by decide
    have e2 : daysBefore ((0 : Int) + 1 - 1) = 0 := by decide
    rw [e1, e2]
    unfold yearLen leapShift
    split_ifs <;> omega
  · have h1 : (i + 1) / 12 = i / 12 := by omega
    have h2 : (i + 1) % 12 = i % 12 + 1 := by omega
    rw [h1, h2]
    obtain ⟨r, hr⟩ : ∃ r : Nat, i % 12 = r := ⟨(i % 12).toNat, by omega⟩
    rw [hr]
    have := daysBefore_step_table r (by omega) (isLeap (i / 12))
    simp only [add_sub_cancel_right]
    omega

theorem monthStartDays_add (i : Int) (k : Nat) :
    monthStartDays i + 28 * k ≤ monthStartDays (i + k) := by
  induction k with
  | zero => simp
  | succ n ih =>
    have h := monthStartDays_succ (i + n)
    push_cast
    rw [← add_assoc]
    omega

theorem monthStartDays_lt {i j : Int} (h : i < j) : monthStartDays i + 28 ≤ monthStartDays j := by
  obtain ⟨k, rfl⟩ : ∃ k : Nat, j = i + 1 + k := ⟨(j - i - 1).toNat, by omega⟩
  have h1 := monthStartDays_add (i + 1) k
  have h2 := monthStartDays_succ i
  omega

theorem Date_midnight (y m d : Int) (loc : Location) (hl : loc.fixed) :
    Date y m d 0 0 0 0 loc =
      ⟨midnightNs (civilDays (y + (m - 1) / 12) ((m - 1) % 12 + 1) d) loc.base, loc⟩ := by
  rw [Date_fixed _ _ _ _ _ _ _ _ hl, wallSeconds_eq]
  unfold midnightNs
  congr 1
  simp only
  omega

theorem civilDays_month_start (y m : Int) :
    civilDays (y + (m - 1) / 12) ((m - 1) % 12 + 1) 1 = monthStartDays (12 * y + (m - 1)) := by
  unfold monthStartDays
  have h1 : (12 * y + (m - 1)) / 12 = y + (m - 1) / 12 := by omega
  have h2 : (12 * y + (m - 1)) % 12 = (m - 1) % 12 := by omega
  rw [h1, h2]

theorem civilDays_year_start (y : Int) : civilDays y 1 1 = daysSinceEpoch y := by
  unfold civilDays leapShift
  have : daysBefore ((1 : Int) - 1) = 0 := by decide
  rw [this]
  simp

/-- File `timeframe.go`, `year`, in a location with a constant offset: from the
start of year `y` to the start of year `y + l`. -/
theorem year_fixed (y l : Int) (loc : Location) (hl : loc.fixed) :
    year y l loc =
      ⟨⟨⟨midnightNs (daysSinceEpoch y) loc.base, loc⟩,
        ⟨midnightNs (daysSinceEpoch (y + l)) loc.base, loc⟩⟩, false⟩ := by
  have hf := Date_fields y 1 1 0 0 0 0 loc hl (by omega) (by omega) (by omega)
    (by have := monthLen_bounds (isLeap y) 1 (by omega) (by omega); omega)
    (by omega) (by omega) (by omega) (by omega) (by omega) (by omega) (by omega) (by omega)
  obtain ⟨f1, f2, f3, f4, f5, f6, f7⟩ := hf
  unfold year Time.AddDate
  simp only [f1, f2, f3, f4, f5, f6, f7, Date_loc, add_zero]
  rw [Date_midnight _ _ _ _ hl, Date_midnight _ _ _ _ hl]
  simp [civilDays_year_start]

/-- File `timeframe.go`, `month`, in a location with a constant offset: from the
start of the month with linear index `12 y + (m - 1)` to the start of the month
`l` months later. -/
theorem month_fixed (y m l : Int) (loc : Location) (hl : loc.fixed) :
    month y m l loc =
      ⟨⟨⟨midnightNs (monthStartDays (12 * y + (m - 1))) loc.base, loc⟩,
        ⟨midnightNs (monthStartDays (12 * y + (m - 1) + l)) loc.base, loc⟩⟩, false⟩ := by
  have hf := Date_fields (y + (m - 1) / 12) ((m - 1) % 12 + 1) 1 0 0 0 0 loc hl
    (by omega) (by omega) (by omega)
    (by have := monthLen_bounds (isLeap (y + (m - 1) / 12)) ((m - 1) % 12 + 1) (by omega)
          (by omega); omega)
    (by omega) (by omega) (by omega) (by omega) (by omega) (by omega) (by omega) (by omega)
  obtain ⟨f1, f2, f3, f4, f5, f6, f7⟩ := hf
  unfold month Time.AddDate
  rw [Date_norm_month y m]
  simp only [f1, f2, f3, f4, f5, f6, f7, Date_loc, add_zero]
  rw [Date_midnight _ _ _ _ hl, Date_midnight _ _ _ _ hl, civilDays_month_start,
    civilDays_month_start]
  have e1 : 12 * (y + (m - 1) / 12) + ((m - 1) % 12 + 1 - 1) = 12 * y + (m - 1) := by omega
  have e2 : 12 * (y + (m - 1) / 12) + ((m - 1) % 12 + 1 + l - 1) = 12 * y + (m - 1) + l := by
    omega
  rw [e1, e2]

/-- File `timeframe.go`, `day`, in a location with a constant offset: `l` days
of 24 hours from the midnight `time.Date` gives. -/
theorem day_fixed (y m d l : Int) (loc : Location) (hl : loc.fixed) :
    day y m d l loc =
      ⟨⟨Date y m d 0 0 0 0 loc, ⟨(Date y m d 0 0 0 0 loc).ns + l * dayNs, loc⟩⟩, false⟩ := by
  unfold day
  simp only
  rw [AddDate_days _ (by rw [Date_loc]; exact hl), Date_loc]

/-- File `timeframe.go`, `week`, in a location with a constant offset. -/
theorem week_fixed (y w o l : Int) (loc : Location) (hl : loc.fixed) :
    week y w o l loc =
      ⟨⟨⟨(Date y 1 4 0 0 0 0 loc).ns +
            (-(((Date y 1 4 0 0 0 0 loc).Weekday + 6) % 7) + w * 7 - 7 + o) * dayNs, loc⟩,
        ⟨(Date y 1 4 0 0 0 0 loc).ns +
            (-(((Date y 1 4 0 0 0 0 loc).Weekday + 6) % 7) + w * 7 - 7 + o) * dayNs + l * dayNs,
          loc⟩⟩, false⟩ := by
  have hw := weekday_eq (Date y 1 4 0 0 0 0 loc)
  have hd : (if (Date y 1 4 0 0 0 0 loc).Weekday - firstWeekday < 0
      then (Date y 1 4 0 0 0 0 loc).Weekday - firstWeekday + 7
      else (Date y 1 4 0 0 0 0 loc).Weekday - firstWeekday) =
        ((Date y 1 4 0 0 0 0 loc).Weekday + 6) % 7 := by
    unfold firstWeekday Monday
    split_ifs <;> omega
  unfold week
  simp only [hd]
  rw [AddDate_days _ (by rw [Date_loc]; exact hl), Date_loc, AddDate_days _ hl]

theorem parse_bounds {s : Str} {lo hi v : Int} (h : parse s lo hi = some v) : lo ≤ v ∧ v ≤ hi := by
  unfold parse at h
  split at h
  · simp at h
  · split_ifs at h with hc
    simp only [Option.some.injEq] at h
    omega

theorem ParseInLocation_loc {layout : List Chunk} {value : Str} {loc : Location} {t : Time}
    (h : ParseInLocation layout value loc = some t) : t.loc = loc := by
  unfold ParseInLocation at h
  split at h
  · simp at h
  · rename_i f hf
    simp only [] at h
    generalize (if f.month < 0 then 1 else f.month) = mo at h
    generalize (if f.day < 0 then 1 else f.day) = da at h
    by_cases hc : da < 1 ∨ da > daysIn mo f.year
    · rw [if_pos hc] at h
      simp at h
    · rw [if_neg hc] at h
      simp only [Option.some.injEq] at h
      rw [← h, Date_loc]

theorem lookupFrom_mem (tx : List (Int × Int)) (off : Int) (start : Option Int) (sec : Int) :
    (lookupFrom off start tx sec).offset ∈ off :: tx.map Prod.snd := by
  induction tx generalizing off start with
  | nil => simp [lookupFrom]
  | cons p rest ih =>
    obtain ⟨w, o⟩ := p
    unfold lookupFrom
    split_ifs
    · simp
    · have := ih o (some w)
      simp only [List.map_cons, List.mem_cons] at this ⊢
      rcases this with h | h
      · exact Or.inr (Or.inl h)
      · exact Or.inr (Or.inr h)

/-- The offset in force at an instant is one of the offsets of the location. -/
theorem lookup_mem (l : Location) (sec : Int) : (l.lookup sec).offset ∈ l.offsets :=
  lookupFrom_mem l.tx l.base none sec

/-- In every location `time.Date` returns the wall-clock reading less one of
the offsets of the location. -/
theorem Date_ns (y m d h mi s ns : Int) (loc : Location) :
    ∃ b ∈ loc.offsets, Date y m d h mi s ns loc =
      ⟨((wallSeconds y m d h mi s ns).1 - b) * 1000000000 + (wallSeconds y m d h mi s ns).2,
        loc⟩ := by
  unfold Date
  generalize wallSeconds y m d h mi s ns = w
  obtain ⟨unix, nsec⟩ := w
  simp only []
  by_cases h0 : (loc.lookup unix).offset ≠ 0
  · rw [if_pos h0]
    split_ifs
    · exact ⟨_, lookup_mem loc _, rfl⟩
    · exact ⟨_, lookup_mem loc _, rfl⟩
  · rw [if_neg h0]
    refine ⟨(loc.lookup unix).offset, lookup_mem loc _, ?_⟩
    have h1 : (loc.lookup unix).offset = 0 := by simpa using h0
    rw [h1, sub_zero]

theorem AddDate_loc (t : Time) (a b c : Int) : (t.AddDate a b c).loc = t.loc := by
  unfold Time.AddDate
  rw [Date_loc]

/-- In every location `AddDate` moves the wall clock by whole days: the days
between the starts of the two months, and the days added. -/
theorem AddDate_ns (t : Time) (a b c : Int) :
    ∃ β ∈ t.loc.offsets,
      (t.AddDate a b c).ns - t.ns =
        ((t.loc.lookup (t.ns / 1000000000)).offset - β + 86400 *
          (monthStartDays (12 * t.Year + (t.Month - 1) + (12 * a + b)) -
            monthStartDays (12 * t.Year + (t.Month - 1)) + c)) * 1000000000 := by
  obtain ⟨e, m1, m2, -, -⟩ := fields_days t
  obtain ⟨hc, -, -, -, -, -, -, n0, n1⟩ := fields_clock t
  obtain ⟨β, hβ, hD⟩ := Date_ns (t.Year + a) (t.Month + b) (t.Day + c) t.Hour t.Minute
    t.Second t.Nanosecond t.loc
  refine ⟨β, hβ, ?_⟩
  unfold Time.AddDate
  rw [hD, wallSeconds_eq]
  simp only []
  have h1 : civilDays (t.Year + a + (t.Month + b - 1) / 12) ((t.Month + b - 1) % 12 + 1)
      (t.Day + c) =
        civilDays (t.Year + a + (t.Month + b - 1) / 12) ((t.Month + b - 1) % 12 + 1) 1 +
          (t.Day + c - 1) := by
    unfold civilDays
    omega
  have ej : 12 * (t.Year + a) + (t.Month + b - 1) =
      12 * t.Year + (t.Month - 1) + (12 * a + b) := by omega
  rw [h1, civilDays_month_start, ej]
  have h2 : civilDays t.Year t.Month t.Day =
      monthStartDays (12 * t.Year + (t.Month - 1)) + (t.Day - 1) := by
    have h3 := civilDays_month_start t.Year t.Month
    have hm : (t.Month - 1) / 12 = 0 := by omega
    have hm' : (t.Month - 1) % 12 + 1 = t.Month := by omega
    rw [hm, hm', add_zero] at h3
    rw [← h3]
    unfold civilDays
    omega
  have ha : t.abs = t.ns / 1000000000 + (t.loc.lookup (t.ns / 1000000000)).offset := rfl
  unfold Time.Nanosecond at *
  generalize monthStartDays (12 * t.Year + (t.Month - 1) + (12 * a + b)) = J at *
  generalize monthStartDays (12 * t.Year + (t.Month - 1)) = I at *
  generalize (t.loc.lookup (t.ns / 1000000000)).offset = off at *
  omega

theorem sp_err {L : Location} : err.spaced L := by
  unfold Result.spaced err
  simp

/-- A time and the time `AddDate` gives from it for a positive shift. -/
theorem sp_AddDate (t : Time) (a b c : Int)
    (h : (1 ≤ 12 * a + b ∧ 0 ≤ c) ∨ (12 * a + b = 0 ∧ 1 ≤ c)) :
    (⟨⟨t, t.AddDate a b c⟩, false⟩ : Result).spaced t.loc := by
  refine ⟨fun hf => absurd hf (by simp), fun _ => Or.inr ?_⟩
  obtain ⟨β, hβ, hd⟩ := AddDate_ns t a b c
  refine ⟨β, hβ, _, ?_, hd⟩
  rcases h with ⟨h1, h2⟩ | ⟨h1, h2⟩
  · have := monthStartDays_lt (show 12 * t.Year + (t.Month - 1) <
      12 * t.Year + (t.Month - 1) + (12 * a + b) by omega)
    omega
  · rw [h1, add_zero]
    omega

/-- A time and the time a positive duration later. -/
theorem sp_Add (t : Time) (d : Int) (hd : 0 < d) (L : Location) :
    (⟨⟨t, t.Add d⟩, false⟩ : Result).spaced L := by
  refine ⟨fun hf => absurd hf (by simp), fun _ => Or.inl ?_⟩
  unfold Time.Add
  simp only
  omega

theorem sp_year (y l : Int) (loc : Location) (h : 1 ≤ l) : (year y l loc).spaced loc := by
  have := sp_AddDate (Date y 1 1 0 0 0 0 loc) l 0 0 (Or.inl (by omega))
  rw [Date_loc] at this
  exact this

theorem sp_month (y m l : Int) (loc : Location) (h : 1 ≤ l) : (month y m l loc).spaced loc := by
  have := sp_AddDate (Date y m 1 0 0 0 0 loc) 0 l 0 (Or.inl (by omega))
  rw [Date_loc] at this
  exact this

theorem sp_day (y m d l : Int) (loc : Location) (h : 1 ≤ l) : (day y m d l loc).spaced loc := by
  have := sp_AddDate (Date y m d 0 0 0 0 loc) 0 0 l (Or.inr (by omega))
  rw [Date_loc] at this
  exact this

theorem sp_week (y w o l : Int) (loc : Location) (h : 1 ≤ l) :
    (week y w o l loc).spaced loc := by
  unfold week
  simp only []
  generalize (if (Date y 1 4 0 0 0 0 loc).Weekday - firstWeekday < 0
    then (Date y 1 4 0 0 0 0 loc).Weekday - firstWeekday + 7
    else (Date y 1 4 0 0 0 0 loc).Weekday - firstWeekday) = d
  have := sp_AddDate ((Date y 1 4 0 0 0 0 loc).AddDate 0 0 (-d + w * 7 - 7 + o)) 0 0 l
    (Or.inr (by omega))
  rw [AddDate_loc, Date_loc] at this
  exact this

theorem sp_minute (y m d hh mm l : Int) (loc : Location) (h : 1 ≤ l) :
    (minute y m d hh mm l loc).spaced loc :=
  sp_Add _ _ (by unfold Minute; omega) loc

theorem sp_parseYear (sy : Str) (loc : Location) :
    (parseYear sy loc).spaced loc := by
  unfold parseYear
  split
  · exact sp_err
  · exact sp_year _ _ _ (by omega)

theorem sp_parseMonth (sy sm : Str) (loc : Location) :
    (parseMonth sy sm loc).spaced loc := by
  unfold parseMonth
  split
  · exact sp_month _ _ _ _ (by omega)
  · exact sp_err

theorem sp_parseISOWeek (sy sw : Str) (loc : Location) :
    (parseISOWeek sy sw loc).spaced loc := by
  unfold parseISOWeek
  split
  · exact sp_week _ _ _ _ _ (by omega)
  · exact sp_err

theorem sp_parseISOWeekDate (sy sw swd : Str) (loc : Location) :
    (parseISOWeekDate sy sw swd loc).spaced loc := by
  unfold parseISOWeekDate
  split
  · exact sp_week _ _ _ _ _ (by omega)
  · exact sp_err

theorem sp_parseOrdinalDate (sy sdy : Str) (loc : Location) :
    (parseOrdinalDate sy sdy loc).spaced loc := by
  unfold parseOrdinalDate
  split
  · exact sp_day _ _ _ _ _ (by omega)
  · exact sp_err


theorem sp_parseDate (layout : List Chunk) (value : Str) (loc : Location) :
    (parseDate layout value loc).spaced loc := by
  unfold parseDate
  split
  · exact sp_err
  · rename_i t ht
    have := sp_AddDate t 0 0 1 (Or.inr (by omega))
    rw [ParseInLocation_loc ht] at this
    exact this

theorem sp_parseTime (layout : List Chunk) (value : Str) (d : Int) (loc : Location)
    (hd : 0 < d) : (parseTime layout value d loc).spaced loc := by
  unfold parseTime
  split
  · exact sp_err
  · exact sp_Add _ _ hd loc

theorem sp_newRange (dp : Str) (l u : Int) (t : Time) (h : l ≤ u) :
    (newRange dp l u t).spaced t.loc := by
  unfold newRange
  simp only
  split_ifs
  · exact sp_day _ _ _ _ _ (by omega)
  · exact sp_minute _ _ _ _ _ _ _ (by omega)
  · exact sp_minute _ _ _ _ _ _ _ (by omega)
  · exact sp_month _ _ _ _ (by omega)
  · exact sp_year _ _ _ (by omega)
  · exact sp_day _ _ _ _ _ (by omega)
  · exact sp_day _ _ _ _ _ (by omega)
  · exact sp_err

theorem sp_slice (dp vs : Str) (n : Int) (t : Time)
    (h : 1 ≤ n ∨ (0 ≤ n ∧ vs[0]? = some 97)) : (slice dp vs n t).spaced t.loc := by
  have hn : 0 ≤ n := by omega
  unfold slice
  split_ifs with h1 h2 h3 h4 h5 h6
  · exact sp_newRange _ _ _ _ (le_refl _)
  · exact sp_newRange _ _ _ _ (le_refl _)
  · have hn1 : 1 ≤ n := by
      rcases h with h | ⟨-, h⟩
      · exact h
      · rcases h3 with h3 | h3 <;> rw [h3] at h <;> exact absurd h (by decide)
    exact sp_newRange _ _ _ _ (by omega)
  · have hn1 : 1 ≤ n := by
      rcases h with h | ⟨-, h⟩
      · exact h
      · rw [h4] at h; exact absurd h (by decide)
    exact sp_newRange _ _ _ _ (by omega)
  · have hn1 : 1 ≤ n := by
      rcases h with h | ⟨-, h⟩
      · exact h
      · rw [h5] at h; exact absurd h (by decide)
    exact sp_newRange _ _ _ _ (by omega)
  · have hn1 : 1 ≤ n := by
      rcases h with h | ⟨-, h⟩
      · exact h
      · rw [h6] at h; exact absurd h (by decide)
    exact sp_newRange _ _ _ _ (by omega)
  · exact sp_err

theorem asp_some {L : Location} {r : Result} (h : r.spaced L) : allSpaced L (some r) := by
  intro r' hr
  simp only [Option.some.injEq] at hr
  exact hr ▸ h

theorem asp_pure {L : Location} {r : Result} (h : r.spaced L) : allSpaced L (pure r) := asp_some h

theorem asp_none {L : Location} : allSpaced L none := by
  intro r' hr
  simp at hr

theorem asp_bind {L : Location} {α : Type} (x : Option α) (f : α → Option Result)
    (h : ∀ a, allSpaced L (f a)) : allSpaced L (x >>= f) := by
  intro r hr
  cases x with
  | none => simp at hr
  | some a => exact h a r hr

theorem asp_bind_eq {L : Location} {α : Type} (x : Option α) (f : α → Option Result)
    (h : ∀ a, x = some a → allSpaced L (f a)) : allSpaced L (x >>= f) := by
  intro r hr
  cases x with
  | none => simp at hr
  | some a => exact h a rfl r hr

set_option maxHeartbeats 1000000 in
theorem asp_Absolute (env : Env) (s : Str) (loc : Option Location) :
    allSpaced (env.locOf loc) (Absolute env s loc) := by
  unfold Absolute
  simp only []
  by_cases h0 : (s.length < 4 ∨ s.length > 23)
  · rw [if_pos h0]
    exact asp_some sp_err
  rw [if_neg h0]
  cases hI : IndexByte s 45 with
  | none =>
    simp only []
    split_ifs
    · exact asp_some (sp_parseYear _ _)
    · exact asp_bind _ _ fun _ => asp_bind _ _ fun _ => asp_pure (sp_parseMonth _ _ _)
    · exact asp_some sp_err
    · refine asp_bind _ _ fun _ => ?_
      split_ifs
      · exact asp_bind _ _ fun _ => asp_bind _ _ fun _ => asp_pure (sp_parseISOWeek _ _ _)
      · exact asp_bind _ _ fun _ => asp_bind _ _ fun _ =>
          asp_pure (sp_parseOrdinalDate _ _ _)
    · refine asp_bind _ _ fun _ => ?_
      split_ifs
      · exact asp_bind _ _ fun _ => asp_bind _ _ fun _ => asp_bind _ _ fun _ =>
          asp_pure (sp_parseISOWeekDate _ _ _ _)
      · exact asp_pure (sp_parseDate _ _ _)
    · exact asp_some (sp_parseTime _ _ _ _ (by decide))
    · exact asp_some (sp_parseTime _ _ _ _ (by decide))
    · exact asp_some (sp_parseTime _ _ _ _ (by decide))
    · exact asp_some (sp_parseTime _ _ _ _ (by decide))
    · exact asp_some sp_err
  | some i =>
    simp only []
    split_ifs
    · exact asp_bind _ _ fun _ => asp_bind _ _ fun _ => asp_pure (sp_parseMonth _ _ _)
    · refine asp_bind _ _ fun _ => ?_
      split_ifs
      · exact asp_bind _ _ fun _ => asp_bind _ _ fun _ => asp_pure (sp_parseISOWeek _ _ _)
      · exact asp_bind _ _ fun _ => asp_bind _ _ fun _ =>
          asp_pure (sp_parseOrdinalDate _ _ _)
    · refine asp_bind _ _ fun _ => ?_
      split_ifs
      · refine asp_bind _ _ fun _ => ?_
        split_ifs
        · exact asp_bind _ _ fun _ => asp_bind _ _ fun _ => asp_bind _ _ fun _ =>
            asp_pure (sp_parseISOWeekDate _ _ _ _)
        · exact asp_pure (sp_parseDate _ _ _)
      · exact asp_pure (sp_parseDate _ _ _)
    · exact asp_some (sp_parseTime _ _ _ _ (by decide))
    · exact asp_some (sp_parseTime _ _ _ _ (by decide))
    · exact asp_some (sp_parseTime _ _ _ _ (by decide))
    · exact asp_some (sp_parseTime _ _ _ _ (by decide))
    · exact asp_some sp_err
    · exact asp_some sp_err

theorem asp_relativeOne (vs dp : Str) (t : Time) :
    allSpaced t.loc (relativeOne vs dp t) := by
  unfold relativeOne
  split
  · exact asp_pure sp_err
  refine asp_bind _ _ fun c => ?_
  split
  · exact asp_pure sp_err
  · exact asp_pure (sp_slice _ _ _ _ (Or.inl (le_refl _)))

theorem asp_relativeThree (ns dp vs : Str) (t : Time) :
    allSpaced t.loc (relativeThree ns dp vs t) := by
  unfold relativeThree
  simp only []
  split
  · exact asp_pure sp_err
  refine asp_bind _ _ fun c => ?_
  split
  · exact asp_pure sp_err
  rename_i n hn
  split
  · exact asp_pure sp_err
  rename_i hrange
  unfold maxOffset at hrange
  split
  · rename_i hzero
    refine asp_bind_eq _ _ fun c0 hc0 => ?_
    split
    · exact asp_pure sp_err
    · rename_i hc
      have hc' : c0 = 97 := by simpa using hc
      subst hc'
      exact asp_bind _ _ fun _ => asp_pure (sp_slice _ _ _ _ (Or.inr ⟨by omega, hc0⟩))
  · rename_i hzero
    exact asp_bind _ _ fun _ => asp_pure (sp_slice _ _ _ _ (Or.inl (by omega)))

theorem asp_Relative (env : Env) (s : Str) (t : Option Time) :
    allSpaced (env.timeOf t).loc (Relative env s t) := by
  unfold Relative
  simp only []
  split
  · exact asp_some sp_err
  split
  · split
    · exact asp_some (sp_newRange _ _ _ _ (le_refl _))
    split
    · exact asp_some (sp_newRange _ _ _ _ (le_refl _))
    split
    · exact asp_some (sp_newRange _ _ _ _ (le_refl _))
    · exact asp_some sp_err
  · split
    · exact asp_none
    split
    · exact asp_bind _ _ fun vs => asp_bind _ _ fun dp => asp_relativeOne _ _ _
    · exact asp_bind _ _ fun ns => asp_bind _ _ fun dp => asp_bind _ _ fun vs =>
        asp_relativeThree _ _ _ _

theorem asp_Expand (env : Env) (s : Str) (loc : Option Location) :
    allSpaced (env.locOf loc) (Expand env s loc) := by
  unfold Expand
  simp only []
  split
  · exact asp_some sp_err
  split
  · exact asp_none
  split
  · exact asp_Absolute env s (some (env.locOf loc))
  · exact asp_Relative env s (some ⟨env.now, env.locOf loc⟩)


/-- In a location whose offsets differ by at most 24 hours a spaced result has its
bounds in order. -/
theorem le_of_spaced {r : Result} {L : Location} (h : r.spaced L) (hL : L.spanAtMost 86400) :
    r.range.LowerInc.ns ≤ r.range.UpperExc.ns := by
  obtain ⟨h1, h2⟩ := h
  cases hf : r.failed with
  | true => rw [h1 hf]
  | false =>
    rcases h2 hf with h | ⟨b, hb, k, hk, hd⟩
    · exact le_of_lt h
    · have := hL _ (lookup_mem L (r.range.LowerInc.ns / 1000000000)) b hb
      omega

/-- In a location whose offsets differ by less than 24 hours a spaced success is
a non-empty interval. -/
theorem lt_of_spaced {r : Result} {L : Location} (h : r.spaced L) (hL : L.spanBelow 86400)
    (hf : r.failed = false) : r.range.LowerInc.ns < r.range.UpperExc.ns := by
  rcases h.2 hf with h | ⟨b, hb, k, hk, hd⟩
  · exact h
  · have := hL _ (lookup_mem L (r.range.LowerInc.ns / 1000000000)) b hb
    omega

theorem zero_of_failed {r : Result} {L : Location} (h : r.spaced L) (hf : r.failed = true) :
    r.range.IsZero = true := by
  rw [h.1 hf]
  rfl

/-- Where no offset is 24 hours or more ahead of the one in force at the zero
instant, a spaced success is not the zero `Range`. -/
theorem failed_of_zero {r : Result} {L : Location} (h : r.spaced L)
    (hL : L.aheadOfZeroBelow 86400) (hz : r.range.IsZero = true) : r.failed = true := by
  cases hf : r.failed with
  | true => rfl
  | false =>
    simp only [Range.IsZero, Time.IsZero, Bool.and_eq_true, decide_eq_true_eq] at hz
    obtain ⟨z1, z2⟩ := hz
    rcases h.2 hf with h | ⟨b, hb, k, hk, hd⟩
    · omega
    · rw [z1, z2] at hd
      have := hL b hb
      simp only [Int.zero_ediv] at hd
      omega

theorem substr_some (s : Str) (lo hi : Nat) (h1 : lo ≤ hi) (h2 : hi ≤ s.length) :
    substr s lo hi = some ((s.take hi).drop lo) := by
  unfold substr
  rw [if_pos ⟨h1, h2⟩]

theorem bind_substr {β : Type} (s : Str) (lo hi : Nat) (f : Str → Option β) (h1 : lo ≤ hi)
    (h2 : hi ≤ s.length) : (substr s lo hi >>= f) = f ((s.take hi).drop lo) := by
  rw [substr_some s lo hi h1 h2]
  rfl

theorem bind_getElem {β : Type} (s : Str) (i : Nat) (f : Nat → Option β) (h : i < s.length) :
    (s[i]? >>= f) = f (s[i]) := by
  rw [List.getElem?_eq_getElem h]
  rfl

theorem IndexByte_lt {s : Str} {c i : Nat} (h : IndexByte s c = some i) : i < s.length := by
  induction s generalizing i with
  | nil => simp [IndexByte] at h
  | cons b rest ih =>
    unfold IndexByte at h
    split_ifs at h with hb
    · simp only [Option.some.injEq] at h
      subst h
      simp
    · cases hr : IndexByte rest c with
      | none => simp [hr] at h
      | some k =>
        simp only [hr, Option.map_some', Option.some.injEq] at h
        subst h
        have := ih hr
        simp only [List.length_cons]
        omega

theorem LastIndexByte_lt {s : Str} {c j : Nat} (h : LastIndexByte s c = some j) :
    j < s.length := by
  induction s generalizing j with
  | nil => simp [LastIndexByte] at h
  | cons b rest ih =>
    unfold LastIndexByte at h
    split at h
    · rename_i k hk
      simp only [Option.some.injEq] at h
      subst h
      have := ih hk
      simp only [List.length_cons]
      omega
    · split_ifs at h
      simp only [Option.some.injEq] at h
      subst h
      simp

theorem IndexByte_le_last {s : Str} {c i : Nat} (h : IndexByte s c = some i) :
    ∃ j, LastIndexByte s c = some j ∧ i ≤ j := by
  induction s generalizing i with
  | nil => simp [IndexByte] at h
  | cons b rest ih =>
    unfold IndexByte at h
    unfold LastIndexByte
    split_ifs at h with hb
    · simp only [Option.some.injEq] at h
      subst h
      cases hr : LastIndexByte rest c with
      | none => exact ⟨0, by simp [hb], le_refl _⟩
      | some k => exact ⟨k + 1, by simp, by omega⟩
    · cases hr : IndexByte rest c with
      | none => simp [hr] at h
      | some k =>
        simp only [hr, Option.map_some', Option.some.injEq] at h
        subst h
        obtain ⟨j, hj, hle⟩ := ih hr
        exact ⟨j + 1, by simp [hj], by omega⟩

theorem total_bind {α β : Type} (x : Option α) (f : α → Option β) (hx : ∃ a, x = some a)
    (hf : ∀ a, x = some a → ∃ r, f a = some r) : ∃ r, (x >>= f) = some r := by
  obtain ⟨a, ha⟩ := hx
  obtain ⟨r, hr⟩ := hf a ha
  exact ⟨r, by rw [ha]; exact hr⟩

theorem getElem_zero_some (s : Str) (h : s.length ≠ 0) : ∃ c, s[0]? = some c := by
  cases s with
  | nil => simp at h
  | cons a rest => exact ⟨a, by simp⟩

theorem getElem_last_some (s : Str) (h : s.length ≠ 0) : ∃ c, s[s.length - 1]? = some c :=
  ⟨s[s.length - 1], List.getElem?_eq_getElem (by omega)⟩

set_option maxHeartbeats 1000000 in
/-- `Absolute` never panics: every index and slice it reaches is in bounds. -/
theorem Absolute_total (env : Env) (s : Str) (loc : Option Location) :
    ∃ r, Absolute env s loc = some r := by
  unfold Absolute
  simp only []
  by_cases h0 : (s.length < 4 ∨ s.length > 23)
  · rw [if_pos h0]
    exact ⟨_, rfl⟩
  rw [if_neg h0]
  cases hI : IndexByte s 45 with
  | none =>
    simp only []
    split_ifs
    · exact ⟨_, rfl⟩
    · exact total_bind _ _ ⟨_, substr_some _ _ _ (by omega) (by omega)⟩ fun _ _ =>
        total_bind _ _ ⟨_, substr_some _ _ _ (by omega) (by omega)⟩ fun _ _ => ⟨_, rfl⟩
    · exact ⟨_, rfl⟩
    · refine total_bind _ _ ⟨_, List.getElem?_eq_getElem (by omega)⟩ fun _ _ => ?_
      split_ifs
      · exact total_bind _ _ ⟨_, substr_some _ _ _ (by omega) (by omega)⟩ fun _ _ =>
          total_bind _ _ ⟨_, substr_some _ _ _ (by omega) (by omega)⟩ fun _ _ => ⟨_, rfl⟩
      · exact total_bind _ _ ⟨_, substr_some _ _ _ (by omega) (by omega)⟩ fun _ _ =>
          total_bind _ _ ⟨_, substr_some _ _ _ (by omega) (by omega)⟩ fun _ _ => ⟨_, rfl⟩
    · refine total_bind _ _ ⟨_, List.getElem?_eq_getElem (by omega)⟩ fun _ _ => ?_
      split_ifs
      · exact total_bind _ _ ⟨_, substr_some _ _ _ (by omega) (by omega)⟩ fun _ _ =>
          total_bind _ _ ⟨_, substr_some _ _ _ (by omega) (by omega)⟩ fun _ _ =>
          total_bind _ _ ⟨_, substr_some _ _ _ (by omega) (by omega)⟩ fun _ _ => ⟨_, rfl⟩
      · exact ⟨_, rfl⟩
    · exact ⟨_, rfl⟩
    · exact ⟨_, rfl⟩
    · exact ⟨_, rfl⟩
    · exact ⟨_, rfl⟩
    · exact ⟨_, rfl⟩
  | some i =>
    simp only []
    split_ifs
    · exact total_bind _ _ ⟨_, substr_some _ _ _ (by omega) (by omega)⟩ fun _ _ =>
        total_bind _ _ ⟨_, substr_some _ _ _ (by omega) (by omega)⟩ fun _ _ => ⟨_, rfl⟩
    · refine total_bind _ _ ⟨_, List.getElem?_eq_getElem (by omega)⟩ fun _ _ => ?_
      split_ifs
      · exact total_bind _ _ ⟨_, substr_some _ _ _ (by omega) (by omega)⟩ fun _ _ =>
          total_bind _ _ ⟨_, substr_some _ _ _ (by omega) (by omega)⟩ fun _ _ => ⟨_, rfl⟩
      · exact total_bind _ _ ⟨_, substr_some _ _ _ (by omega) (by omega)⟩ fun _ _ =>
          total_bind _ _ ⟨_, substr_some _ _ _ (by omega) (by omega)⟩ fun _ _ => ⟨_, rfl⟩
    · refine total_bind _ _ ⟨_, List.getElem?_eq_getElem (by omega)⟩ fun _ _ => ?_
      split_ifs
      · refine total_bind _ _ ⟨_, List.getElem?_eq_getElem (by omega)⟩ fun _ _ => ?_
        split_ifs
        · exact total_bind _ _ ⟨_, substr_some _ _ _ (by omega) (by omega)⟩ fun _ _ =>
            total_bind _ _ ⟨_, substr_some _ _ _ (by omega) (by omega)⟩ fun _ _ =>
            total_bind _ _ ⟨_, substr_some _ _ _ (by omega) (by omega)⟩ fun _ _ => ⟨_, rfl⟩
        · exact ⟨_, rfl⟩
      · exact ⟨_, rfl⟩
    · exact ⟨_, rfl⟩
    · exact ⟨_, rfl⟩
    · exact ⟨_, rfl⟩
    · exact ⟨_, rfl⟩
    · exact ⟨_, rfl⟩
    · exact ⟨_, rfl⟩

theorem relativeOne_total (vs dp : Str) (t : Time) : ∃ r, relativeOne vs dp t = some r := by
  unfold relativeOne
  split
  · exact ⟨_, rfl⟩
  · rename_i hne
    refine total_bind _ _ (getElem_last_some dp (by omega)) fun c _ => ?_
    split
    · exact ⟨_, rfl⟩
    · exact ⟨_, rfl⟩

theorem relativeThree_total (ns dp vs : Str) (t : Time) :
    ∃ r, relativeThree ns dp vs t = some r := by
  unfold relativeThree
  simp only []
  split
  · exact ⟨_, rfl⟩
  · rename_i hnz
    refine total_bind _ _ (getElem_zero_some vs (by omega)) fun c _ => ?_
    have h1 : (if c ≠ 97 then (ns, dp, vs) else (vs, ns, dp)).1.length ≠ 0 := by
      split_ifs <;> simp only <;> omega
    have h2 : (if c ≠ 97 then (ns, dp, vs) else (vs, ns, dp)).2.2.length ≠ 0 := by
      split_ifs <;> simp only <;> omega
    split
    · exact ⟨_, rfl⟩
    split
    · exact ⟨_, rfl⟩
    split
    · refine total_bind _ _ (getElem_zero_some _ h1) fun c0 _ => ?_
      split
      · exact ⟨_, rfl⟩
      · exact total_bind _ _ (getElem_last_some _ h2) fun _ _ => ⟨_, rfl⟩
    · exact total_bind _ _ (getElem_last_some _ h2) fun _ _ => ⟨_, rfl⟩

/-- `Relative` never panics: every index and slice it reaches is in bounds. -/
theorem Relative_total (env : Env) (s : Str) (t : Option Time) :
    ∃ r, Relative env s t = some r := by
  unfold Relative
  simp only []
  split
  · exact ⟨_, rfl⟩
  split
  · split
    · exact ⟨_, rfl⟩
    split
    · exact ⟨_, rfl⟩
    split
    · exact ⟨_, rfl⟩
    · exact ⟨_, rfl⟩
  · rename_i i hi
    obtain ⟨j, hj, hij⟩ := IndexByte_le_last hi
    have hjlt := LastIndexByte_lt hj
    rw [hj]
    simp only []
    split
    · refine total_bind _ _ ⟨_, substr_some _ _ _ (by omega) (by omega)⟩ fun vs _ => ?_
      refine total_bind _ _ ⟨_, substr_some _ _ _ (by omega) (by omega)⟩ fun dp _ => ?_
      exact relativeOne_total _ _ _
    · rename_i hne
      refine total_bind _ _ ⟨_, substr_some _ _ _ (by omega) (by omega)⟩ fun ns _ => ?_
      refine total_bind _ _ ⟨_, substr_some _ _ _ (by omega) (by omega)⟩ fun dp _ => ?_
      refine total_bind _ _ ⟨_, substr_some _ _ _ (by omega) (by omega)⟩ fun vs _ => ?_
      exact relativeThree_total _ _ _ _

/-- `Expand` never panics. -/
theorem Expand_total (env : Env) (s : Str) (loc : Option Location) :
    ∃ r, Expand env s loc = some r := by
  unfold Expand
  simp only []
  split
  · exact ⟨_, rfl⟩
  rename_i hlen
  rw [List.getElem?_eq_getElem (by omega)]
  simp only []
  split
  · exact Absolute_total _ _ _
  · exact Relative_total _ _ _

theorem isDigitByte_digit (n : Nat) : isDigitByte (digit n) = true := by
  unfold isDigitByte digit
  simp only [Bool.and_eq_true, decide_eq_true_eq]
  omega

theorem digit_sub (n : Nat) : digit n - 48 = n % 10 := by
  unfold digit
  omega

theorem digit_ne (n c : Nat) (h : c < 48 ∨ 57 < c) : digit n ≠ c := by
  unfold digit
  omega

theorem digitsValue_dec2 (n acc : Nat) :
    digitsValue (dec2 n) acc = some (acc * 100 + n % 100) := by
  simp only [dec2, digitsValue, isDigitByte_digit, if_true, digit_sub, Option.some.injEq]
  omega

theorem digitsValue_dec3 (n acc : Nat) :
    digitsValue (dec3 n) acc = some (acc * 1000 + n % 1000) := by
  simp only [dec3, digitsValue, isDigitByte_digit, if_true, digit_sub, Option.some.injEq]
  omega

theorem digitsValue_dec4 (n acc : Nat) :
    digitsValue (dec4 n) acc = some (acc * 10000 + n % 10000) := by
  simp only [dec4, digitsValue, isDigitByte_digit, if_true, digit_sub, Option.some.injEq]
  omega

theorem Atoi_dec4 (n : Nat) (h : n ≤ 9999) : Atoi (dec4 n) = some (n : Int) := by
  have hv := digitsValue_dec4 n 0
  unfold Atoi
  unfold dec4 at hv ⊢
  simp only [digit_ne _ 45 (Or.inl (by decide)), digit_ne _ 43 (Or.inl (by decide)), or_self,
    if_false, hv]
  have e : 0 * 10000 + n % 10000 = n := by omega
  rw [e]
  have hr : -(2 : Int) ^ 63 ≤ (n : Int) ∧ (n : Int) ≤ (2 : Int) ^ 63 - 1 := by
    norm_num
    omega
  rw [if_pos hr]

theorem Atoi_dec2 (n : Nat) (h : n ≤ 99) : Atoi (dec2 n) = some (n : Int) := by
  have hv := digitsValue_dec2 n 0
  unfold Atoi
  unfold dec2 at hv ⊢
  simp only [digit_ne _ 45 (Or.inl (by decide)), digit_ne _ 43 (Or.inl (by decide)), or_self,
    if_false, hv]
  have e : 0 * 100 + n % 100 = n := by omega
  rw [e]
  have hr : -(2 : Int) ^ 63 ≤ (n : Int) ∧ (n : Int) ≤ (2 : Int) ^ 63 - 1 := by
    norm_num
    omega
  rw [if_pos hr]

theorem Atoi_dec3 (n : Nat) (h : n ≤ 999) : Atoi (dec3 n) = some (n : Int) := by
  have hv := digitsValue_dec3 n 0
  unfold Atoi
  unfold dec3 at hv ⊢
  simp only [digit_ne _ 45 (Or.inl (by decide)), digit_ne _ 43 (Or.inl (by decide)), or_self,
    if_false, hv]
  have e : 0 * 1000 + n % 1000 = n := by omega
  rw [e]
  have hr : -(2 : Int) ^ 63 ≤ (n : Int) ∧ (n : Int) ≤ (2 : Int) ^ 63 - 1 := by
    norm_num
    omega
  rw [if_pos hr]

theorem Atoi_digit (n : Nat) (h : n ≤ 9) : Atoi [digit n] = some (n : Int) := by
  unfold Atoi
  simp only [digit_ne _ 45 (Or.inl (by decide)), digit_ne _ 43 (Or.inl (by decide)), or_self,
    if_false, digitsValue, isDigitByte_digit, if_true, digit_sub]
  have e : 0 * 10 + n % 10 = n := by omega
  rw [e]
  have hr : -(2 : Int) ^ 63 ≤ (n : Int) ∧ (n : Int) ≤ (2 : Int) ^ 63 - 1 := by
    norm_num
    omega
  rw [if_pos hr]

theorem timeAtoi_dec4 (n : Nat) (h : n ≤ 9999) : timeAtoi (dec4 n) = some (n : Int) := by
  have hv := digitsValue_dec4 n 0
  unfold timeAtoi
  unfold dec4 at hv ⊢
  simp only [digit_ne _ 45 (Or.inl (by decide)), digit_ne _ 43 (Or.inl (by decide)), or_self,
    if_false, hv, decide_False]
  have e : 0 * 10000 + n % 10000 = n := by omega
  rw [e]
  have h1 : ¬ n > 2 ^ 63 := by norm_num; omega
  have h2 : ¬ n = 2 ^ 63 := by norm_num; omega
  simp only [h1, h2, if_false, Bool.false_eq_true]

theorem getnum_dec2 (n : Nat) (h : n ≤ 99) (rest : Str) (fixed : Bool) :
    getnum (dec2 n ++ rest) fixed = some ((n : Int), rest) := by
  unfold getnum dec2
  simp only [List.cons_append, List.nil_append, isDigitByte_digit, Bool.not_true,
    Bool.false_eq_true, if_false, digit_sub, Option.some.injEq, Prod.mk.injEq, and_true]
  congr 1
  omega

theorem parseChunks_year (y : Nat) (h : y ≤ 9999) (rest : List Chunk) (v : Str) (f : Fields) :
    parseChunks (Chunk.stdLongYear :: rest) (dec4 y ++ v) f =
      parseChunks rest v { f with year := (y : Int) } := by
  have ht : (dec4 y ++ v).take 4 = dec4 y := by simp [dec4]
  have hd : (dec4 y ++ v).drop 4 = v := by simp [dec4]
  have hl : ¬ (dec4 y ++ v).length < 4 := by simp [dec4]
  have hh : isDigitByte ((dec4 y ++ v).headD 0) = true := by
    simp [dec4, isDigitByte_digit]
  simp only [parseChunks, ht, hd, hl, hh, timeAtoi_dec4 y h, decide_False, Bool.not_true,
    Bool.or_self, Bool.false_eq_true, if_false]

theorem parseChunks_literal (c : Nat) (rest : List Chunk) (v : Str) (f : Fields) :
    parseChunks (Chunk.literal c :: rest) (c :: v) f = parseChunks rest v f := by
  simp only [parseChunks, if_true]

theorem parseChunks_month (m : Nat) (h1 : 1 ≤ m) (h2 : m ≤ 12) (rest : List Chunk) (v : Str)
    (f : Fields) :
    parseChunks (Chunk.stdZeroMonth :: rest) (dec2 m ++ v) f =
      parseChunks rest v { f with month := (m : Int) } := by
  have hc : ¬ ((m : Int) ≤ 0 ∨ 12 < (m : Int)) := by omega
  simp only [parseChunks, getnum_dec2 m (by omega), hc, if_false]

theorem parseChunks_day (d : Nat) (h : d ≤ 99) (rest : List Chunk) (v : Str) (f : Fields) :
    parseChunks (Chunk.stdZeroDay :: rest) (dec2 d ++ v) f =
      parseChunks rest v { f with day := (d : Int) } := by
  simp only [parseChunks, getnum_dec2 d h]

/-- The numbers a calendar-date token with decimal fields is parsed to, and the
day-of-month check of `time.Parse`. -/
theorem ParseInLocation_date (y m d : Nat) (hy : y ≤ 9999) (hm1 : 1 ≤ m) (hm2 : m ≤ 12)
    (hd : d ≤ 99) (loc : Location) :
    ParseInLocation layoutDate (dec4 y ++ 45 :: (dec2 m ++ 45 :: dec2 d)) loc =
      (if (d : Int) < 1 ∨ (d : Int) > daysIn m y then none
        else some (Date y m d 0 0 0 0 loc)) := by
  have e : dec2 d = dec2 d ++ [] := by simp
  unfold ParseInLocation layoutDate
  rw [parseChunks_year y hy, parseChunks_literal, parseChunks_month m hm1 hm2,
    parseChunks_literal, e, parseChunks_day d hd]
  have h1 : ¬ ((m : Int) < 0) := by omega
  have h2 : ¬ ((d : Int) < 0) := by omega
  simp only [parseChunks, if_true, h1, h2, if_false]

theorem ParseInLocation_basicDate (y m d : Nat) (hy : y ≤ 9999) (hm1 : 1 ≤ m) (hm2 : m ≤ 12)
    (hd : d ≤ 99) (loc : Location) :
    ParseInLocation layoutBasicDate (dec4 y ++ (dec2 m ++ dec2 d)) loc =
      (if (d : Int) < 1 ∨ (d : Int) > daysIn m y then none
        else some (Date y m d 0 0 0 0 loc)) := by
  have e : dec2 d = dec2 d ++ [] := by simp
  unfold ParseInLocation layoutBasicDate
  rw [parseChunks_year y hy, parseChunks_month m hm1 hm2, e, parseChunks_day d hd]
  have h1 : ¬ ((m : Int) < 0) := by omega
  have h2 : ¬ ((d : Int) < 0) := by omega
  simp only [parseChunks, if_true, h1, h2, if_false]

theorem IndexByte_cons_ne (b c : Nat) (rest : Str) (h : b ≠ c) :
    IndexByte (b :: rest) c = (IndexByte rest c).map (· + 1) := by
  simp only [IndexByte, h, if_false]

theorem IndexByte_cons_eq (c : Nat) (rest : Str) : IndexByte (c :: rest) c = some 0 := by
  simp only [IndexByte, if_true]

theorem IndexByte_nil (c : Nat) : IndexByte [] c = none := rfl

/-- `Absolute` on an extended calendar-date token with decimal fields. -/
theorem Absolute_date (env : Env) (loc : Option Location) (y m d : Nat) :
    Absolute env (dec4 y ++ 45 :: (dec2 m ++ 45 :: dec2 d)) loc =
      some (parseDate layoutDate (dec4 y ++ 45 :: (dec2 m ++ 45 :: dec2 d)) (env.locOf loc)) := by
  have hi : IndexByte (dec4 y ++ 45 :: (dec2 m ++ 45 :: dec2 d)) 45 = some 4 := by
    simp only [dec4, List.cons_append, List.nil_append,
      IndexByte_cons_ne _ _ _ (digit_ne _ 45 (Or.inl (by decide))), IndexByte_cons_eq,
      Option.map_some']
  have h5 : (dec4 y ++ 45 :: (dec2 m ++ 45 :: dec2 d))[5]? = some (digit (m / 10)) := by
    simp [dec4, dec2]
  have hlen : (dec4 y ++ 45 :: (dec2 m ++ 45 :: dec2 d)).length = 10 := by
    simp [dec4, dec2]
  have hne : digit (m / 10) ≠ 87 := digit_ne _ 87 (Or.inr (by decide))
  unfold Absolute
  simp only [hi, hlen, h5]
  simp [hne]

/-- `Absolute` on a basic calendar-date token with decimal fields. -/
theorem Absolute_basicDate (env : Env) (loc : Option Location) (y m d : Nat) :
    Absolute env (dec4 y ++ (dec2 m ++ dec2 d)) loc =
      some (parseDate layoutBasicDate (dec4 y ++ (dec2 m ++ dec2 d)) (env.locOf loc)) := by
  have hi : IndexByte (dec4 y ++ (dec2 m ++ dec2 d)) 45 = none := by
    simp only [dec4, dec2, List.cons_append, List.nil_append,
      IndexByte_cons_ne _ _ _ (digit_ne _ 45 (Or.inl (by decide))), IndexByte_nil,
      Option.map_none']
  have h4 : (dec4 y ++ (dec2 m ++ dec2 d))[4]? = some (digit (m / 10)) := by
    simp [dec4, dec2]
  have hlen : (dec4 y ++ (dec2 m ++ dec2 d)).length = 8 := by
    simp [dec4, dec2]
  have hne : digit (m / 10) ≠ 87 := digit_ne _ 87 (Or.inr (by decide))
  unfold Absolute
  simp only [hi, hlen, h4]
  simp [hne]

theorem Absolute_ext7 (env : Env) (loc : Option Location) (a b c d e f : Nat)
    (ha : a ≠ 45) (hb : b ≠ 45) (hc : c ≠ 45) (hd : d ≠ 45) :
    Absolute env [a, b, c, d, 45, e, f] loc =
      some (parseMonth [a, b, c, d] [e, f] (env.locOf loc)) := by
  simp [Absolute, IndexByte, substr, ha, hb, hc, hd]

theorem Absolute_ext8 (env : Env) (loc : Option Location) (a b c d e f g : Nat)
    (ha : a ≠ 45) (hb : b ≠ 45) (hc : c ≠ 45) (hd : d ≠ 45) :
    Absolute env [a, b, c, d, 45, e, f, g] loc =
      some (if e = 87 then parseISOWeek [a, b, c, d] [f, g] (env.locOf loc)
        else parseOrdinalDate [a, b, c, d] [e, f, g] (env.locOf loc)) := by
  by_cases he : e = 87 <;> simp [Absolute, IndexByte, substr, ha, hb, hc, hd, he]

theorem Absolute_ext10 (env : Env) (loc : Option Location) (a b c d e f g h i : Nat)
    (ha : a ≠ 45) (hb : b ≠ 45) (hc : c ≠ 45) (hd : d ≠ 45) :
    Absolute env [a, b, c, d, 45, e, f, g, h, i] loc =
      some (if e = 87 ∧ h = 45 then parseISOWeekDate [a, b, c, d] [f, g] [i] (env.locOf loc)
        else parseDate layoutDate [a, b, c, d, 45, e, f, g, h, i] (env.locOf loc)) := by
  by_cases he : e = 87 <;> by_cases hh : h = 45 <;>
    simp [Absolute, IndexByte, substr, ha, hb, hc, hd, he, hh]

theorem Absolute_bas4 (env : Env) (loc : Option Location) (a b c d : Nat)
    (ha : a ≠ 45) (hb : b ≠ 45) (hc : c ≠ 45) (hd : d ≠ 45) :
    Absolute env [a, b, c, d] loc = some (parseYear [a, b, c, d] (env.locOf loc)) := by
  simp [Absolute, IndexByte, ha, hb, hc, hd]

theorem Absolute_bas6 (env : Env) (loc : Option Location) (a b c d e f : Nat)
    (ha : a ≠ 45) (hb : b ≠ 45) (hc : c ≠ 45) (hd : d ≠ 45) (he : e ≠ 45) (hf : f ≠ 45) :
    Absolute env [a, b, c, d, e, f] loc =
      some (parseMonth [a, b, c, d] [e, f] (env.locOf loc)) := by
  simp [Absolute, IndexByte, substr, allowYYYYMM, ha, hb, hc, hd, he, hf]

theorem Absolute_bas7 (env : Env) (loc : Option Location) (a b c d e f g : Nat)
    (ha : a ≠ 45) (hb : b ≠ 45) (hc : c ≠ 45) (hd : d ≠ 45) (he : e ≠ 45) (hf : f ≠ 45)
    (hg : g ≠ 45) :
    Absolute env [a, b, c, d, e, f, g] loc =
      some (if e = 87 then parseISOWeek [a, b, c, d] [f, g] (env.locOf loc)
        else parseOrdinalDate [a, b, c, d] [e, f, g] (env.locOf loc)) := by
  by_cases h87 : e = 87 <;> simp [Absolute, IndexByte, substr, ha, hb, hc, hd, he, hf, hg, h87]

theorem Absolute_bas8 (env : Env) (loc : Option Location) (a b c d e f g h : Nat)
    (ha : a ≠ 45) (hb : b ≠ 45) (hc : c ≠ 45) (hd : d ≠ 45) (he : e ≠ 45) (hf : f ≠ 45)
    (hg : g ≠ 45) (hh : h ≠ 45) :
    Absolute env [a, b, c, d, e, f, g, h] loc =
      some (if e = 87 then parseISOWeekDate [a, b, c, d] [f, g] [h] (env.locOf loc)
        else parseDate layoutBasicDate [a, b, c, d, e, f, g, h] (env.locOf loc)) := by
  by_cases h87 : e = 87 <;>
    simp [Absolute, IndexByte, substr, ha, hb, hc, hd, he, hf, hg, hh, h87]

/-- C1, counterexample: in the location of Pacific/Apia, whose offset jumps by 24
hours at the end of 2011, the token `2011-12-29` is accepted and its interval is
empty: both bounds are the same instant. The offsets of the location differ by
24 hours, not by more. With a zone table whose offset jumps by 48 hours, the
token `0001-01-01` is accepted and its upper bound lies a day before the lower
one. -/
theorem absolute_empty_interval_at_day_skip :
    Absolute ⟨UTC, 0⟩ (lit "2011-12-29") (some apia2011) =
        some ⟨⟨⟨63460749600000000000, apia2011⟩, ⟨63460749600000000000, apia2011⟩⟩, false⟩ ∧
      apia2011.spanAtMost 86400 ∧ ¬ apia2011.spanBelow 86400 ∧
      Absolute ⟨UTC, 0⟩ (lit "0001-01-01") (some twoDayJump) =
        some ⟨⟨⟨0, twoDayJump⟩, ⟨-86400000000000, twoDayJump⟩⟩, false⟩ ∧
      ¬ twoDayJump.spanAtMost 86400 := by
  decide

/-- C1, amended: for every input string and every location whose UTC offsets
differ from one another by at most 24 hours, `Expand`, `Absolute` and (for
every reference instant in such a location) `Relative` return a result whose
lower bound is not after the upper one; and where the offsets differ by less
than 24 hours, the lower bound is strictly before the upper one when no error
is returned. -/
theorem interval_ordered (env : Env) (s : Str) (loc : Option Location) (t : Option Time)
    (hl : (env.locOf loc).spanAtMost 86400) (ht : (env.timeOf t).loc.spanAtMost 86400) :
    (∃ r, Expand env s loc = some r ∧ r.range.LowerInc.ns ≤ r.range.UpperExc.ns ∧
        ((env.locOf loc).spanBelow 86400 → r.ordered)) ∧
      (∃ r, Absolute env s loc = some r ∧ r.range.LowerInc.ns ≤ r.range.UpperExc.ns ∧
        ((env.locOf loc).spanBelow 86400 → r.ordered)) ∧
      (∃ r, Relative env s t = some r ∧ r.range.LowerInc.ns ≤ r.range.UpperExc.ns ∧
        ((env.timeOf t).loc.spanBelow 86400 → r.ordered)) := by
  obtain ⟨r1, h1⟩ := Expand_total env s loc
  obtain ⟨r2, h2⟩ := Absolute_total env s loc
  obtain ⟨r3, h3⟩ := Relative_total env s t
  have s1 := asp_Expand env s loc r1 h1
  have s2 := asp_Absolute env s loc r2 h2
  have s3 := asp_Relative env s t r3 h3
  exact ⟨⟨r1, h1, le_of_spaced s1 hl, fun hb => ⟨le_of_spaced s1 hl, lt_of_spaced s1 hb⟩⟩,
    ⟨r2, h2, le_of_spaced s2 hl, fun hb => ⟨le_of_spaced s2 hl, lt_of_spaced s2 hb⟩⟩,
    ⟨r3, h3, le_of_spaced s3 ht, fun hb => ⟨le_of_spaced s3 ht, lt_of_spaced s3 hb⟩⟩⟩

theorem interval_ordered_witness :
    ((⟨UTC, 0⟩ : Env).locOf (some london2017)).spanAtMost 86400 ∧
      ((⟨UTC, 0⟩ : Env).timeOf (some ⟨63626086800000000000, london2017⟩)).loc.spanAtMost 86400 ∧
      ((∃ r, Expand ⟨UTC, 0⟩ (lit "2017-03-26") (some london2017) = some r ∧
          r.range.LowerInc.ns ≤ r.range.UpperExc.ns ∧
          (((⟨UTC, 0⟩ : Env).locOf (some london2017)).spanBelow 86400 → r.ordered)) ∧
        (∃ r, Absolute ⟨UTC, 0⟩ (lit "2017-03-26") (some london2017) = some r ∧
          r.range.LowerInc.ns ≤ r.range.UpperExc.ns ∧
          (((⟨UTC, 0⟩ : Env).locOf (some london2017)).spanBelow 86400 → r.ordered)) ∧
        (∃ r, Relative ⟨UTC, 0⟩ (lit "2017-03-26")
            (some ⟨63626086800000000000, london2017⟩) = some r ∧
          r.range.LowerInc.ns ≤ r.range.UpperExc.ns ∧
          (((⟨UTC, 0⟩ : Env).timeOf (some ⟨63626086800000000000, london2017⟩)).loc.spanBelow
            86400 → r.ordered))) ∧
      london2017.spanBelow 86400 ∧
      Absolute ⟨UTC, 0⟩ (lit "2017-03-26") (some london2017) =
        some ⟨⟨⟨63626083200000000000, london2017⟩, ⟨63626166000000000000, london2017⟩⟩,
          false⟩ :=
  ⟨by decide, by decide,
    interval_ordered ⟨UTC, 0⟩ (lit "2017-03-26") (some london2017)
      (some ⟨63626086800000000000, london2017⟩) (by decide) (by decide),
    by decide, by decide⟩

/-- C2, counterexample: with a zone table that is 24 hours behind UTC until just
after 0001-01-01T00:00:00Z and at UTC afterwards, the token `0001-01-01` is
accepted (no error) and both bounds are the zero instant, so `IsZero` holds of
the returned `Range`. The offset the table moves to is exactly 24 hours ahead
of the one in force at the zero instant. -/
theorem absolute_zero_range_without_error :
    Absolute ⟨UTC, 0⟩ (lit "0001-01-01") (some dayJump) =
        some ⟨⟨⟨0, dayJump⟩, ⟨0, dayJump⟩⟩, false⟩ ∧
      Range.IsZero ⟨⟨0, dayJump⟩, ⟨0, dayJump⟩⟩ = true ∧
      ¬ dayJump.aheadOfZeroBelow 86400 ∧ dayJump.aheadOfZeroBelow 86401 := by
  decide

/-- C2, amended: for every input string, location and reference instant,
`Expand`, `Absolute` and `Relative` return a result that carries the zero
`Range` when its error is not nil; and in every location none of whose UTC
offsets is 24 hours or more ahead of the offset in force at the zero instant
0001-01-01T00:00:00Z, the error is not nil if and only if the `Range` is the
zero `Range`. -/
theorem error_iff_zero_range (env : Env) (s : Str) (loc : Option Location)
    (t : Option Time) :
    (∃ r, Expand env s loc = some r ∧ (r.failed = true → r.range.IsZero = true) ∧
        ((env.locOf loc).aheadOfZeroBelow 86400 → r.errorIffZero)) ∧
      (∃ r, Absolute env s loc = some r ∧ (r.failed = true → r.range.IsZero = true) ∧
        ((env.locOf loc).aheadOfZeroBelow 86400 → r.errorIffZero)) ∧
      (∃ r, Relative env s t = some r ∧ (r.failed = true → r.range.IsZero = true) ∧
        ((env.timeOf t).loc.aheadOfZeroBelow 86400 → r.errorIffZero)) := by
  obtain ⟨r1, h1⟩ := Expand_total env s loc
  obtain ⟨r2, h2⟩ := Absolute_total env s loc
  obtain ⟨r3, h3⟩ := Relative_total env s t
  have s1 := asp_Expand env s loc r1 h1
  have s2 := asp_Absolute env s loc r2 h2
  have s3 := asp_Relative env s t r3 h3
  exact ⟨⟨r1, h1, zero_of_failed s1, fun hb => ⟨zero_of_failed s1, failed_of_zero s1 hb⟩⟩,
    ⟨r2, h2, zero_of_failed s2, fun hb => ⟨zero_of_failed s2, failed_of_zero s2 hb⟩⟩,
    ⟨r3, h3, zero_of_failed s3, fun hb => ⟨zero_of_failed s3, failed_of_zero s3 hb⟩⟩⟩

theorem error_iff_zero_range_witness :
    ((⟨UTC, 0⟩ : Env).locOf (some london2017)).aheadOfZeroBelow 86400 ∧
      ((∃ r, Expand ⟨UTC, 0⟩ (lit "today") (some london2017) = some r ∧
          (r.failed = true → r.range.IsZero = true) ∧
          (((⟨UTC, 0⟩ : Env).locOf (some london2017)).aheadOfZeroBelow 86400 →
            r.errorIffZero)) ∧
        (∃ r, Absolute ⟨UTC, 0⟩ (lit "today") (some london2017) = some r ∧
          (r.failed = true → r.range.IsZero = true) ∧
          (((⟨UTC, 0⟩ : Env).locOf (some london2017)).aheadOfZeroBelow 86400 →
            r.errorIffZero)) ∧
        (∃ r, Relative ⟨UTC, 0⟩ (lit "today") (some ⟨63626086800000000000, london2017⟩) =
            some r ∧
          (r.failed = true → r.range.IsZero = true) ∧
          (((⟨UTC, 0⟩ : Env).timeOf (some ⟨63626086800000000000, london2017⟩)).loc.aheadOfZeroBelow
            86400 → r.errorIffZero))) :=
  ⟨by decide,
    error_iff_zero_range ⟨UTC, 0⟩ (lit "today") (some london2017)
      (some ⟨63626086800000000000, london2017⟩)⟩

/-- C3: for every year field `y`, month `m` in [1,12] and two-digit day field `d`
that is not a day of that month (`d = 0` or `d` beyond the days of the month),
`Absolute` fails on the extended token `YYYY-MM-DD` and on the basic token
`YYYYMMDD`, in every location; nothing is rolled over into the next month. -/
theorem impossible_day_rejected (env : Env) (loc : Option Location) (y m d : Nat)
    (hy : y ≤ 9999) (hm1 : 1 ≤ m) (hm2 : m ≤ 12) (hd : d ≤ 99)
    (hbad : d = 0 ∨ daysIn m y < d) :
    Absolute env (dateToken y m d) loc = some err ∧
      Absolute env (basicDateToken y m d) loc = some err := by
  have hc : (d : Int) < 1 ∨ (d : Int) > daysIn m y := by
    rcases hbad with h | h
    · left; omega
    · right; exact h
  unfold dateToken basicDateToken
  rw [Absolute_date, Absolute_basicDate]
  unfold parseDate
  rw [ParseInLocation_date y m d hy hm1 hm2 hd, ParseInLocation_basicDate y m d hy hm1 hm2 hd,
    if_pos hc]
  exact ⟨rfl, rfl⟩

theorem impossible_day_rejected_witness :
    (2015 : Nat) ≤ 9999 ∧ 1 ≤ (1 : Nat) ∧ (1 : Nat) ≤ 12 ∧ (32 : Nat) ≤ 99 ∧
      ((32 : Nat) = 0 ∨ daysIn (1 : Nat) (2015 : Nat) < (32 : Nat)) ∧
      dateToken 2015 1 32 = lit "2015-01-32" ∧
      (Absolute ⟨UTC, 0⟩ (dateToken 2015 1 32) (some UTC) = some err ∧
        Absolute ⟨UTC, 0⟩ (basicDateToken 2015 1 32) (some UTC) = some err) :=
  ⟨by decide, by decide, by decide, by decide, by decide, by decide,
    impossible_day_rejected ⟨UTC, 0⟩ (some UTC) 2015 1 32 (by decide) (by decide) (by decide)
      (by decide) (by decide)⟩

theorem parse_dec4 (y : Nat) (h1 : 1 ≤ y) (h2 : y ≤ 9999) :
    parse (dec4 y) minYear maxYear = some (y : Int) := by
  unfold parse minYear maxYear
  rw [Atoi_dec4 y h2]
  simp only []
  rw [if_neg (by omega)]

theorem parse_dec2 (n : Nat) (lo hi : Int) (h1 : lo ≤ n) (h2 : (n : Int) ≤ hi) (h : n ≤ 99) :
    parse (dec2 n) lo hi = some (n : Int) := by
  unfold parse
  rw [Atoi_dec2 n h]
  simp only []
  rw [if_neg (by omega)]

theorem parse_dec3 (n : Nat) (lo hi : Int) (h1 : lo ≤ n) (h2 : (n : Int) ≤ hi) (h : n ≤ 999) :
    parse (dec3 n) lo hi = some (n : Int) := by
  unfold parse
  rw [Atoi_dec3 n h]
  simp only []
  rw [if_neg (by omega)]

theorem parse_digit (n : Nat) (lo hi : Int) (h1 : lo ≤ n) (h2 : (n : Int) ≤ hi) (h : n ≤ 9) :
    parse [digit n] lo hi = some (n : Int) := by
  unfold parse
  rw [Atoi_digit n h]
  simp only []
  rw [if_neg (by omega)]

theorem abs_UTC (n : Int) : (⟨n, UTC⟩ : Time).abs = n / 1000000000 := by
  simp [Time.abs, Location.lookup, UTC, lookupFrom]

theorem UTC_fixed : UTC.fixed := rfl

theorem Date_midnight_UTC (y m d : Int) (hm1 : 1 ≤ m) (hm2 : m ≤ 12) :
    Date y m d 0 0 0 0 UTC = ⟨civilDays y m d * dayNs, UTC⟩ := by
  rw [Date_midnight _ _ _ _ UTC_fixed]
  have h1 : (m - 1) / 12 = 0 := by omega
  have h2 : (m - 1) % 12 + 1 = m := by omega
  rw [h1, h2, add_zero]
  unfold midnightNs dayNs UTC
  congr 1
  simp only
  omega

theorem Weekday_midnight_UTC (D : Int) : (⟨D * dayNs, UTC⟩ : Time).Weekday = (D + 1) % 7 := by
  rw [weekday_eq, abs_UTC]
  unfold dayNs
  omega

/-- File `timeframe.go`, `week`, in UTC: the interval starts `7 (w - 1) + o` days
after the Monday on or before January 4th and lasts `l` days. -/
theorem week_UTC (y w o l : Int) :
    week y w o l UTC =
      ⟨⟨⟨(civilDays y 1 4 - civilDays y 1 4 % 7 + (w * 7 - 7 + o)) * dayNs, UTC⟩,
        ⟨(civilDays y 1 4 - civilDays y 1 4 % 7 + (w * 7 - 7 + o) + l) * dayNs, UTC⟩⟩, false⟩ := by
  rw [week_fixed _ _ _ _ _ UTC_fixed, Date_midnight_UTC y 1 4 (by omega) (by omega),
    Weekday_midnight_UTC]
  simp only []
  generalize civilDays y 1 4 = J
  unfold dayNs
  congr 3 <;> omega


theorem Absolute_weekToken (env : Env) (loc : Option Location) (y w : Nat) (hy1 : 1 ≤ y)
    (hy2 : y ≤ 9999) (hw1 : 1 ≤ w) (hw2 : w ≤ 53) :
    Absolute env (weekToken y w) loc = some (week y w 0 7 (env.locOf loc)) ∧
      Absolute env (basicWeekToken y w) loc = some (week y w 0 7 (env.locOf loc)) := by
  have py := parse_dec4 y hy1 hy2
  have pw := parse_dec2 w 1 53 (by omega) (by omega) (by omega)
  unfold weekToken basicWeekToken
  unfold dec4 dec2 at *
  simp only [List.cons_append, List.nil_append]
  rw [Absolute_ext8 _ _ _ _ _ _ _ _ _ (digit_ne _ 45 (Or.inl (by decide)))
      (digit_ne _ 45 (Or.inl (by decide))) (digit_ne _ 45 (Or.inl (by decide)))
      (digit_ne _ 45 (Or.inl (by decide))),
    Absolute_bas7 _ _ _ _ _ _ _ _ _ (digit_ne _ 45 (Or.inl (by decide)))
      (digit_ne _ 45 (Or.inl (by decide))) (digit_ne _ 45 (Or.inl (by decide)))
      (digit_ne _ 45 (Or.inl (by decide))) (by decide) (digit_ne _ 45 (Or.inl (by decide)))
      (digit_ne _ 45 (Or.inl (by decide)))]
  simp only [if_true, parseISOWeek, py, pw, and_self]

/-- C6: for every year `y` in [1,9999] and week `w` in [1,53], `Absolute` on
`YYYY-Www` and on `YYYYWww` in UTC returns, without error, the interval from
`M + 7 (w - 1)` days to `M + 7 w` days, where `M` is the one instant that is
00:00 of a Monday with `M ≤ January 4th of y < M + 7 days`. -/
theorem iso_week_interval (env : Env) (y w : Nat) (hy1 : 1 ≤ y) (hy2 : y ≤ 9999)
    (hw1 : 1 ≤ w) (hw2 : w ≤ 53) :
    ∃ M : Int,
      (mondayMidnight M ∧ M ≤ (Date y 1 4 0 0 0 0 UTC).ns ∧
        (Date y 1 4 0 0 0 0 UTC).ns < M + 7 * dayNs) ∧
      (∀ M' : Int, mondayMidnight M' → M' ≤ (Date y 1 4 0 0 0 0 UTC).ns →
        (Date y 1 4 0 0 0 0 UTC).ns < M' + 7 * dayNs → M' = M) ∧
      Absolute env (weekToken y w) (some UTC) =
        some ⟨⟨⟨M + 7 * ((w : Int) - 1) * dayNs, UTC⟩, ⟨M + 7 * (w : Int) * dayNs, UTC⟩⟩,
          false⟩ ∧
      Absolute env (basicWeekToken y w) (some UTC) =
        some ⟨⟨⟨M + 7 * ((w : Int) - 1) * dayNs, UTC⟩, ⟨M + 7 * (w : Int) * dayNs, UTC⟩⟩,
          false⟩ := by
  obtain ⟨h1, h2⟩ := Absolute_weekToken env (some UTC) y w hy1 hy2 hw1 hw2
  have hloc : env.locOf (some UTC) = UTC := rfl
  rw [hloc, week_UTC] at h1 h2
  rw [Date_midnight_UTC _ 1 4 (by omega) (by omega)]
  refine ⟨(civilDays y 1 4 - civilDays y 1 4 % 7) * dayNs, ⟨⟨?_, ?_⟩, ?_, ?_⟩, ?_, ?_, ?_⟩
  · rw [Weekday_midnight_UTC]
    unfold Monday
    omega
  · unfold dayNs
    omega
  · simp only
    unfold dayNs
    omega
  · simp only
    unfold dayNs
    omega
  · intro M' ⟨hw, hm⟩ hle hlt
    simp only at hle hlt
    obtain ⟨D, rfl⟩ : ∃ D : Int, M' = D * dayNs := ⟨M' / dayNs, by unfold dayNs at *; omega⟩
    rw [Weekday_midnight_UTC] at hw
    unfold Monday at hw
    unfold dayNs at *
    omega
  · rw [h1]
    unfold dayNs
    congr 4 <;> omega
  · rw [h2]
    unfold dayNs
    congr 4 <;> omega

theorem iso_week_interval_witness :
    1 ≤ (2017 : Nat) ∧ (2017 : Nat) ≤ 9999 ∧ 1 ≤ (11 : Nat) ∧ (11 : Nat) ≤ 53 ∧
      weekToken 2017 11 = lit "2017-W11" ∧
      ∃ M : Int,
        (mondayMidnight M ∧ M ≤ (Date (2017 : Nat) 1 4 0 0 0 0 UTC).ns ∧
          (Date (2017 : Nat) 1 4 0 0 0 0 UTC).ns < M + 7 * dayNs) ∧
        (∀ M' : Int, mondayMidnight M' → M' ≤ (Date (2017 : Nat) 1 4 0 0 0 0 UTC).ns →
          (Date (2017 : Nat) 1 4 0 0 0 0 UTC).ns < M' + 7 * dayNs → M' = M) ∧
        Absolute ⟨UTC, 0⟩ (weekToken 2017 11) (some UTC) =
          some ⟨⟨⟨M + 7 * (((11 : Nat) : Int) - 1) * dayNs, UTC⟩,
            ⟨M + 7 * ((11 : Nat) : Int) * dayNs, UTC⟩⟩, false⟩ ∧
        Absolute ⟨UTC, 0⟩ (basicWeekToken 2017 11) (some UTC) =
          some ⟨⟨⟨M + 7 * (((11 : Nat) : Int) - 1) * dayNs, UTC⟩,
            ⟨M + 7 * ((11 : Nat) : Int) * dayNs, UTC⟩⟩, false⟩ :=
  ⟨by decide, by decide, by decide, by decide, by decide,
    iso_week_interval ⟨UTC, 0⟩ 2017 11 (by decide) (by decide) (by decide) (by decide)⟩

theorem Absolute_weekDateToken (env : Env) (loc : Option Location) (y w k : Nat)
    (hy1 : 1 ≤ y) (hy2 : y ≤ 9999) (hw1 : 1 ≤ w) (hw2 : w ≤ 53) (hk1 : 1 ≤ k) (hk2 : k ≤ 7) :
    Absolute env (weekDateToken y w k) loc = some (week y w ((k : Int) - 1) 1 (env.locOf loc)) ∧
      Absolute env (basicWeekDateToken y w k) loc =
        some (week y w ((k : Int) - 1) 1 (env.locOf loc)) := by
  have py := parse_dec4 y hy1 hy2
  have pw := parse_dec2 w 1 53 (by omega) (by omega) (by omega)
  have pk := parse_digit k 1 7 (by omega) (by omega) (by omega)
  unfold weekDateToken basicWeekDateToken
  unfold dec4 dec2 at *
  simp only [List.cons_append, List.nil_append]
  rw [Absolute_ext10 _ _ _ _ _ _ _ _ _ _ _ (digit_ne _ 45 (Or.inl (by decide)))
      (digit_ne _ 45 (Or.inl (by decide))) (digit_ne _ 45 (Or.inl (by decide)))
      (digit_ne _ 45 (Or.inl (by decide))),
    Absolute_bas8 _ _ _ _ _ _ _ _ _ _ (digit_ne _ 45 (Or.inl (by decide)))
      (digit_ne _ 45 (Or.inl (by decide))) (digit_ne _ 45 (Or.inl (by decide)))
      (digit_ne _ 45 (Or.inl (by decide))) (by decide) (digit_ne _ 45 (Or.inl (by decide)))
      (digit_ne _ 45 (Or.inl (by decide))) (digit_ne _ 45 (Or.inl (by decide)))]
  simp only [if_true, and_self, parseISOWeekDate, py, pw, pk]

/-- C7: for every year `y` in [1,9999], week `w` in [1,53] and weekday `k` in
[1,7], `Absolute` on `YYYY-Www-k` and on `YYYYWwwk` in UTC returns, without
error, the one-day interval that starts `k - 1` days after the start of the
interval of `YYYY-Www`; its first instant has weekday `k` (Monday = 1 ..
Saturday = 6, and Go's Sunday = 0 for `k = 7`) and it lies inside the week. -/
theorem iso_week_date_interval (env : Env) (y w k : Nat) (hy1 : 1 ≤ y) (hy2 : y ≤ 9999)
    (hw1 : 1 ≤ w) (hw2 : w ≤ 53) (hk1 : 1 ≤ k) (hk2 : k ≤ 7) :
    ∃ rw rd : Result,
      Absolute env (weekToken y w) (some UTC) = some rw ∧
      Absolute env (weekDateToken y w k) (some UTC) = some rd ∧
      Absolute env (basicWeekDateToken y w k) (some UTC) = some rd ∧
      rw.failed = false ∧ rd.failed = false ∧
      rd.range.LowerInc = ⟨rw.range.LowerInc.ns + ((k : Int) - 1) * dayNs, UTC⟩ ∧
      rd.range.UpperExc = ⟨rw.range.LowerInc.ns + (k : Int) * dayNs, UTC⟩ ∧
      rd.range.LowerInc.Weekday = (k : Int) % 7 ∧
      rw.range.LowerInc.ns ≤ rd.range.LowerInc.ns ∧
      rd.range.UpperExc.ns ≤ rw.range.UpperExc.ns := by
  obtain ⟨h1, -⟩ := Absolute_weekToken env (some UTC) y w hy1 hy2 hw1 hw2
  obtain ⟨h2, h3⟩ := Absolute_weekDateToken env (some UTC) y w k hy1 hy2 hw1 hw2 hk1 hk2
  have hloc : env.locOf (some UTC) = UTC := rfl
  rw [hloc, week_UTC] at h1 h2 h3
  refine ⟨_, _, h1, h2, h3, rfl, rfl, ?_, ?_, ?_, ?_, ?_⟩
  · simp only
    unfold dayNs
    congr 1
    omega
  · simp only
    unfold dayNs
    congr 1
    omega
  · simp only
    rw [Weekday_midnight_UTC]
    omega
  · simp only
    unfold dayNs
    omega
  · simp only
    unfold dayNs
    omega

theorem iso_week_date_interval_witness :
    1 ≤ (2017 : Nat) ∧ (2017 : Nat) ≤ 9999 ∧ 1 ≤ (11 : Nat) ∧ (11 : Nat) ≤ 53 ∧
      1 ≤ (6 : Nat) ∧ (6 : Nat) ≤ 7 ∧ weekDateToken 2017 11 6 = lit "2017-W11-6" ∧
      Absolute ⟨UTC, 0⟩ (lit "2017-W11-6") (some UTC) =
        some ⟨⟨Date 2017 3 18 0 0 0 0 UTC, Date 2017 3 19 0 0 0 0 UTC⟩, false⟩ ∧
      ∃ rw rd : Result,
        Absolute ⟨UTC, 0⟩ (weekToken 2017 11) (some UTC) = some rw ∧
        Absolute ⟨UTC, 0⟩ (weekDateToken 2017 11 6) (some UTC) = some rd ∧
        Absolute ⟨UTC, 0⟩ (basicWeekDateToken 2017 11 6) (some UTC) = some rd ∧
        rw.failed = false ∧ rd.failed = false ∧
        rd.range.LowerInc = ⟨rw.range.LowerInc.ns + (((6 : Nat) : Int) - 1) * dayNs, UTC⟩ ∧
        rd.range.UpperExc = ⟨rw.range.LowerInc.ns + ((6 : Nat) : Int) * dayNs, UTC⟩ ∧
        rd.range.LowerInc.Weekday = ((6 : Nat) : Int) % 7 ∧
        rw.range.LowerInc.ns ≤ rd.range.LowerInc.ns ∧
        rd.range.UpperExc.ns ≤ rw.range.UpperExc.ns :=
  ⟨by decide, by decide, by decide, by decide, by decide, by decide, by decide, by decide,
    iso_week_date_interval ⟨UTC, 0⟩ 2017 11 6 (by decide) (by decide) (by decide) (by decide)
      (by decide) (by decide)⟩

theorem daysIn_eq (m y : Int) : daysIn m y = monthLen (isLeap y) m := rfl

theorem absYear_civilDays (y m d : Int) (hm1 : 1 ≤ m) (hm2 : m ≤ 12) (hd1 : 1 ≤ d)
    (hd2 : d ≤ monthLen (isLeap y) m) :
    absYear (civilDays y m d) = (y, daysBefore (m - 1) + leapShift (isLeap y) m + (d - 1)) := by
  obtain ⟨n, rfl⟩ : ∃ n : Nat, m = n := ⟨m.toNat, by omega⟩
  have ht := yearDay_table n (by omega) (isLeap y) (by omega)
  have := absYear_days y (daysBefore ((n : Int) - 1) + leapShift (isLeap y) n + (d - 1))
    (by unfold leapShift; split_ifs <;> omega) (by unfold yearLen; omega)
  rw [← this]
  unfold civilDays
  congr 1
  omega

/-- The day of the year of a valid calendar date at 00:00 UTC. -/
theorem YearDay_Date (y m d : Int) (hm1 : 1 ≤ m) (hm2 : m ≤ 12) (hd1 : 1 ≤ d)
    (hd2 : d ≤ monthLen (isLeap y) m) :
    (Date y m d 0 0 0 0 UTC).YearDay = daysBefore (m - 1) + leapShift (isLeap y) m + d := by
  rw [Date_midnight_UTC y m d hm1 hm2]
  unfold Time.YearDay
  rw [abs_UTC]
  have e : civilDays y m d * dayNs / 1000000000 / 86400 = civilDays y m d := by
    unfold dayNs
    omega
  rw [e, absYear_civilDays y m d hm1 hm2 hd1 hd2]
  simp only
  omega

theorem Absolute_ordinalToken (env : Env) (loc : Option Location) (y n : Nat)
    (hy1 : 1 ≤ y) (hy2 : y ≤ 9999) (hn1 : 1 ≤ n) (hn2 : n ≤ 366) :
    Absolute env (ordinalToken y n) loc = some (day y 1 n 1 (env.locOf loc)) ∧
      Absolute env (basicOrdinalToken y n) loc = some (day y 1 n 1 (env.locOf loc)) := by
  have py := parse_dec4 y hy1 hy2
  have pn := parse_dec3 n 1 366 (by omega) (by omega) (by omega)
  unfold ordinalToken basicOrdinalToken
  unfold dec4 dec3 at *
  simp only [List.cons_append, List.nil_append]
  rw [Absolute_ext8 _ _ _ _ _ _ _ _ _ (digit_ne _ 45 (Or.inl (by decide)))
      (digit_ne _ 45 (Or.inl (by decide))) (digit_ne _ 45 (Or.inl (by decide)))
      (digit_ne _ 45 (Or.inl (by decide))),
    Absolute_bas7 _ _ _ _ _ _ _ _ _ (digit_ne _ 45 (Or.inl (by decide)))
      (digit_ne _ 45 (Or.inl (by decide))) (digit_ne _ 45 (Or.inl (by decide)))
      (digit_ne _ 45 (Or.inl (by decide))) (digit_ne _ 45 (Or.inl (by decide)))
      (digit_ne _ 45 (Or.inl (by decide))) (digit_ne _ 45 (Or.inl (by decide)))]
  simp only [digit_ne _ 87 (Or.inr (by decide)), if_false, parseOrdinalDate, py, pn, and_self]

/-- `Absolute` on a calendar-date token of a valid date, in a location with a
constant offset: the day from 00:00 to 00:00 of the next day. -/
theorem Absolute_valid_date (env : Env) (loc : Option Location) (hl : (env.locOf loc).fixed)
    (y m d : Nat) (hy : y ≤ 9999) (hm1 : 1 ≤ m) (hm2 : m ≤ 12) (hd1 : 1 ≤ d)
    (hd2 : (d : Int) ≤ daysIn m y) :
    Absolute env (dateToken y m d) loc =
        some ⟨⟨Date y m d 0 0 0 0 (env.locOf loc),
          ⟨(Date y m d 0 0 0 0 (env.locOf loc)).ns + dayNs, env.locOf loc⟩⟩, false⟩ ∧
      Absolute env (basicDateToken y m d) loc =
        some ⟨⟨Date y m d 0 0 0 0 (env.locOf loc),
          ⟨(Date y m d 0 0 0 0 (env.locOf loc)).ns + dayNs, env.locOf loc⟩⟩, false⟩ := by
  have hb := monthLen_bounds (isLeap y) m (by omega) (by omega)
  rw [daysIn_eq] at hd2
  have hc : ¬ ((d : Int) < 1 ∨ (d : Int) > daysIn m y) := by
    rw [daysIn_eq]
    omega
  unfold dateToken basicDateToken
  rw [Absolute_date, Absolute_basicDate]
  unfold parseDate
  rw [ParseInLocation_date y m d hy hm1 hm2 (by omega),
    ParseInLocation_basicDate y m d hy hm1 hm2 (by omega), if_neg hc]
  simp only []
  rw [AddDate_days _ (by rw [Date_loc]; exact hl), Date_loc, one_mul]
  exact ⟨rfl, rfl⟩

/-- C8: for every valid date `(y, m, d)` with `y` in [1,9999] whose day of the
year is `n`, the ordinal tokens `YYYY-DDD` and `YYYYDDD` and the calendar tokens
`YYYY-MM-DD` and `YYYYMMDD` give the same `Range` under `Absolute` in UTC: from
00:00 of that date to 00:00 of the next day, 24 hours later. -/
theorem ordinal_equals_calendar (env : Env) (y m d n : Nat) (hy1 : 1 ≤ y) (hy2 : y ≤ 9999)
    (hm1 : 1 ≤ m) (hm2 : m ≤ 12) (hd1 : 1 ≤ d) (hd2 : (d : Int) ≤ daysIn m y)
    (hn : (Date y m d 0 0 0 0 UTC).YearDay = n) :
    Absolute env (ordinalToken y n) (some UTC) =
        some ⟨⟨Date y m d 0 0 0 0 UTC, ⟨(Date y m d 0 0 0 0 UTC).ns + dayNs, UTC⟩⟩, false⟩ ∧
      Absolute env (basicOrdinalToken y n) (some UTC) =
        some ⟨⟨Date y m d 0 0 0 0 UTC, ⟨(Date y m d 0 0 0 0 UTC).ns + dayNs, UTC⟩⟩, false⟩ ∧
      Absolute env (dateToken y m d) (some UTC) =
        some ⟨⟨Date y m d 0 0 0 0 UTC, ⟨(Date y m d 0 0 0 0 UTC).ns + dayNs, UTC⟩⟩, false⟩ ∧
      Absolute env (basicDateToken y m d) (some UTC) =
        some ⟨⟨Date y m d 0 0 0 0 UTC, ⟨(Date y m d 0 0 0 0 UTC).ns + dayNs, UTC⟩⟩, false⟩ := by
  have hd2' : (d : Int) ≤ monthLen (isLeap y) m := by rw [← daysIn_eq]; exact hd2
  rw [YearDay_Date y m d (by omega) (by omega) (by omega) hd2'] at hn
  have ht := yearDay_table m (by omega) (isLeap y) (by omega)
  have hs : 0 ≤ leapShift (isLeap y) m := by unfold leapShift; split_ifs <;> omega
  obtain ⟨o1, o2⟩ := Absolute_ordinalToken env (some UTC) y n hy1 hy2 (by omega) (by omega)
  obtain ⟨c1, c2⟩ := Absolute_valid_date env (some UTC) UTC_fixed y m d hy2 hm1 hm2 hd1 hd2
  have hloc : env.locOf (some UTC) = UTC := rfl
  rw [hloc] at o1 o2 c1 c2
  have hday : day y 1 n 1 UTC =
      ⟨⟨Date y m d 0 0 0 0 UTC, ⟨(Date y m d 0 0 0 0 UTC).ns + dayNs, UTC⟩⟩, false⟩ := by
    rw [day_fixed _ _ _ _ _ UTC_fixed, Date_midnight_UTC y 1 n (by omega) (by omega),
      Date_midnight_UTC y m d (by omega) (by omega)]
    have e : civilDays y 1 n = civilDays y m d := by
      unfold civilDays
      have z : daysBefore ((1 : Int) - 1) = 0 := by decide
      have z2 : leapShift (isLeap y) 1 = 0 := by unfold leapShift; simp
      rw [z, z2]
      omega
    rw [e, one_mul]
  rw [hday] at o1 o2
  exact ⟨o1, o2, c1, c2⟩

theorem ordinal_equals_calendar_witness :
    1 ≤ (2017 : Nat) ∧ (2017 : Nat) ≤ 9999 ∧ 1 ≤ (3 : Nat) ∧ (3 : Nat) ≤ 12 ∧ 1 ≤ (18 : Nat) ∧
      (((18 : Nat) : Int) ≤ daysIn (3 : Nat) (2017 : Nat)) ∧
      (Date (2017 : Nat) (3 : Nat) (18 : Nat) 0 0 0 0 UTC).YearDay = (77 : Nat) ∧
      ordinalToken 2017 77 = lit "2017-077" ∧ dateToken 2017 3 18 = lit "2017-03-18" ∧
      (Absolute ⟨UTC, 0⟩ (ordinalToken 2017 77) (some UTC) =
          some ⟨⟨Date (2017 : Nat) (3 : Nat) (18 : Nat) 0 0 0 0 UTC,
            ⟨(Date (2017 : Nat) (3 : Nat) (18 : Nat) 0 0 0 0 UTC).ns + dayNs, UTC⟩⟩, false⟩ ∧
        Absolute ⟨UTC, 0⟩ (basicOrdinalToken 2017 77) (some UTC) =
          some ⟨⟨Date (2017 : Nat) (3 : Nat) (18 : Nat) 0 0 0 0 UTC,
            ⟨(Date (2017 : Nat) (3 : Nat) (18 : Nat) 0 0 0 0 UTC).ns + dayNs, UTC⟩⟩, false⟩ ∧
        Absolute ⟨UTC, 0⟩ (dateToken 2017 3 18) (some UTC) =
          some ⟨⟨Date (2017 : Nat) (3 : Nat) (18 : Nat) 0 0 0 0 UTC,
            ⟨(Date (2017 : Nat) (3 : Nat) (18 : Nat) 0 0 0 0 UTC).ns + dayNs, UTC⟩⟩, false⟩ ∧
        Absolute ⟨UTC, 0⟩ (basicDateToken 2017 3 18) (some UTC) =
          some ⟨⟨Date (2017 : Nat) (3 : Nat) (18 : Nat) 0 0 0 0 UTC,
            ⟨(Date (2017 : Nat) (3 : Nat) (18 : Nat) 0 0 0 0 UTC).ns + dayNs, UTC⟩⟩, false⟩) :=
  ⟨by decide, by decide, by decide, by decide, by decide, by decide, by decide, by decide,
    by decide,
    ordinal_equals_calendar ⟨UTC, 0⟩ 2017 3 18 77 (by decide) (by decide) (by decide) (by decide)
      (by decide) (by decide) (by decide)⟩

theorem IndexByte_append (A rest : Str) (c : Nat) (hA : ∀ x ∈ A, x ≠ c) :
    IndexByte (A ++ c :: rest) c = some A.length := by
  induction A with
  | nil => simp [IndexByte]
  | cons a A ih =>
    have ha : a ≠ c := hA a (by simp)
    have := ih (fun x hx => hA x (by simp [hx]))
    simp [IndexByte, ha, this]

theorem LastIndexByte_none (C : Str) (c : Nat) (hC : ∀ x ∈ C, x ≠ c) :
    LastIndexByte C c = none := by
  induction C with
  | nil => rfl
  | cons a C ih =>
    have ha : a ≠ c := hC a (by simp)
    have := ih (fun x hx => hC x (by simp [hx]))
    simp [LastIndexByte, ha, this]

theorem LastIndexByte_append (X C : Str) (c : Nat) (hC : ∀ x ∈ C, x ≠ c) :
    LastIndexByte (X ++ c :: C) c = some X.length := by
  induction X with
  | nil => simp [LastIndexByte, LastIndexByte_none C c hC]
  | cons a X ih => simp [LastIndexByte, ih]

theorem substr_prefix (A rest : Str) : substr (A ++ rest) 0 A.length = some A := by
  simp [substr]

theorem substr_suffix (X C : Str) (c : Nat) :
    substr (X ++ c :: C) (X.length + 1) (X ++ c :: C).length = some C := by
  have h : X ++ c :: C = (X ++ [c]) ++ C := by simp
  have hl : X.length + 1 = (X ++ [c]).length := by simp
  unfold substr
  rw [if_pos (by simp), List.take_length, h, hl, List.drop_left]

theorem substr_middle (A B C : Str) (c d : Nat) :
    substr (A ++ c :: (B ++ d :: C)) (A.length + 1) (A.length + 1 + B.length) = some B := by
  have h : A ++ c :: (B ++ d :: C) = (A ++ [c]) ++ (B ++ d :: C) := by simp
  have hl : A.length + 1 = (A ++ [c]).length := by simp
  unfold substr
  rw [if_pos (by simp; omega), h, hl, List.take_append, List.drop_left, List.take_left']
  rfl

/-- `Relative` on a token of three segments, the first and the last free of
underscores: the token is cut at its first and last underscore. -/
theorem Relative_three (env : Env) (t : Option Time) (A B C : Str)
    (hA : ∀ x ∈ A, x ≠ 95) (hC : ∀ x ∈ C, x ≠ 95)
    (h5 : 5 ≤ A.length + B.length + C.length + 2) (h20 : A.length + B.length + C.length + 2 ≤ 20) :
    Relative env (A ++ 95 :: (B ++ 95 :: C)) t = relativeThree A B C (env.timeOf t) := by
  have hi := IndexByte_append A (B ++ 95 :: C) 95 hA
  have e : A ++ 95 :: (B ++ 95 :: C) = (A ++ 95 :: B) ++ 95 :: C := by simp
  have hj : LastIndexByte (A ++ 95 :: (B ++ 95 :: C)) 95 = some (A.length + 1 + B.length) := by
    rw [e, LastIndexByte_append _ C 95 hC]
    simp
    omega
  have hlen : ¬ ((A ++ 95 :: (B ++ 95 :: C)).length < 5 ∨ (A ++ 95 :: (B ++ 95 :: C)).length > 20) := by
    simp
    omega
  have s1 := substr_prefix A (95 :: (B ++ 95 :: C))
  have s2 := substr_middle A B C 95 95
  have s3 : substr (A ++ 95 :: (B ++ 95 :: C)) (A.length + 1 + B.length + 1)
      (A ++ 95 :: (B ++ 95 :: C)).length = some C := by
    have := substr_suffix (A ++ 95 :: B) C 95
    have e2 : (A ++ 95 :: B).length + 1 = A.length + 1 + B.length + 1 := by
      simp
      omega
    rw [← e, e2] at this
    exact this
  have hne : ¬ (A.length = A.length + 1 + B.length) := by omega
  unfold Relative
  rw [if_neg hlen]
  simp only [hi, hj, hne, if_false, s1, s2, s3]
  rfl

/-- `Relative` on a token of two segments free of underscores. -/
theorem Relative_one (env : Env) (t : Option Time) (A B : Str)
    (hA : ∀ x ∈ A, x ≠ 95) (hB : ∀ x ∈ B, x ≠ 95)
    (h5 : 5 ≤ A.length + B.length + 1) (h20 : A.length + B.length + 1 ≤ 20) :
    Relative env (A ++ 95 :: B) t = relativeOne A B (env.timeOf t) := by
  have hi := IndexByte_append A B 95 hA
  have hj := LastIndexByte_append A B 95 hB
  have hlen : ¬ ((A ++ 95 :: B).length < 5 ∨ (A ++ 95 :: B).length > 20) := by
    simp
    omega
  have s1 := substr_prefix A (95 :: B)
  have s2 := substr_suffix A B 95
  unfold Relative
  rw [if_neg hlen]
  simp only [hi, hj, if_true, s1, s2]
  rfl

/-- C4, the code at the failing input: `Absolute` accepts the calendar-date tokens
`0000-01-01` and `00000101` and the date-time token `0000-01-01T00`, whose year
field 0000 is below `minYear`, and returns the first day (first hour) of the
year 0. -/
theorem year_zero_accepted_by_date_layouts :
    Absolute ⟨UTC, 0⟩ (lit "0000-01-01") (some UTC) =
        some ⟨⟨Date 0 1 1 0 0 0 0 UTC, Date 0 1 2 0 0 0 0 UTC⟩, false⟩ ∧
      Absolute ⟨UTC, 0⟩ (lit "00000101") (some UTC) =
        some ⟨⟨Date 0 1 1 0 0 0 0 UTC, Date 0 1 2 0 0 0 0 UTC⟩, false⟩ ∧
      Absolute ⟨UTC, 0⟩ (lit "0000-01-01T00") (some UTC) =
        some ⟨⟨Date 0 1 1 0 0 0 0 UTC, Date 0 1 1 1 0 0 0 UTC⟩, false⟩ ∧
      Absolute ⟨UTC, 0⟩ (lit "0000") (some UTC) = some err ∧
      Absolute ⟨UTC, 0⟩ (lit "0000-01") (some UTC) = some err ∧
      Absolute ⟨UTC, 0⟩ (lit "0000-W01") (some UTC) = some err ∧
      Absolute ⟨UTC, 0⟩ (lit "0000-W01-1") (some UTC) = some err ∧
      Absolute ⟨UTC, 0⟩ (lit "0000-001") (some UTC) = some err := by
  decide

/-- C5, the code at the failing input: 2015 is not a leap year, and `Absolute`
accepts the ordinal tokens `2015-366` and `2015366` and returns the first day
of 2016. -/
theorem ordinal_366_rolls_into_next_year :
    isLeap 2015 = false ∧
      Absolute ⟨UTC, 0⟩ (lit "2015-366") (some UTC) =
        some ⟨⟨Date 2016 1 1 0 0 0 0 UTC, Date 2016 1 2 0 0 0 0 UTC⟩, false⟩ ∧
      Absolute ⟨UTC, 0⟩ (lit "2015366") (some UTC) =
        some ⟨⟨Date 2016 1 1 0 0 0 0 UTC, Date 2016 1 2 0 0 0 0 UTC⟩, false⟩ ∧
      Absolute ⟨UTC, 0⟩ (lit "2015-02-30") (some UTC) = some err := by
  decide

theorem isDecimal_facts {ds : Str} {n : Nat} (h : isDecimal ds n) :
    Atoi ds = some (n : Int) ∧ n ≤ 999 ∧ 1 ≤ ds.length ∧ ds.length ≤ 3 ∧
      (∀ x ∈ ds, x ≠ 95) ∧ (∃ c, ds[0]? = some c ∧ c ≠ 97) := by
  have d95 : ∀ k, digit k ≠ 95 := fun k => digit_ne k 95 (Or.inr (by decide))
  have d97 : ∀ k, digit k ≠ 97 := fun k => digit_ne k 97 (Or.inr (by decide))
  rcases h with ⟨hn, rfl⟩ | ⟨hn, rfl⟩ | ⟨hn, rfl⟩
  · refine ⟨Atoi_digit n hn, by omega, by simp, by simp, ?_, ⟨digit n, by simp, d97 _⟩⟩
    intro x hx
    simp only [List.mem_singleton] at hx
    rw [hx]
    exact d95 _
  · refine ⟨Atoi_dec2 n hn, by omega, by simp [dec2], by simp [dec2], ?_,
      ⟨digit (n / 10), by simp [dec2], d97 _⟩⟩
    intro x hx
    simp only [dec2, List.mem_cons, List.mem_singleton, List.not_mem_nil, or_false] at hx
    rcases hx with hx | hx <;> rw [hx] <;> exact d95 _
  · refine ⟨Atoi_dec3 n hn, by omega, by simp [dec3], by simp [dec3], ?_,
      ⟨digit (n / 100), by simp [dec3], d97 _⟩⟩
    intro x hx
    simp only [dec3, List.mem_cons, List.mem_singleton, List.not_mem_nil, or_false] at hx
    rcases hx with hx | hx | hx <;> rw [hx] <;> exact d95 _

theorem bind_some_eq {α β : Type} (x : Option α) (a : α) (f : α → Option β) (h : x = some a) :
    (x >>= f) = f a := by
  rw [h]
  rfl

theorem rest_eq (dp vs : Str) (n : Int) (t : Time) (h : dp.length ≠ 0) :
    (dp[dp.length - 1]? >>= fun c =>
      (pure (slice (if c = 115 then dp.take (dp.length - 1) else dp) vs n t) : Option Result)) =
      some (slice (stripS dp) vs n t) := by
  have hlt : dp.length - 1 < dp.length := by omega
  rw [bind_some_eq _ _ _ (List.getElem?_eq_getElem hlt)]
  unfold stripS
  rw [List.getElem?_eq_getElem hlt]
  simp only [Option.some.injEq]
  rfl

/-- The three-segment block on `<n>_<unit>_<modifier>`, the modifier starting
with `a`. -/
theorem relativeThree_suffix (ds U V : Str) (n : Nat) (t : Time) (hdec : isDecimal ds n)
    (hU : U.length ≠ 0) (hV : V[0]? = some 97) :
    relativeThree ds U V t = some (slice (stripS U) V n t) := by
  obtain ⟨ha, hn, hl1, hl3, -, -⟩ := isDecimal_facts hdec
  have hVl : V.length ≠ 0 := by
    cases V with
    | nil => simp at hV
    | cons a V => simp
  have hz : ¬ (ds.length = 0 ∨ U.length = 0 ∨ V.length = 0) := by omega
  have hr : ¬ ((n : Int) < 0 ∨ (n : Int) > maxOffset) := by unfold maxOffset; omega
  unfold relativeThree
  rw [if_neg hz, bind_some_eq _ _ _ hV]
  simp only [ne_eq, not_true_eq_false, if_false, ha, hr, rest_eq U V n t hU]
  by_cases h0 : (n : Int) = 0
  · rw [if_pos h0, bind_some_eq _ _ _ hV]
    simp
  · rw [if_neg h0]

/-- The three-segment block on `<modifier>_<n>_<unit>`, the unit not starting
with `a`, for a count of at least 1. -/
theorem relativeThree_prefix (V ds U : Str) (n : Nat) (t : Time) (hdec : isDecimal ds n)
    (hn1 : 1 ≤ n) (hV : V.length ≠ 0) (c : Nat) (hU : U[0]? = some c) (hc : c ≠ 97) :
    relativeThree V ds U t = some (slice (stripS U) V n t) := by
  obtain ⟨ha, hn, hl1, hl3, -, -⟩ := isDecimal_facts hdec
  have hUl : U.length ≠ 0 := by
    cases U with
    | nil => simp at hU
    | cons a U => simp
  have hz : ¬ (V.length = 0 ∨ ds.length = 0 ∨ U.length = 0) := by omega
  have hr : ¬ ((n : Int) < 0 ∨ (n : Int) > maxOffset) := by unfold maxOffset; omega
  have h0 : ¬ ((n : Int) = 0) := by omega
  unfold relativeThree
  rw [if_neg hz, bind_some_eq _ _ _ hU]
  simp only [ne_eq, hc, not_false_eq_true, if_true, ha, hr, if_false, h0,
    rest_eq U V n t hUl]

theorem slice_ago (dp : Str) (n : Int) (t : Time) :
    slice dp (lit "ago") n t = newRange dp (-n) (-n) t := by
  unfold slice
  rw [if_pos rfl]

theorem slice_ahead (dp : Str) (n : Int) (t : Time) :
    slice dp (lit "ahead") n t = newRange dp n n t := by
  unfold slice
  rw [if_neg (by decide), if_pos rfl]

theorem slice_prev (dp : Str) (n : Int) (t : Time) :
    slice dp (lit "prev") n t = newRange dp (-n) (-1) t := by
  unfold slice
  rw [if_neg (by decide), if_neg (by decide), if_pos (Or.inl rfl)]

theorem slice_previous (dp : Str) (n : Int) (t : Time) :
    slice dp (lit "previous") n t = newRange dp (-n) (-1) t := by
  unfold slice
  rw [if_neg (by decide), if_neg (by decide), if_pos (Or.inr rfl)]

theorem slice_last (dp : Str) (n : Int) (t : Time) :
    slice dp (lit "last") n t = newRange dp (1 - n) 0 t := by
  unfold slice
  rw [if_neg (by decide), if_neg (by decide), if_neg (by decide), if_pos rfl]

theorem slice_this (dp : Str) (n : Int) (t : Time) :
    slice dp (lit "this") n t = newRange dp 0 (n - 1) t := by
  unfold slice
  rw [if_neg (by decide), if_neg (by decide), if_neg (by decide), if_neg (by decide),
    if_pos rfl]

theorem slice_next (dp : Str) (n : Int) (t : Time) :
    slice dp (lit "next") n t = newRange dp 1 n t := by
  unfold slice
  rw [if_neg (by decide), if_neg (by decide), if_neg (by decide), if_neg (by decide),
    if_neg (by decide), if_pos rfl]

theorem slice_other (dp vs : Str) (n : Int) (t : Time) (h1 : vs ≠ lit "ago")
    (h2 : vs ≠ lit "ahead") (h3 : vs ≠ lit "prev") (h4 : vs ≠ lit "previous")
    (h5 : vs ≠ lit "last") (h6 : vs ≠ lit "this") (h7 : vs ≠ lit "next") :
    slice dp vs n t = err := by
  unfold slice
  rw [if_neg h1, if_neg h2, if_neg (by simp [h3, h4]), if_neg h5, if_neg h6, if_neg h7]

/-- File `relative.go`, `newRange` for the unit `day` at a reference instant in
UTC: from `l` days after 00:00 of its day to `u + 1` days after it. -/
theorem newRange_day_UTC (tn l u : Int) :
    newRange (lit "day") l u ⟨tn, UTC⟩ =
      ⟨⟨⟨startOfDay tn + l * dayNs, UTC⟩, ⟨startOfDay tn + (u + 1) * dayNs, UTC⟩⟩, false⟩ := by
  obtain ⟨e, m1, m2, -, -⟩ := fields_days ⟨tn, UTC⟩
  unfold newRange
  rw [if_pos rfl]
  simp only []
  rw [day_fixed _ _ _ _ _ UTC_fixed, Date_midnight_UTC _ _ _ m1 m2]
  have hc : civilDays (Time.Year ⟨tn, UTC⟩) (Time.Month ⟨tn, UTC⟩) (Time.Day ⟨tn, UTC⟩ + l)
      = tn / 1000000000 / 86400 + l := by
    rw [← abs_UTC tn, ← e]
    unfold civilDays
    omega
  rw [hc]
  unfold startOfDay dayNs
  simp only []
  congr 3 <;> omega

/-- File `relative.go`, `newRange` for the units `min` and `minute` at a
reference instant in UTC: elapsed minutes from the start of its minute. -/
theorem newRange_minute_UTC (tn l u : Int) :
    newRange (lit "minute") l u ⟨tn, UTC⟩ =
        ⟨⟨⟨startOfMinute tn + l * Minute, UTC⟩, ⟨startOfMinute tn + (u + 1) * Minute, UTC⟩⟩,
          false⟩ ∧
      newRange (lit "min") l u ⟨tn, UTC⟩ =
        ⟨⟨⟨startOfMinute tn + l * Minute, UTC⟩, ⟨startOfMinute tn + (u + 1) * Minute, UTC⟩⟩,
          false⟩ := by
  obtain ⟨e, m1, m2, -, -⟩ := fields_days ⟨tn, UTC⟩
  obtain ⟨c, -⟩ := fields_clock ⟨tn, UTC⟩
  have hs : Time.Second ⟨tn, UTC⟩ = Time.abs ⟨tn, UTC⟩ % 60 := rfl
  have ha := abs_UTC tn
  have key : minute (Time.Year ⟨tn, UTC⟩) (Time.Month ⟨tn, UTC⟩) (Time.Day ⟨tn, UTC⟩)
      (Time.Hour ⟨tn, UTC⟩) (Time.Minute ⟨tn, UTC⟩ + l) (u - l + 1) UTC =
      ⟨⟨⟨startOfMinute tn + l * Minute, UTC⟩, ⟨startOfMinute tn + (u + 1) * Minute, UTC⟩⟩,
        false⟩ := by
    unfold minute
    simp only []
    rw [Date_fixed _ _ _ _ _ _ _ _ UTC_fixed, wallSeconds_eq]
    have h1 : (Time.Month ⟨tn, UTC⟩ - 1) / 12 = 0 := by omega
    have h2 : (Time.Month ⟨tn, UTC⟩ - 1) % 12 + 1 = Time.Month ⟨tn, UTC⟩ := by omega
    rw [h1, h2]
    simp only [add_zero]
    rw [e]
    unfold Time.Add startOfMinute Minute
    have hb : UTC.base = 0 := rfl
    simp only [hb]
    rw [hs] at c
    generalize Time.Hour ⟨tn, UTC⟩ = H at *
    generalize Time.Minute ⟨tn, UTC⟩ = M at *
    generalize Time.abs ⟨tn, UTC⟩ = A at *
    subst ha
    congr 3 <;> omega
  unfold newRange
  constructor
  · rw [if_neg (by decide), if_neg (by decide), if_pos (Or.inr rfl)]
    exact key
  · rw [if_neg (by decide), if_neg (by decide), if_pos (Or.inl rfl)]
    exact key

/-- File `relative.go`, `newRange` for the unit `hour` at a reference instant in
UTC: elapsed hours from the start of its hour. -/
theorem newRange_hour_UTC (tn l u : Int) :
    newRange (lit "hour") l u ⟨tn, UTC⟩ =
      ⟨⟨⟨startOfHour tn + l * Hour, UTC⟩, ⟨startOfHour tn + (u + 1) * Hour, UTC⟩⟩, false⟩ := by
  obtain ⟨e, m1, m2, -, -⟩ := fields_days ⟨tn, UTC⟩
  obtain ⟨c, -⟩ := fields_clock ⟨tn, UTC⟩
  have hh : Time.Hour ⟨tn, UTC⟩ = Time.abs ⟨tn, UTC⟩ % 86400 / 3600 := rfl
  have ha := abs_UTC tn
  unfold newRange
  rw [if_neg (by decide), if_pos rfl]
  unfold minute
  simp only []
  rw [Date_fixed _ _ _ _ _ _ _ _ UTC_fixed, wallSeconds_eq]
  have h1 : (Time.Month ⟨tn, UTC⟩ - 1) / 12 = 0 := by omega
  have h2 : (Time.Month ⟨tn, UTC⟩ - 1) % 12 + 1 = Time.Month ⟨tn, UTC⟩ := by omega
  rw [h1, h2]
  simp only [add_zero]
  rw [e]
  unfold Time.Add startOfHour Hour Minute
  have hb : UTC.base = 0 := rfl
  simp only [hb]
  generalize Time.Hour ⟨tn, UTC⟩ = H at *
  generalize Time.abs ⟨tn, UTC⟩ = A at *
  subst ha
  congr 3 <;> omega

/-- `Relative` on `<n>_<unit>_<modifier>` with a decimal count and a modifier
starting with `a`. -/
theorem Relative_suffix (env : Env) (t : Time) (ds U V : Str) (n : Nat) (hdec : isDecimal ds n)
    (hU : U.length ≠ 0) (hV : V[0]? = some 97) (hV95 : ∀ x ∈ V, x ≠ 95)
    (h5 : 5 ≤ ds.length + U.length + V.length + 2)
    (h20 : ds.length + U.length + V.length + 2 ≤ 20) :
    Relative env (ds ++ 95 :: (U ++ 95 :: V)) (some t) = some (slice (stripS U) V n t) := by
  obtain ⟨-, -, -, -, h95, -⟩ := isDecimal_facts hdec
  rw [Relative_three env (some t) ds U V h95 hV95 h5 h20]
  exact relativeThree_suffix ds U V n t hdec hU hV

/-- `Relative` on `<modifier>_<n>_<unit>` with a decimal count of at least 1 and a
unit not starting with `a`. -/
theorem Relative_prefix (env : Env) (t : Time) (V ds U : Str) (n : Nat) (hdec : isDecimal ds n)
    (hn1 : 1 ≤ n) (hV : V.length ≠ 0) (hV95 : ∀ x ∈ V, x ≠ 95) (c : Nat)
    (hU : U[0]? = some c) (hc : c ≠ 97) (hU95 : ∀ x ∈ U, x ≠ 95)
    (h5 : 5 ≤ V.length + ds.length + U.length + 2)
    (h20 : V.length + ds.length + U.length + 2 ≤ 20) :
    Relative env (V ++ 95 :: (ds ++ 95 :: U)) (some t) = some (slice (stripS U) V n t) := by
  rw [Relative_three env (some t) V ds U hV95 hU95 h5 h20]
  exact relativeThree_prefix V ds U n t hdec hn1 hV c hU hc

/-- C9: for every reference instant in UTC, with `D` = 00:00 of its day, and every
count `n` written in one to three decimal digits, `Relative` returns, without
error, the interval from `D + l` days to `D + (u + 1)` days, where `(l, u)` is
`(-n, -n)` for `n_days_ago` and `(n, n)` for `n_days_ahead` (any `n` in
[0,999]), and for `n` in [1,999] `(-n, -1)` for `prev_n_days` and
`previous_n_days`, `(1 - n, 0)` for `last_n_days`, `(0, n - 1)` for
`this_n_days` and `(1, n)` for `next_n_days`; every other modifier word is
rejected by `slice`. -/
theorem relative_day_offsets (env : Env) (tn : Int) (ds : Str) (n : Nat)
    (hdec : isDecimal ds n) :
    Relative env (ds ++ lit "_days_ago") (some ⟨tn, UTC⟩) =
        okUTC (startOfDay tn + (-(n : Int)) * dayNs) (startOfDay tn + (-(n : Int) + 1) * dayNs) ∧
      Relative env (ds ++ lit "_days_ahead") (some ⟨tn, UTC⟩) =
        okUTC (startOfDay tn + (n : Int) * dayNs) (startOfDay tn + ((n : Int) + 1) * dayNs) ∧
      (1 ≤ n →
        Relative env (lit "prev_" ++ ds ++ lit "_days") (some ⟨tn, UTC⟩) =
          okUTC (startOfDay tn + (-(n : Int)) * dayNs) (startOfDay tn + (-1 + 1) * dayNs) ∧
        Relative env (lit "previous_" ++ ds ++ lit "_days") (some ⟨tn, UTC⟩) =
          okUTC (startOfDay tn + (-(n : Int)) * dayNs) (startOfDay tn + (-1 + 1) * dayNs) ∧
        Relative env (lit "last_" ++ ds ++ lit "_days") (some ⟨tn, UTC⟩) =
          okUTC (startOfDay tn + (1 - (n : Int)) * dayNs) (startOfDay tn + (0 + 1) * dayNs) ∧
        Relative env (lit "this_" ++ ds ++ lit "_days") (some ⟨tn, UTC⟩) =
          okUTC (startOfDay tn + 0 * dayNs) (startOfDay tn + ((n : Int) - 1 + 1) * dayNs) ∧
        Relative env (lit "next_" ++ ds ++ lit "_days") (some ⟨tn, UTC⟩) =
          okUTC (startOfDay tn + 1 * dayNs) (startOfDay tn + ((n : Int) + 1) * dayNs)) ∧
      (∀ (dp vs : Str) (k : Int) (t : Time), vs ≠ lit "ago" → vs ≠ lit "ahead" →
        vs ≠ lit "prev" → vs ≠ lit "previous" → vs ≠ lit "last" → vs ≠ lit "this" →
        vs ≠ lit "next" → slice dp vs k t = err) := by
  obtain ⟨-, -, hl1, hl3, -, -⟩ := isDecimal_facts hdec
  have hs : stripS (lit "days") = lit "day" := by decide
  have e1 : ds ++ lit "_days_ago" = ds ++ 95 :: (lit "days" ++ 95 :: lit "ago") := by
    congr 1
  have e2 : ds ++ lit "_days_ahead" = ds ++ 95 :: (lit "days" ++ 95 :: lit "ahead") := by
    congr 1
  have p1 : lit "prev_" ++ ds ++ lit "_days" = lit "prev" ++ 95 :: (ds ++ 95 :: lit "days") := by
    have : lit "prev_" = lit "prev" ++ [95] := by decide
    rw [this]
    simp [show lit "_days" = 95 :: lit "days" from by decide]
  have p2 : lit "previous_" ++ ds ++ lit "_days" =
      lit "previous" ++ 95 :: (ds ++ 95 :: lit "days") := by
    have : lit "previous_" = lit "previous" ++ [95] := by decide
    rw [this]
    simp [show lit "_days" = 95 :: lit "days" from by decide]
  have p3 : lit "last_" ++ ds ++ lit "_days" = lit "last" ++ 95 :: (ds ++ 95 :: lit "days") := by
    have : lit "last_" = lit "last" ++ [95] := by decide
    rw [this]
    simp [show lit "_days" = 95 :: lit "days" from by decide]
  have p4 : lit "this_" ++ ds ++ lit "_days" = lit "this" ++ 95 :: (ds ++ 95 :: lit "days") := by
    have : lit "this_" = lit "this" ++ [95] := by decide
    rw [this]
    simp [show lit "_days" = 95 :: lit "days" from by decide]
  have p5 : lit "next_" ++ ds ++ lit "_days" = lit "next" ++ 95 :: (ds ++ 95 :: lit "days") := by
    have : lit "next_" = lit "next" ++ [95] := by decide
    rw [this]
    simp [show lit "_days" = 95 :: lit "days" from by decide]
  have ldays : (lit "days").length = 4 := by decide
  have d0 : (lit "days")[0]? = some 100 := by decide
  have d95 : ∀ x ∈ lit "days", x ≠ 95 := by decide
  refine ⟨?_, ?_, fun hn1 => ⟨?_, ?_, ?_, ?_, ?_⟩, ?_⟩
  · rw [e1, Relative_suffix env _ ds (lit "days") (lit "ago") n hdec (by decide) (by decide)
      (by decide) (by rw [ldays]; omega)
      (by rw [ldays, show (lit "ago").length = 3 from by decide]; omega),
      hs, slice_ago, newRange_day_UTC]
    rfl
  · rw [e2, Relative_suffix env _ ds (lit "days") (lit "ahead") n hdec (by decide) (by decide)
      (by decide) (by rw [ldays]; omega)
      (by rw [ldays, show (lit "ahead").length = 5 from by decide]; omega),
      hs, slice_ahead, newRange_day_UTC]
    rfl
  · rw [p1, Relative_prefix env _ (lit "prev") ds (lit "days") n hdec hn1 (by decide)
      (by decide) 100 d0 (by decide) d95 (by rw [ldays]; omega)
      (by rw [ldays, show (lit "prev").length = 4 from by decide]; omega),
      hs, slice_prev, newRange_day_UTC]
    rfl
  · rw [p2, Relative_prefix env _ (lit "previous") ds (lit "days") n hdec hn1 (by decide)
      (by decide) 100 d0 (by decide) d95 (by rw [ldays]; omega)
      (by rw [ldays, show (lit "previous").length = 8 from by decide]; omega),
      hs, slice_previous, newRange_day_UTC]
    rfl
  · rw [p3, Relative_prefix env _ (lit "last") ds (lit "days") n hdec hn1 (by decide)
      (by decide) 100 d0 (by decide) d95 (by rw [ldays]; omega)
      (by rw [ldays, show (lit "last").length = 4 from by decide]; omega),
      hs, slice_last, newRange_day_UTC]
    rfl
  · rw [p4, Relative_prefix env _ (lit "this") ds (lit "days") n hdec hn1 (by decide)
      (by decide) 100 d0 (by decide) d95 (by rw [ldays]; omega)
      (by rw [ldays, show (lit "this").length = 4 from by decide]; omega),
      hs, slice_this, newRange_day_UTC]
    rfl
  · rw [p5, Relative_prefix env _ (lit "next") ds (lit "days") n hdec hn1 (by decide)
      (by decide) 100 d0 (by decide) d95 (by rw [ldays]; omega)
      (by rw [ldays, show (lit "next").length = 4 from by decide]; omega),
      hs, slice_next, newRange_day_UTC]
    rfl
  · intro dp vs k t h1 h2 h3 h4 h5 h6 h7
    exact slice_other dp vs k t h1 h2 h3 h4 h5 h6 h7

theorem relative_day_offsets_witness :
    isDecimal (lit "3") 3 ∧
      Relative ⟨UTC, 0⟩ (lit "3" ++ lit "_days_ago") (some ⟨63625437296000000789, UTC⟩) =
        okUTC (startOfDay 63625437296000000789 + (-((3 : Nat) : Int)) * dayNs)
          (startOfDay 63625437296000000789 + (-((3 : Nat) : Int) + 1) * dayNs) ∧
      lit "3" ++ lit "_days_ago" = lit "3_days_ago" ∧
      okUTC (startOfDay 63625437296000000789 + (-((3 : Nat) : Int)) * dayNs)
          (startOfDay 63625437296000000789 + (-((3 : Nat) : Int) + 1) * dayNs) =
        some ⟨⟨Date 2017 3 15 0 0 0 0 UTC, Date 2017 3 16 0 0 0 0 UTC⟩, false⟩ :=
  ⟨Or.inl ⟨by decide, by decide⟩,
    (relative_day_offsets ⟨UTC, 0⟩ 63625437296000000789 (lit "3") 3
      (Or.inl ⟨by decide, by decide⟩)).1, by decide, by decide⟩

/-- C23: for every byte string, location and reference instant, `Expand`,
`Absolute` and `Relative` return normally: in the embedding every index and
every slice expression of the three functions is checked, an index or a slice
out of range makes the result `none`, and the result is never `none`. -/
theorem never_out_of_range (env : Env) (s : Str) (loc : Option Location) (t : Option Time) :
    (∃ r, Expand env s loc = some r) ∧ (∃ r, Absolute env s loc = some r) ∧
      (∃ r, Relative env s t = some r) :=
  ⟨Expand_total env s loc, Absolute_total env s loc, Relative_total env s t⟩

/-- C14: `Absolute` fails for every token shorter than 4 or longer than 23 bytes,
for every token whose first `-` is at an index other than 4, for every token
without `-` whose length is not one of 4, 6, 7, 8, 11, 13, 15, 19, and for every
token with its first `-` at index 4 whose length is not one of 7, 8, 10, 13, 16,
19, 23. -/
theorem absolute_rejects_unlisted_shapes (env : Env) (s : Str) (loc : Option Location) :
    (s.length < 4 ∨ s.length > 23 → Absolute env s loc = some err) ∧
      (∀ i, IndexByte s 45 = some i → i ≠ 4 → Absolute env s loc = some err) ∧
      (IndexByte s 45 = none → s.length ∉ [4, 6, 7, 8, 11, 13, 15, 19] →
        Absolute env s loc = some err) ∧
      (IndexByte s 45 = some 4 → s.length ∉ [7, 8, 10, 13, 16, 19, 23] →
        Absolute env s loc = some err) := by
  refine ⟨?_, ?_, ?_, ?_⟩
  · intro h
    unfold Absolute
    rw [if_pos h]
  · intro i hi hne
    unfold Absolute
    split
    · rfl
    · simp only [hi, hne, if_false]
  · intro hi hlen
    simp only [List.mem_cons, List.mem_singleton, List.not_mem_nil, or_false, not_or] at hlen
    obtain ⟨h4, h6, h7, h8, h11, h13, h15, h19⟩ := hlen
    unfold Absolute
    split
    · rfl
    · simp only [hi, h4, h6, h7, h8, h11, h13, h15, h19, if_false]
  · intro hi hlen
    simp only [List.mem_cons, List.mem_singleton, List.not_mem_nil, or_false, not_or] at hlen
    obtain ⟨h7, h8, h10, h13, h16, h19, h23⟩ := hlen
    unfold Absolute
    split
    · rfl
    · simp only [hi, h7, h8, h10, h13, h16, h19, h23, if_false, if_true]

/-- C11, the code at the failing input: `Relative` accepts `0001_day_ago` (the
count 1 written with four digits) as it accepts `1_day_ago`; its byte at index 3
is the digit `1`, so `Expand` hands the token to `Absolute`, which fails. -/
theorem relative_token_with_digit_at_index_three :
    Relative ⟨UTC, 0⟩ (lit "0001_day_ago") (some ⟨0, UTC⟩) =
        some ⟨⟨Date 0 12 31 0 0 0 0 UTC, Date 1 1 1 0 0 0 0 UTC⟩, false⟩ ∧
      Relative ⟨UTC, 0⟩ (lit "1_day_ago") (some ⟨0, UTC⟩) =
        some ⟨⟨Date 0 12 31 0 0 0 0 UTC, Date 1 1 1 0 0 0 0 UTC⟩, false⟩ ∧
      (lit "0001_day_ago")[3]? = some 49 ∧
      Expand ⟨UTC, 0⟩ (lit "0001_day_ago") (some UTC) = some err := by
  decide

/-- C13, the code at the failing input: `Absolute` accepts `+017` as the year 17
and `2017-+3` as March 2017, although `+` is neither a digit nor a separator of
the grammar. -/
theorem absolute_accepts_signed_fields :
    Absolute ⟨UTC, 0⟩ (lit "+017") (some UTC) =
        some ⟨⟨Date 17 1 1 0 0 0 0 UTC, Date 18 1 1 0 0 0 0 UTC⟩, false⟩ ∧
      (lit "+017")[0]? = some 43 ∧ isDigitByte 43 = false ∧
      Absolute ⟨UTC, 0⟩ (lit "2017-+3") (some UTC) =
        some ⟨⟨Date 2017 3 1 0 0 0 0 UTC, Date 2017 4 1 0 0 0 0 UTC⟩, false⟩ := by
  decide

/-- C20, the code at the failing input: `Absolute` accepts the extended token
`2017-03-18T22:50:42.-00` (the fraction `-00` is read as 0 milliseconds); with
every `-` and `:` deleted it is `20170318T225042.00`, which `Absolute` rejects. -/
theorem extended_token_without_basic_form :
    Absolute ⟨UTC, 0⟩ (lit "2017-03-18T22:50:42.-00") (some UTC) =
        some ⟨⟨Date 2017 3 18 22 50 42 0 UTC, Date 2017 3 18 22 50 42 1000000 UTC⟩, false⟩ ∧
      stripSeparators (lit "2017-03-18T22:50:42.-00") = lit "20170318T225042.00" ∧
      Absolute ⟨UTC, 0⟩ (stripSeparators (lit "2017-03-18T22:50:42.-00")) (some UTC) =
        some err := by
  decide

theorem relativeOne_err (A B : Str) (t : Time)
    (h : A = [] ∨ B = [] ∨ B[B.length - 1]? = some 115 ∨ A = lit "last") :
    relativeOne A B t = some err := by
  unfold relativeOne
  by_cases h0 : A.length = 0 ∨ B.length = 0
  · rw [if_pos h0]
    rfl
  · rw [if_neg h0]
    have hlt : B.length - 1 < B.length := by omega
    rw [bind_some_eq _ _ _ (List.getElem?_eq_getElem hlt)]
    have hc : B[B.length - 1] = 115 ∨ A = lit "last" := by
      rcases h with h | h | h | h
      · exact absurd (by rw [h]; rfl) (fun hh => h0 (Or.inl hh))
      · exact absurd (by rw [h]; rfl) (fun hh => h0 (Or.inr hh))
      · left
        rw [List.getElem?_eq_getElem hlt] at h
        exact Option.some.inj h
      · right
        exact h
    rw [if_pos hc]
    rfl

/-- C17: `Relative` fails for every token without underscore other than
`yesterday`, `today` and `tomorrow`, and for every token with exactly one
underscore (`A_B`, the segments free of underscores) when a segment is empty,
when the segment `B` after the underscore ends in `s`, or when the segment `A`
before it is `last`. -/
theorem relative_rejects_plain_and_one_underscore (env : Env) (t : Option Time) :
    (∀ s : Str, IndexByte s 95 = none → s ≠ lit "yesterday" → s ≠ lit "today" →
        s ≠ lit "tomorrow" → Relative env s t = some err) ∧
      (∀ A B : Str, (∀ x ∈ A, x ≠ 95) → (∀ x ∈ B, x ≠ 95) →
        (A = [] ∨ B = [] ∨ B[B.length - 1]? = some 115 ∨ A = lit "last") →
        Relative env (A ++ 95 :: B) t = some err) := by
  constructor
  · intro s hi h1 h2 h3
    unfold Relative
    split
    · rfl
    · simp only [hi, h1, h2, h3, if_false]
  · intro A B hA hB h
    by_cases hlen : 5 ≤ A.length + B.length + 1 ∧ A.length + B.length + 1 ≤ 20
    · rw [Relative_one env t A B hA hB hlen.1 hlen.2]
      exact relativeOne_err A B _ h
    · unfold Relative
      rw [if_pos (by simp only [List.length_append, List.length_cons]; omega)]

theorem relativeThree_err_count (A B C : Str) (t : Time)
    (h : ∀ n : Int, Atoi (if C[0]? = some 97 then A else B) = some n → n < 0 ∨ 999 < n) :
    relativeThree A B C t = some err := by
  unfold relativeThree
  by_cases h0 : A.length = 0 ∨ B.length = 0 ∨ C.length = 0
  · rw [if_pos h0]
    rfl
  · rw [if_neg h0]
    obtain ⟨c, hc⟩ := getElem_zero_some C (by omega)
    rw [bind_some_eq _ _ _ hc]
    rw [hc] at h
    by_cases h97 : c = 97
    · subst h97
      simp only [ne_eq, not_true_eq_false, if_false, if_true] at h ⊢
      cases hA : Atoi A with
      | none => rfl
      | some n =>
        have := h n hA
        simp only []
        rw [if_pos (by unfold maxOffset; omega)]
        rfl
    · have h97' : ¬ (some c = some 97) := by simpa using h97
      simp only [ne_eq, h97, not_false_eq_true, if_true, h97', if_false] at h ⊢
      cases hB : Atoi B with
      | none => rfl
      | some n =>
        have := h n hB
        simp only []
        rw [if_pos (by unfold maxOffset; omega)]
        rfl

theorem slice_a_other (dp vs : Str) (n : Int) (t : Time) (h0 : vs[0]? = some 97)
    (h1 : vs ≠ lit "ago") (h2 : vs ≠ lit "ahead") : slice dp vs n t = err := by
  apply slice_other dp vs n t h1 h2
  all_goals
    intro hh
    rw [hh] at h0
    exact absurd h0 (by decide)

theorem relativeThree_err_zero (A B C : Str) (t : Time)
    (hz : Atoi (if C[0]? = some 97 then A else B) = some 0)
    (h1 : (if C[0]? = some 97 then C else A) ≠ lit "ago")
    (h2 : (if C[0]? = some 97 then C else A) ≠ lit "ahead") :
    relativeThree A B C t = some err := by
  unfold relativeThree
  by_cases h0 : A.length = 0 ∨ B.length = 0 ∨ C.length = 0
  · rw [if_pos h0]
    rfl
  · rw [if_neg h0]
    obtain ⟨c, hc⟩ := getElem_zero_some C (by omega)
    rw [bind_some_eq _ _ _ hc]
    rw [hc] at hz h1 h2
    have hr : ¬ ((0 : Int) < 0 ∨ (0 : Int) > maxOffset) := by unfold maxOffset; omega
    by_cases h97 : c = 97
    · subst h97
      simp only [ne_eq, not_true_eq_false, if_false, if_true] at hz h1 h2 ⊢
      simp only [hz, hr, if_false, if_true]
      rw [bind_some_eq _ _ _ hc]
      simp only [ne_eq, not_true_eq_false, if_false]
      rw [rest_eq B C 0 t (by omega), slice_a_other _ C 0 t hc h1 h2]
    · have h97' : ¬ (some c = some 97) := by simpa using h97
      simp only [ne_eq, h97, not_false_eq_true, if_true, h97', if_false] at hz h1 h2 ⊢
      simp only [hz, hr, if_false, if_true]
      obtain ⟨a, ha⟩ := getElem_zero_some A (by omega)
      rw [bind_some_eq _ _ _ ha]
      by_cases ha97 : a = 97
      · subst ha97
        simp only [ne_eq, not_true_eq_false, if_false]
        rw [rest_eq C A 0 t (by omega), slice_a_other _ A 0 t ha h1 h2]
      · simp only [ne_eq, ha97, not_false_eq_true, if_true]
        rfl

/-- C16: for every token with two or more underscores, cut at its first and its
last underscore into `A`, `B`, `C` (the count segment is `A` and the modifier
`C` when `C` starts with `a`, else the count segment is `B` and the modifier
`A`), `Relative` fails when `strconv.Atoi` of the count segment is not an
integer in [0, 999], and fails when the count is 0 and the modifier is neither
`ago` nor `ahead`. -/
theorem relative_rejects_bad_count (env : Env) (t : Option Time) (A B C : Str)
    (hA : ∀ x ∈ A, x ≠ 95) (hC : ∀ x ∈ C, x ≠ 95) :
    ((∀ n : Int, Atoi (if C[0]? = some 97 then A else B) = some n → n < 0 ∨ 999 < n) →
        Relative env (A ++ 95 :: (B ++ 95 :: C)) t = some err) ∧
      (Atoi (if C[0]? = some 97 then A else B) = some 0 →
        (if C[0]? = some 97 then C else A) ≠ lit "ago" →
        (if C[0]? = some 97 then C else A) ≠ lit "ahead" →
        Relative env (A ++ 95 :: (B ++ 95 :: C)) t = some err) := by
  by_cases hlen : 5 ≤ A.length + B.length + C.length + 2 ∧ A.length + B.length + C.length + 2 ≤ 20
  · rw [Relative_three env t A B C hA hC hlen.1 hlen.2]
    exact ⟨relativeThree_err_count A B C _, relativeThree_err_zero A B C _⟩
  · have : Relative env (A ++ 95 :: (B ++ 95 :: C)) t = some err := by
      unfold Relative
      rw [if_pos (by simp only [List.length_append, List.length_cons]; omega)]
    exact ⟨fun _ => this, fun _ _ _ => this⟩

theorem relative_rejects_bad_count_witness :
    (∀ x ∈ lit "last", x ≠ 95) ∧ (∀ x ∈ lit "weeks", x ≠ 95) ∧
      Atoi (if (lit "weeks")[0]? = some 97 then lit "last" else lit "0") = some 0 ∧
      lit "last" ++ 95 :: (lit "0" ++ 95 :: lit "weeks") = lit "last_0_weeks" ∧
      Relative ⟨UTC, 0⟩ (lit "last" ++ 95 :: (lit "0" ++ 95 :: lit "weeks")) none = some err ∧
      Relative ⟨UTC, 0⟩ (lit "prev_0_days") none = some err ∧
      Relative ⟨UTC, 0⟩ (lit "this_0_months") none = some err ∧
      Relative ⟨UTC, 0⟩ (lit "next_0_years") none = some err ∧
      Relative ⟨UTC, 0⟩ (lit "1234_days_ago") none = some err ∧
      Relative ⟨UTC, 0⟩ (lit "-12_days_ago") none = some err ∧
      Relative ⟨UTC, 0⟩ (lit "0_hours_ago") (some ⟨0, UTC⟩) =
        some ⟨⟨Date 1 1 1 0 0 0 0 UTC, Date 1 1 1 1 0 0 0 UTC⟩, false⟩ :=
  ⟨by decide, by decide, by decide, by decide,
    (relative_rejects_bad_count ⟨UTC, 0⟩ none (lit "last") (lit "0") (lit "weeks") (by decide)
      (by decide)).2 (by decide) (by decide) (by decide),
    by decide, by decide, by decide, by decide, by decide, by decide⟩

theorem relative_rejects_plain_and_one_underscore_witness :
    IndexByte (lit "hello") 95 = none ∧ lit "hello" ≠ lit "yesterday" ∧
      lit "hello" ≠ lit "today" ∧ lit "hello" ≠ lit "tomorrow" ∧
      Relative ⟨UTC, 0⟩ (lit "hello") none = some err ∧
      Relative ⟨UTC, 0⟩ (lit "prev_days") none = some err ∧
      Relative ⟨UTC, 0⟩ (lit "last_week") none = some err :=
  ⟨by decide, by decide, by decide, by decide,
    (relative_rejects_plain_and_one_underscore ⟨UTC, 0⟩ none).1 (lit "hello") (by decide)
      (by decide) (by decide) (by decide),
    by decide, by decide⟩

theorem relativeOne_ok (M U : Str) (t : Time) (hM : M.length ≠ 0) (hU : U.length ≠ 0)
    (hs : U[U.length - 1]? ≠ some 115) (hl : M ≠ lit "last") :
    relativeOne M U t = some (slice U M 1 t) := by
  unfold relativeOne
  rw [if_neg (by omega)]
  have hlt : U.length - 1 < U.length := by omega
  rw [bind_some_eq _ _ _ (List.getElem?_eq_getElem hlt)]
  rw [List.getElem?_eq_getElem hlt] at hs
  have hc : ¬ (U[U.length - 1] = 115 ∨ M = lit "last") := by
    intro h
    rcases h with h | h
    · exact hs (by rw [h])
    · exact hl h
  rw [if_neg hc]
  rfl

theorem stripS_of_no_s (U : Str) (hs : U[U.length - 1]? ≠ some 115) : stripS U = U := by
  unfold stripS
  rw [if_neg hs]

theorem stripS_plural (U : Str) : stripS (U ++ [115]) = U := by
  unfold stripS
  have h : (U ++ [115])[(U ++ [115]).length - 1]? = some 115 := by simp
  rw [if_pos h]
  simp

theorem units_facts : ∀ U ∈ units, U.length ≠ 0 ∧ U.length ≤ 6 ∧ (∀ x ∈ U, x ≠ 95) ∧
    U[U.length - 1]? ≠ some 115 ∧ U[0]? ≠ some 97 := by
  decide

theorem aliasModifiers_facts : ∀ M ∈ aliasModifiers, M.length ≠ 0 ∧ 4 ≤ M.length ∧
    M.length ≤ 8 ∧ (∀ x ∈ M, x ≠ 95) ∧ M ≠ lit "last" ∧ M[0]? ≠ some 97 := by
  decide

theorem prefixModifiers_facts : ∀ M ∈ prefixModifiers, M.length ≠ 0 ∧ 4 ≤ M.length ∧
    M.length ≤ 8 ∧ (∀ x ∈ M, x ≠ 95) ∧ M[0]? ≠ some 97 := by
  decide

theorem suffixModifiers_facts : ∀ V ∈ suffixModifiers, 3 ≤ V.length ∧ V.length ≤ 5 ∧
    (∀ x ∈ V, x ≠ 95) ∧ V[0]? = some 97 := by
  decide

theorem newRange_ok (U : Str) (hU : U ∈ units) (l u : Int) (t : Time) :
    (newRange U l u t).failed = false := by
  simp only [units, List.mem_cons, List.mem_singleton, List.not_mem_nil, or_false] at hU
  rcases hU with rfl | rfl | rfl | rfl | rfl | rfl | rfl <;> rfl

theorem slice_alias_ok (M U : Str) (hM : M ∈ aliasModifiers) (hU : U ∈ units) (n : Int)
    (t : Time) : (slice U M n t).failed = false := by
  simp only [aliasModifiers, List.mem_cons, List.mem_singleton, List.not_mem_nil,
    or_false] at hM
  rcases hM with rfl | rfl | rfl | rfl
  · rw [slice_prev]
    exact newRange_ok U hU _ _ t
  · rw [slice_previous]
    exact newRange_ok U hU _ _ t
  · rw [slice_this]
    exact newRange_ok U hU _ _ t
  · rw [slice_next]
    exact newRange_ok U hU _ _ t

/-- C18: for every reference instant, `yesterday`, `today` and `tomorrow` yield
what `1_day_ago`, `0_days_ago` and `1_day_ahead` yield, and for every modifier
`M` of `prev`, `previous`, `this`, `next` and every unit `U` of `day`, `week`,
`month`, `year`, `hour`, `min`, `minute` the token `M_U` yields what `M_1_U`
yields, a result without error. -/
theorem relative_aliases (env : Env) (t : Option Time) :
    Relative env (lit "yesterday") t = Relative env (lit "1_day_ago") t ∧
      Relative env (lit "today") t = Relative env (lit "0_days_ago") t ∧
      Relative env (lit "tomorrow") t = Relative env (lit "1_day_ahead") t ∧
      (∃ r, Relative env (lit "yesterday") t = some r ∧ r.failed = false) ∧
      (∃ r, Relative env (lit "today") t = some r ∧ r.failed = false) ∧
      (∃ r, Relative env (lit "tomorrow") t = some r ∧ r.failed = false) ∧
      ∀ M ∈ aliasModifiers, ∀ U ∈ units,
        Relative env (M ++ lit "_" ++ U) t = Relative env (M ++ lit "_1_" ++ U) t ∧
          ∃ r, Relative env (M ++ lit "_" ++ U) t = some r ∧ r.failed = false := by
  have dec1 : isDecimal (lit "1") 1 := Or.inl ⟨by decide, by decide⟩
  have dec0 : isDecimal (lit "0") 0 := Or.inl ⟨by decide, by decide⟩
  have hy : Relative env (lit "yesterday") t = some (newRange (lit "day") (-1) (-1) (env.timeOf t)) :=
    rfl
  have hd : Relative env (lit "today") t = some (newRange (lit "day") 0 0 (env.timeOf t)) := rfl
  have hm : Relative env (lit "tomorrow") t = some (newRange (lit "day") 1 1 (env.timeOf t)) :=
    rfl
  have h1 : Relative env (lit "1_day_ago") t =
      some (newRange (lit "day") (-1) (-1) (env.timeOf t)) := by
    have e : lit "1_day_ago" = lit "1" ++ 95 :: (lit "day" ++ 95 :: lit "ago") := by decide
    rw [e, Relative_three env t _ _ _ (by decide) (by decide) (by decide) (by decide),
      relativeThree_suffix _ _ _ 1 _ dec1 (by decide) (by decide),
      show stripS (lit "day") = lit "day" from by decide, slice_ago]
    rfl
  have h2 : Relative env (lit "0_days_ago") t =
      some (newRange (lit "day") 0 0 (env.timeOf t)) := by
    have e : lit "0_days_ago" = lit "0" ++ 95 :: (lit "days" ++ 95 :: lit "ago") := by decide
    rw [e, Relative_three env t _ _ _ (by decide) (by decide) (by decide) (by decide),
      relativeThree_suffix _ _ _ 0 _ dec0 (by decide) (by decide),
      show stripS (lit "days") = lit "day" from by decide, slice_ago]
    rfl
  have h3 : Relative env (lit "1_day_ahead") t =
      some (newRange (lit "day") 1 1 (env.timeOf t)) := by
    have e : lit "1_day_ahead" = lit "1" ++ 95 :: (lit "day" ++ 95 :: lit "ahead") := by decide
    rw [e, Relative_three env t _ _ _ (by decide) (by decide) (by decide) (by decide),
      relativeThree_suffix _ _ _ 1 _ dec1 (by decide) (by decide),
      show stripS (lit "day") = lit "day" from by decide, slice_ahead]
    rfl
  have hday : lit "day" ∈ units := by decide
  refine ⟨by rw [hy, h1], by rw [hd, h2], by rw [hm, h3],
    ⟨_, hy, newRange_ok _ hday _ _ _⟩, ⟨_, hd, newRange_ok _ hday _ _ _⟩,
    ⟨_, hm, newRange_ok _ hday _ _ _⟩, ?_⟩
  intro M hM U hU
  obtain ⟨m0, m4, m8, m95, mlast, -⟩ := aliasModifiers_facts M hM
  obtain ⟨u0, u6, u95, us, ua⟩ := units_facts U hU
  obtain ⟨c, hc⟩ := getElem_zero_some U u0
  have hc97 : c ≠ 97 := by
    intro h
    rw [h] at hc
    exact ua hc
  have e1 : M ++ lit "_" ++ U = M ++ 95 :: U := by
    rw [show lit "_" = [95] from by decide]
    simp
  have e2 : M ++ lit "_1_" ++ U = M ++ 95 :: (lit "1" ++ 95 :: U) := by
    rw [show lit "_1_" = 95 :: (lit "1" ++ [95]) from by decide]
    simp
  have l1 : (lit "1").length = 1 := by decide
  have r1 : Relative env (M ++ 95 :: U) t = some (slice U M 1 (env.timeOf t)) := by
    rw [Relative_one env t M U m95 u95 (by omega) (by omega)]
    exact relativeOne_ok M U _ m0 u0 us mlast
  have r2 : Relative env (M ++ 95 :: (lit "1" ++ 95 :: U)) t =
      some (slice U M 1 (env.timeOf t)) := by
    rw [Relative_three env t M (lit "1") U m95 u95 (by rw [l1]; omega) (by rw [l1]; omega),
      relativeThree_prefix M (lit "1") U 1 _ dec1 (le_refl _) m0 c hc hc97, stripS_of_no_s U us]
    rfl
  rw [e1, e2, r1, r2]
  exact ⟨rfl, _, rfl, slice_alias_ok M U hM hU _ _⟩

/-- The three-segment block on `<modifier>_<0>_<unit>`: a count of 0 before a
unit is rejected when the modifier does not start with `a`. -/
theorem relativeThree_prefix_zero (V ds U : Str) (t : Time) (hdec : isDecimal ds 0)
    (hV : V[0]? ≠ some 97) (hV0 : V.length ≠ 0) (c : Nat) (hU : U[0]? = some c)
    (hc : c ≠ 97) : relativeThree V ds U t = some err := by
  obtain ⟨ha, -, hl1, -, -, -⟩ := isDecimal_facts hdec
  have hUl : U.length ≠ 0 := by
    cases U with
    | nil => simp at hU
    | cons a U => simp
  have hz : ¬ (V.length = 0 ∨ ds.length = 0 ∨ U.length = 0) := by omega
  have hr : ¬ (((0 : Nat) : Int) < 0 ∨ ((0 : Nat) : Int) > maxOffset) := by
    unfold maxOffset
    omega
  obtain ⟨v, hv⟩ := getElem_zero_some V hV0
  have hv97 : v ≠ 97 := by
    intro h
    rw [h] at hv
    exact hV hv
  unfold relativeThree
  rw [if_neg hz, bind_some_eq _ _ _ hU]
  simp only [ne_eq, hc, not_false_eq_true, if_true, ha, hr, if_false, Nat.cast_zero]
  rw [bind_some_eq _ _ _ hv]
  simp only [ne_eq, hv97, not_false_eq_true, if_true]
  rfl

/-- C19: for every reference instant, every count written in one to three
decimal digits and every unit `U` of `day`, `week`, `month`, `year`, `hour`,
`min`, `minute`, the token written with `U` and the token written with `U`
followed by `s` give the same result from `Relative`, for the modifiers `ago`
and `ahead` after the unit and for the modifiers `prev`, `previous`, `last`,
`this` and `next` before the count. -/
theorem relative_plural_unit (env : Env) (t : Option Time) (ds : Str) (n : Nat)
    (hdec : isDecimal ds n) :
    ∀ U ∈ units,
      (∀ V ∈ suffixModifiers,
        Relative env (ds ++ lit "_" ++ U ++ lit "_" ++ V) t =
          Relative env (ds ++ lit "_" ++ U ++ lit "s" ++ lit "_" ++ V) t) ∧
      (∀ M ∈ prefixModifiers,
        Relative env (M ++ lit "_" ++ ds ++ lit "_" ++ U) t =
          Relative env (M ++ lit "_" ++ ds ++ lit "_" ++ U ++ lit "s") t) := by
  intro U hU
  obtain ⟨-, -, hl1, hl3, d95, -⟩ := isDecimal_facts hdec
  obtain ⟨u0, u6, u95, us, ua⟩ := units_facts U hU
  obtain ⟨c, hc⟩ := getElem_zero_some U u0
  have hc97 : c ≠ 97 := by
    intro h
    rw [h] at hc
    exact ua hc
  have hcs : (U ++ [115])[0]? = some c := by
    cases U with
    | nil => simp at u0
    | cons a U =>
      simp only [List.cons_append, List.getElem?_cons_zero] at hc ⊢
      exact hc
  have us95 : ∀ x ∈ U ++ [115], x ≠ 95 := by
    intro x hx
    simp only [List.mem_append, List.mem_singleton] at hx
    rcases hx with hx | hx
    · exact u95 x hx
    · rw [hx]
      decide
  have lu : (U ++ [115]).length = U.length + 1 := by simp
  have l_ : lit "_" = [95] := by decide
  have ls : lit "s" = [115] := by decide
  constructor
  · intro V hV
    obtain ⟨v3, v5, v95, va⟩ := suffixModifiers_facts V hV
    have e1 : ds ++ lit "_" ++ U ++ lit "_" ++ V = ds ++ 95 :: (U ++ 95 :: V) := by
      rw [l_]
      simp
    have e2 : ds ++ lit "_" ++ U ++ lit "s" ++ lit "_" ++ V =
        ds ++ 95 :: ((U ++ [115]) ++ 95 :: V) := by
      rw [l_, ls]
      simp
    rw [e1, e2, Relative_three env t ds U V d95 v95 (by omega) (by omega),
      Relative_three env t ds (U ++ [115]) V d95 v95 (by rw [lu]; omega) (by rw [lu]; omega),
      relativeThree_suffix ds U V n _ hdec u0 va,
      relativeThree_suffix ds (U ++ [115]) V n _ hdec (by rw [lu]; omega) va,
      stripS_plural, stripS_of_no_s U us]
  · intro M hM
    obtain ⟨m0, m4, m8, m95, ma⟩ := prefixModifiers_facts M hM
    have e1 : M ++ lit "_" ++ ds ++ lit "_" ++ U = M ++ 95 :: (ds ++ 95 :: U) := by
      rw [l_]
      simp
    have e2 : M ++ lit "_" ++ ds ++ lit "_" ++ U ++ lit "s" =
        M ++ 95 :: (ds ++ 95 :: (U ++ [115])) := by
      rw [l_, ls]
      simp
    rw [e2, e1, Relative_three env t M ds U m95 u95 (by omega) (by omega),
      Relative_three env t M ds (U ++ [115]) m95 us95 (by rw [lu]; omega) (by rw [lu]; omega)]
    by_cases hn : 1 ≤ n
    · rw [ relativeThree_prefix M ds U n _ hdec hn m0 c hc hc97,
        relativeThree_prefix M ds (U ++ [115]) n _ hdec hn m0 c hcs hc97,
        stripS_plural, stripS_of_no_s U us]
    · have hn0 : n = 0 := by omega
      subst hn0
      rw [relativeThree_prefix_zero M ds U _ hdec ma m0 c hc hc97,
        relativeThree_prefix_zero M ds (U ++ [115]) _ hdec ma m0 c hcs hc97]

theorem relative_plural_unit_witness :
    isDecimal (lit "6") 6 ∧ lit "month" ∈ units ∧ lit "ahead" ∈ suffixModifiers ∧
      lit "6" ++ lit "_" ++ lit "month" ++ lit "_" ++ lit "ahead" = lit "6_month_ahead" ∧
      lit "6" ++ lit "_" ++ lit "month" ++ lit "s" ++ lit "_" ++ lit "ahead" =
        lit "6_months_ahead" ∧
      Relative ⟨UTC, 0⟩ (lit "6" ++ lit "_" ++ lit "month" ++ lit "_" ++ lit "ahead") none =
        Relative ⟨UTC, 0⟩
          (lit "6" ++ lit "_" ++ lit "month" ++ lit "s" ++ lit "_" ++ lit "ahead") none ∧
      Relative ⟨UTC, 0⟩ (lit "6_months_ahead") (some ⟨0, UTC⟩) =
        some ⟨⟨Date 1 7 1 0 0 0 0 UTC, Date 1 8 1 0 0 0 0 UTC⟩, false⟩ :=
  ⟨Or.inl ⟨by decide, by decide⟩, by decide, by decide, by decide, by decide,
    ((relative_plural_unit ⟨UTC, 0⟩ none (lit "6") 6 (Or.inl ⟨by decide, by decide⟩)
      (lit "month") (by decide)).1 (lit "ahead") (by decide)),
    by decide⟩

/-- The first instant of the month with linear index `i`, in days. -/
theorem monthStartNs_eq (i : Int) : monthStartNs i = monthStartDays i * dayNs := by
  unfold monthStartNs monthStartDays
  rw [Date_midnight_UTC _ _ _ (by omega) (by omega)]

/-- File `relative.go`, `newRange` for the unit `month` at a reference instant in
UTC. -/
theorem newRange_month_UTC (tn l u : Int) :
    newRange (lit "month") l u ⟨tn, UTC⟩ =
      ⟨⟨⟨monthStartNs (monthIndex ⟨tn, UTC⟩ + l), UTC⟩,
        ⟨monthStartNs (monthIndex ⟨tn, UTC⟩ + u + 1), UTC⟩⟩, false⟩ := by
  unfold newRange
  rw [if_neg (by decide), if_neg (by decide), if_neg (by decide), if_pos rfl]
  simp only []
  rw [month_fixed _ _ _ _ UTC_fixed, monthStartNs_eq, monthStartNs_eq]
  unfold monthIndex midnightNs dayNs
  have hb : UTC.base = 0 := rfl
  have e1 : 12 * Time.Year ⟨tn, UTC⟩ + (Time.Month ⟨tn, UTC⟩ + l - 1) =
      12 * Time.Year ⟨tn, UTC⟩ + (Time.Month ⟨tn, UTC⟩ - 1) + l := by omega
  have e2 : 12 * Time.Year ⟨tn, UTC⟩ + (Time.Month ⟨tn, UTC⟩ - 1) + l + (u - l + 1) =
      12 * Time.Year ⟨tn, UTC⟩ + (Time.Month ⟨tn, UTC⟩ - 1) + u + 1 := by omega
  rw [e1, e2, hb]
  congr 3 <;> omega

theorem token_countFirst (ds W V : Str) :
    ds ++ lit "_" ++ W ++ (95 :: V) = ds ++ 95 :: (W ++ 95 :: V) := by
  have : lit "_" = [95] := by decide
  rw [this]
  simp

theorem token_countSecond (M ds W : Str) :
    (M ++ [95]) ++ ds ++ lit "_" ++ W = M ++ 95 :: (ds ++ 95 :: W) := by
  have : lit "_" = [95] := by decide
  rw [this]
  simp

/-- `Relative` on the seven tokens with a count, for a unit word of at most
seven bytes that holds no underscore and does not start with `a`. -/
theorem countedForms_newRange (env : Env) (t : Time) (ds : Str) (n : Nat)
    (hdec : isDecimal ds n) (W : Str) (c : Nat) (hW0 : W[0]? = some c) (hc : c ≠ 97)
    (hW95 : ∀ x ∈ W, x ≠ 95) (hlen : W.length ≤ 7) :
    countedForms env t ds n W (fun l u => some (newRange (stripS W) l u t)) := by
  obtain ⟨-, -, hl1, hl3, -, -⟩ := isDecimal_facts hdec
  have hW1 : W.length ≠ 0 := by
    cases W with
    | nil => simp at hW0
    | cons a W => simp
  have a1 : lit "_ago" = 95 :: lit "ago" := by decide
  have a2 : lit "_ahead" = 95 :: lit "ahead" := by decide
  have q1 : lit "prev_" = lit "prev" ++ [95] := by decide
  have q2 : lit "previous_" = lit "previous" ++ [95] := by decide
  have q3 : lit "last_" = lit "last" ++ [95] := by decide
  have q4 : lit "this_" = lit "this" ++ [95] := by decide
  have q5 : lit "next_" = lit "next" ++ [95] := by decide
  have l1 : (lit "prev").length = 4 := by decide
  have l2 : (lit "previous").length = 8 := by decide
  have l3 : (lit "last").length = 4 := by decide
  have l4 : (lit "this").length = 4 := by decide
  have l5 : (lit "next").length = 4 := by decide
  have l6 : (lit "ago").length = 3 := by decide
  have l7 : (lit "ahead").length = 5 := by decide
  unfold countedForms
  refine ⟨?_, ?_, fun hn1 => ⟨?_, ?_, ?_, ?_, ?_⟩⟩
  · rw [a1, token_countFirst, Relative_suffix env t ds W (lit "ago") n hdec hW1 (by decide)
      (by decide) (by rw [l6]; omega) (by rw [l6]; omega), slice_ago]
  · rw [a2, token_countFirst, Relative_suffix env t ds W (lit "ahead") n hdec hW1 (by decide)
      (by decide) (by rw [l7]; omega) (by rw [l7]; omega), slice_ahead]
  · rw [q1, token_countSecond, Relative_prefix env t (lit "prev") ds W n hdec hn1 (by decide)
      (by decide) c hW0 hc hW95 (by rw [l1]; omega) (by rw [l1]; omega), slice_prev]
  · rw [q2, token_countSecond, Relative_prefix env t (lit "previous") ds W n hdec hn1 (by decide)
      (by decide) c hW0 hc hW95 (by rw [l2]; omega) (by rw [l2]; omega), slice_previous]
  · rw [q3, token_countSecond, Relative_prefix env t (lit "last") ds W n hdec hn1 (by decide)
      (by decide) c hW0 hc hW95 (by rw [l3]; omega) (by rw [l3]; omega), slice_last]
  · rw [q4, token_countSecond, Relative_prefix env t (lit "this") ds W n hdec hn1 (by decide)
      (by decide) c hW0 hc hW95 (by rw [l4]; omega) (by rw [l4]; omega), slice_this]
  · rw [q5, token_countSecond, Relative_prefix env t (lit "next") ds W n hdec hn1 (by decide)
      (by decide) c hW0 hc hW95 (by rw [l5]; omega) (by rw [l5]; omega), slice_next]

/-- `Relative` on the four tokens without a count, for a unit word in the
singular. -/
theorem uncountedForms_newRange (env : Env) (t : Time) (W : Str) (hW : W ∈ units) :
    uncountedForms env t W (fun l u => some (newRange W l u t)) := by
  obtain ⟨u0, u6, u95, us, -⟩ := units_facts W hW
  have q1 : lit "prev_" = lit "prev" ++ [95] := by decide
  have q2 : lit "previous_" = lit "previous" ++ [95] := by decide
  have q4 : lit "this_" = lit "this" ++ [95] := by decide
  have q5 : lit "next_" = lit "next" ++ [95] := by decide
  have l1 : (lit "prev").length = 4 := by decide
  have l2 : (lit "previous").length = 8 := by decide
  have l4 : (lit "this").length = 4 := by decide
  have l5 : (lit "next").length = 4 := by decide
  have e : ∀ M : Str, (M ++ [95]) ++ W = M ++ 95 :: W := fun M => by simp
  have z : (1 : Int) - 1 = 0 := by norm_num
  unfold uncountedForms
  refine ⟨?_, ?_, ?_, ?_⟩
  · rw [q1, e, Relative_one env _ _ W (by decide) u95 (by rw [l1]; omega) (by rw [l1]; omega),
      relativeOne_ok _ _ _ (by decide) u0 us (by decide), slice_prev]
    rfl
  · rw [q2, e, Relative_one env _ _ W (by decide) u95 (by rw [l2]; omega) (by rw [l2]; omega),
      relativeOne_ok _ _ _ (by decide) u0 us (by decide), slice_previous]
    rfl
  · rw [q4, e, Relative_one env _ _ W (by decide) u95 (by rw [l4]; omega) (by rw [l4]; omega),
      relativeOne_ok _ _ _ (by decide) u0 us (by decide), slice_this, z]
    rfl
  · rw [q5, e, Relative_one env _ _ W (by decide) u95 (by rw [l5]; omega) (by rw [l5]; omega),
      relativeOne_ok _ _ _ (by decide) u0 us (by decide), slice_next]
    rfl

/-- C10: for every reference instant in UTC and all offsets `(l, u)`, `newRange`
for the units `minute` and `min` returns the start of the instant's minute plus
`l` minutes and plus `u + 1` minutes, and for the unit `hour` the start of its
hour plus `l` hours and plus `u + 1` hours, as elapsed time (so also across
hour, day, month and year boundaries); and `Relative` returns these bounds,
without error, for every token of these units: for every count `n` written in
one to three decimal digits, `n_W_ago`, `n_W_ahead` and (for `n` of at least 1)
`prev_n_W`, `previous_n_W`, `last_n_W`, `this_n_W`, `next_n_W` with `W` one of
`min`, `mins`, `minute`, `minutes` (minutes) or of `hour`, `hours` (hours), and
`prev_W`, `previous_W`, `this_W`, `next_W` with `W` one of `min`, `minute`,
`hour`, each with the offsets of its modifier; in particular `last_n_mins`
gives the minute start less `n - 1` minutes and the minute start plus one
minute. -/
theorem relative_minute_hour_offsets (env : Env) (tn l u : Int) (ds : Str) (n : Nat)
    (hdec : isDecimal ds n) :
    newRange (lit "minute") l u ⟨tn, UTC⟩ =
        ⟨⟨⟨startOfMinute tn + l * Minute, UTC⟩, ⟨startOfMinute tn + (u + 1) * Minute, UTC⟩⟩,
          false⟩ ∧
      newRange (lit "min") l u ⟨tn, UTC⟩ =
        ⟨⟨⟨startOfMinute tn + l * Minute, UTC⟩, ⟨startOfMinute tn + (u + 1) * Minute, UTC⟩⟩,
          false⟩ ∧
      newRange (lit "hour") l u ⟨tn, UTC⟩ =
        ⟨⟨⟨startOfHour tn + l * Hour, UTC⟩, ⟨startOfHour tn + (u + 1) * Hour, UTC⟩⟩, false⟩ ∧
      (∀ W ∈ [lit "min", lit "mins", lit "minute", lit "minutes"],
        countedForms env ⟨tn, UTC⟩ ds n W (stepRange (startOfMinute tn) Minute)) ∧
      (∀ W ∈ [lit "min", lit "minute"],
        uncountedForms env ⟨tn, UTC⟩ W (stepRange (startOfMinute tn) Minute)) ∧
      (∀ W ∈ [lit "hour", lit "hours"],
        countedForms env ⟨tn, UTC⟩ ds n W (stepRange (startOfHour tn) Hour)) ∧
      uncountedForms env ⟨tn, UTC⟩ (lit "hour") (stepRange (startOfHour tn) Hour) ∧
      (1 ≤ n →
        Relative env (lit "last_" ++ ds ++ lit "_mins") (some ⟨tn, UTC⟩) =
          okUTC (startOfMinute tn - ((n : Int) - 1) * Minute) (startOfMinute tn + Minute)) := by
  have cmin : ∀ W ∈ [lit "min", lit "mins", lit "minute", lit "minutes"],
      countedForms env ⟨tn, UTC⟩ ds n W (stepRange (startOfMinute tn) Minute) := by
    intro W hW
    simp only [List.mem_cons, List.mem_singleton, List.not_mem_nil, or_false] at hW
    rcases hW with rfl | rfl | rfl | rfl
    · have h := countedForms_newRange env ⟨tn, UTC⟩ ds n hdec (lit "min") 109 (by decide)
        (by decide) (by decide) (by decide)
      unfold countedForms at h ⊢
      rw [show stripS (lit "min") = lit "min" from by decide] at h
      simp only [(newRange_minute_UTC tn _ _).2] at h
      exact h
    · have h := countedForms_newRange env ⟨tn, UTC⟩ ds n hdec (lit "mins") 109 (by decide)
        (by decide) (by decide) (by decide)
      unfold countedForms at h ⊢
      rw [show stripS (lit "mins") = lit "min" from by decide] at h
      simp only [(newRange_minute_UTC tn _ _).2] at h
      exact h
    · have h := countedForms_newRange env ⟨tn, UTC⟩ ds n hdec (lit "minute") 109 (by decide)
        (by decide) (by decide) (by decide)
      unfold countedForms at h ⊢
      rw [show stripS (lit "minute") = lit "minute" from by decide] at h
      simp only [(newRange_minute_UTC tn _ _).1] at h
      exact h
    · have h := countedForms_newRange env ⟨tn, UTC⟩ ds n hdec (lit "minutes") 109 (by decide)
        (by decide) (by decide) (by decide)
      unfold countedForms at h ⊢
      rw [show stripS (lit "minutes") = lit "minute" from by decide] at h
      simp only [(newRange_minute_UTC tn _ _).1] at h
      exact h
  refine ⟨(newRange_minute_UTC tn l u).1, (newRange_minute_UTC tn l u).2,
    newRange_hour_UTC tn l u, cmin, ?_, ?_, ?_, ?_⟩
  · intro W hW
    simp only [List.mem_cons, List.mem_singleton, List.not_mem_nil, or_false] at hW
    rcases hW with rfl | rfl
    · have h := uncountedForms_newRange env ⟨tn, UTC⟩ (lit "min") (by decide)
      unfold uncountedForms at h ⊢
      simp only [(newRange_minute_UTC tn _ _).2] at h
      exact h
    · have h := uncountedForms_newRange env ⟨tn, UTC⟩ (lit "minute") (by decide)
      unfold uncountedForms at h ⊢
      simp only [(newRange_minute_UTC tn _ _).1] at h
      exact h
  · intro W hW
    simp only [List.mem_cons, List.mem_singleton, List.not_mem_nil, or_false] at hW
    rcases hW with rfl | rfl
    · have h := countedForms_newRange env ⟨tn, UTC⟩ ds n hdec (lit "hour") 104 (by decide)
        (by decide) (by decide) (by decide)
      unfold countedForms at h ⊢
      rw [show stripS (lit "hour") = lit "hour" from by decide] at h
      simp only [newRange_hour_UTC] at h
      exact h
    · have h := countedForms_newRange env ⟨tn, UTC⟩ ds n hdec (lit "hours") 104 (by decide)
        (by decide) (by decide) (by decide)
      unfold countedForms at h ⊢
      rw [show stripS (lit "hours") = lit "hour" from by decide] at h
      simp only [newRange_hour_UTC] at h
      exact h
  · have h := uncountedForms_newRange env ⟨tn, UTC⟩ (lit "hour") (by decide)
    unfold uncountedForms at h ⊢
    simp only [newRange_hour_UTC] at h
    exact h
  · intro hn1
    have h := ((cmin (lit "mins") (by decide)).2.2 hn1).2.2.1
    have e : lit "last_" ++ ds ++ lit "_mins" = lit "last_" ++ ds ++ lit "_" ++ lit "mins" := by
      have : lit "_mins" = lit "_" ++ lit "mins" := by decide
      rw [this]
      simp
    rw [e, h]
    unfold stepRange okUTC Minute
    congr 4
    omega

theorem relative_minute_hour_offsets_witness :
    isDecimal (lit "30") 30 ∧ 1 ≤ (30 : Nat) ∧
      lit "last_" ++ lit "30" ++ lit "_mins" = lit "last_30_mins" ∧
      Relative ⟨UTC, 0⟩ (lit "last_" ++ lit "30" ++ lit "_mins")
          (some ⟨63625437296000000789, UTC⟩) =
        okUTC (startOfMinute 63625437296000000789 - (((30 : Nat) : Int) - 1) * Minute)
          (startOfMinute 63625437296000000789 + Minute) ∧
      lit "30" ++ lit "_" ++ lit "hours" ++ lit "_ago" = lit "30_hours_ago" ∧
      Relative ⟨UTC, 0⟩ (lit "30" ++ lit "_" ++ lit "hours" ++ lit "_ago")
          (some ⟨63625437296000000789, UTC⟩) =
        stepRange (startOfHour 63625437296000000789) Hour (-((30 : Nat) : Int))
          (-((30 : Nat) : Int)) ∧
      stepRange (startOfHour 63625437296000000789) Hour (-((30 : Nat) : Int))
          (-((30 : Nat) : Int)) =
        some ⟨⟨Date 2017 3 17 6 0 0 0 UTC, Date 2017 3 17 7 0 0 0 UTC⟩, false⟩ :=
  ⟨Or.inr (Or.inl ⟨by decide, by decide⟩), by decide, by decide,
    (relative_minute_hour_offsets ⟨UTC, 0⟩ 63625437296000000789 0 0 (lit "30") 30
      (Or.inr (Or.inl ⟨by decide, by decide⟩))).2.2.2.2.2.2.2 (by decide), by decide,
    ((relative_minute_hour_offsets ⟨UTC, 0⟩ 63625437296000000789 0 0 (lit "30") 30
      (Or.inr (Or.inl ⟨by decide, by decide⟩))).2.2.2.2.2.1 (lit "hours") (by decide)).1,
    by decide⟩

/-- C21: for every reference instant in UTC with year `y` and month `m` and all
offsets `(l, u)`, `newRange` for the unit `month` returns 00:00 of the first day
of the month with linear index `12 y + (m - 1) + l` and 00:00 of the first day
of the month with index `12 y + (m - 1) + u + 1` (year = index div 12 rounded
down, month = index mod 12 + 1); and `Relative` returns these bounds, without
error, for every token of the unit: for every count `n` written in one to
three decimal digits, `n_W_ago`, `n_W_ahead` and (for `n` of at least 1)
`prev_n_W`, `previous_n_W`, `last_n_W`, `this_n_W`, `next_n_W` with `W` one of
`month`, `months`, and `prev_month`, `previous_month`, `this_month`,
`next_month`, each with the offsets of its modifier; so `n_months_ago` is the
month `n` months back, `1_month_ago` in January of `y` is December of `y - 1`,
and `prev_240_months` starts 20 years before the current month. -/
theorem relative_month_offsets (env : Env) (tn l u : Int) :
    newRange (lit "month") l u ⟨tn, UTC⟩ =
        ⟨⟨⟨monthStartNs (monthIndex ⟨tn, UTC⟩ + l), UTC⟩,
          ⟨monthStartNs (monthIndex ⟨tn, UTC⟩ + u + 1), UTC⟩⟩, false⟩ ∧
      (∀ (ds : Str) (n : Nat), isDecimal ds n → ∀ W ∈ [lit "month", lit "months"],
        countedForms env ⟨tn, UTC⟩ ds n W (monthRange (monthIndex ⟨tn, UTC⟩))) ∧
      uncountedForms env ⟨tn, UTC⟩ (lit "month") (monthRange (monthIndex ⟨tn, UTC⟩)) ∧
      (∀ (ds : Str) (n : Nat), isDecimal ds n →
        Relative env (ds ++ lit "_months_ago") (some ⟨tn, UTC⟩) =
          okUTC (monthStartNs (monthIndex ⟨tn, UTC⟩ + -(n : Int)))
            (monthStartNs (monthIndex ⟨tn, UTC⟩ + -(n : Int) + 1))) ∧
      (Time.Month ⟨tn, UTC⟩ = 1 →
        Relative env (lit "1_month_ago") (some ⟨tn, UTC⟩) =
          some ⟨⟨Date (Time.Year ⟨tn, UTC⟩ - 1) 12 1 0 0 0 0 UTC,
            Date (Time.Year ⟨tn, UTC⟩) 1 1 0 0 0 0 UTC⟩, false⟩) ∧
      Relative env (lit "prev_240_months") (some ⟨tn, UTC⟩) =
        some ⟨⟨Date (Time.Year ⟨tn, UTC⟩ - 20) (Time.Month ⟨tn, UTC⟩) 1 0 0 0 0 UTC,
          Date (Time.Year ⟨tn, UTC⟩) (Time.Month ⟨tn, UTC⟩) 1 0 0 0 0 UTC⟩, false⟩ := by
  obtain ⟨-, m1, m2, -, -⟩ := fields_days ⟨tn, UTC⟩
  have cm : ∀ (ds : Str) (n : Nat), isDecimal ds n → ∀ W ∈ [lit "month", lit "months"],
      countedForms env ⟨tn, UTC⟩ ds n W (monthRange (monthIndex ⟨tn, UTC⟩)) := by
    intro ds n hdec W hW
    simp only [List.mem_cons, List.mem_singleton, List.not_mem_nil, or_false] at hW
    rcases hW with rfl | rfl
    · have h := countedForms_newRange env ⟨tn, UTC⟩ ds n hdec (lit "month") 109 (by decide)
        (by decide) (by decide) (by decide)
      unfold countedForms at h ⊢
      rw [show stripS (lit "month") = lit "month" from by decide] at h
      simp only [newRange_month_UTC] at h
      exact h
    · have h := countedForms_newRange env ⟨tn, UTC⟩ ds n hdec (lit "months") 109 (by decide)
        (by decide) (by decide) (by decide)
      unfold countedForms at h ⊢
      rw [show stripS (lit "months") = lit "month" from by decide] at h
      simp only [newRange_month_UTC] at h
      exact h
  have ago : ∀ (ds : Str) (n : Nat), isDecimal ds n →
      Relative env (ds ++ lit "_months_ago") (some ⟨tn, UTC⟩) =
        okUTC (monthStartNs (monthIndex ⟨tn, UTC⟩ + -(n : Int)))
          (monthStartNs (monthIndex ⟨tn, UTC⟩ + -(n : Int) + 1)) := by
    intro ds n hdec
    have h := (cm ds n hdec (lit "months") (by decide)).1
    have e : ds ++ lit "_months_ago" = ds ++ lit "_" ++ lit "months" ++ lit "_ago" := by
      have : lit "_months_ago" = lit "_" ++ (lit "months" ++ lit "_ago") := by decide
      rw [this]
      simp
    rw [e, h]
    rfl
  refine ⟨newRange_month_UTC tn l u, cm, ?_, ago, ?_, ?_⟩
  · have h := uncountedForms_newRange env ⟨tn, UTC⟩ (lit "month") (by decide)
    unfold uncountedForms at h ⊢
    simp only [newRange_month_UTC] at h
    exact h
  · intro hjan
    have h := (cm (lit "1") 1 (Or.inl ⟨by decide, by decide⟩) (lit "month") (by decide)).1
    have e : lit "1_month_ago" = lit "1" ++ lit "_" ++ lit "month" ++ lit "_ago" := by decide
    rw [e, h]
    unfold monthRange okUTC monthStartNs monthIndex
    rw [hjan]
    have a1 : (12 * Time.Year ⟨tn, UTC⟩ + (1 - 1) + -((1 : Nat) : Int)) / 12 =
        Time.Year ⟨tn, UTC⟩ - 1 := by omega
    have a2 : (12 * Time.Year ⟨tn, UTC⟩ + (1 - 1) + -((1 : Nat) : Int)) % 12 + 1 = 12 := by omega
    have a3 : (12 * Time.Year ⟨tn, UTC⟩ + (1 - 1) + -((1 : Nat) : Int) + 1) / 12 =
        Time.Year ⟨tn, UTC⟩ := by omega
    have a4 : (12 * Time.Year ⟨tn, UTC⟩ + (1 - 1) + -((1 : Nat) : Int) + 1) % 12 + 1 = 1 := by
      omega
    rw [a1, a2, a3, a4, Date_midnight_UTC _ 12 1 (by omega) (by omega),
      Date_midnight_UTC _ 1 1 (by omega) (by omega)]
  · have h := ((cm (lit "240") 240 (Or.inr (Or.inr ⟨by decide, by decide⟩)) (lit "months")
      (by decide)).2.2 (by decide)).1
    have e : lit "prev_240_months" = lit "prev_" ++ lit "240" ++ lit "_" ++ lit "months" := by
      decide
    rw [e, h]
    unfold monthRange okUTC monthStartNs monthIndex
    have a1 : (12 * Time.Year ⟨tn, UTC⟩ + (Time.Month ⟨tn, UTC⟩ - 1) + -((240 : Nat) : Int)) / 12 =
        Time.Year ⟨tn, UTC⟩ - 20 := by omega
    have a2 : (12 * Time.Year ⟨tn, UTC⟩ + (Time.Month ⟨tn, UTC⟩ - 1) + -((240 : Nat) : Int)) % 12
        + 1 = Time.Month ⟨tn, UTC⟩ := by omega
    have a3 : (12 * Time.Year ⟨tn, UTC⟩ + (Time.Month ⟨tn, UTC⟩ - 1) + -1 + 1) / 12 =
        Time.Year ⟨tn, UTC⟩ := by omega
    have a4 : (12 * Time.Year ⟨tn, UTC⟩ + (Time.Month ⟨tn, UTC⟩ - 1) + -1 + 1) % 12 + 1 =
        Time.Month ⟨tn, UTC⟩ := by omega
    rw [a1, a2, a3, a4, Date_midnight_UTC _ _ 1 m1 m2, Date_midnight_UTC _ _ 1 m1 m2]

theorem relative_month_offsets_witness :
    Time.Month ⟨63620510400000000000, UTC⟩ = 1 ∧
      Relative ⟨UTC, 0⟩ (lit "1_month_ago") (some ⟨63620510400000000000, UTC⟩) =
        some ⟨⟨Date (Time.Year ⟨63620510400000000000, UTC⟩ - 1) 12 1 0 0 0 0 UTC,
          Date (Time.Year ⟨63620510400000000000, UTC⟩) 1 1 0 0 0 0 UTC⟩, false⟩ ∧
      isDecimal (lit "6") 6 ∧
      lit "6" ++ lit "_" ++ lit "month" ++ lit "_ahead" = lit "6_month_ahead" ∧
      Relative ⟨UTC, 0⟩ (lit "6" ++ lit "_" ++ lit "month" ++ lit "_ahead")
          (some ⟨63620510400000000000, UTC⟩) =
        monthRange (monthIndex ⟨63620510400000000000, UTC⟩) ((6 : Nat) : Int) ((6 : Nat) : Int) ∧
      monthRange (monthIndex ⟨63620510400000000000, UTC⟩) ((6 : Nat) : Int) ((6 : Nat) : Int) =
        some ⟨⟨Date 2017 7 1 0 0 0 0 UTC, Date 2017 8 1 0 0 0 0 UTC⟩, false⟩ :=
  ⟨by decide, (relative_month_offsets ⟨UTC, 0⟩ 63620510400000000000 0 0).2.2.2.2.1 (by decide),
    Or.inl ⟨by decide, by decide⟩, by decide,
    ((relative_month_offsets ⟨UTC, 0⟩ 63620510400000000000 0 0).2.1 (lit "6") 6
      (Or.inl ⟨by decide, by decide⟩) (lit "month") (by decide)).2.1, by decide⟩

/-- File `relative.go`, `newRange` for the unit `week` at a reference instant in
UTC: whole weeks from the Monday on or before the instant's day. -/
theorem newRange_week_UTC (tn l u : Int) :
    newRange (lit "week") l u ⟨tn, UTC⟩ =
      ⟨⟨⟨(tn / dayNs - tn / dayNs % 7 + 7 * l) * dayNs, UTC⟩,
        ⟨(tn / dayNs - tn / dayNs % 7 + 7 * (u + 1)) * dayNs, UTC⟩⟩, false⟩ := by
  obtain ⟨e, m1, m2, -, -⟩ := fields_days ⟨tn, UTC⟩
  have hw := weekday_eq ⟨tn, UTC⟩
  have ha := abs_UTC tn
  unfold newRange
  rw [if_neg (by decide), if_neg (by decide), if_neg (by decide), if_neg (by decide),
    if_neg (by decide), if_pos rfl]
  simp only []
  rw [day_fixed _ _ _ _ _ UTC_fixed, Date_midnight_UTC _ _ _ m1 m2]
  have hc : ∀ k : Int, civilDays (Time.Year ⟨tn, UTC⟩) (Time.Month ⟨tn, UTC⟩) k =
      Time.abs ⟨tn, UTC⟩ / 86400 + (k - Time.Day ⟨tn, UTC⟩) := by
    intro k
    rw [← e]
    unfold civilDays
    omega
  rw [hc, hw, ha]
  unfold firstWeekday Monday dayNs
  simp only []
  generalize Time.Day ⟨tn, UTC⟩ = D
  congr 3 <;> (split_ifs <;> omega)

/-- C22: for every year `y` in [1,9999], week `w` in [1,53] and reference instant
in UTC inside the interval `Absolute` returns for `YYYY-Www` in UTC,
`Relative` on `this_week` returns exactly that result. -/
theorem this_week_is_iso_week (env : Env) (y w : Nat) (tn : Int) (r : Result)
    (hy1 : 1 ≤ y) (hy2 : y ≤ 9999) (hw1 : 1 ≤ w) (hw2 : w ≤ 53)
    (hr : Absolute env (weekToken y w) (some UTC) = some r)
    (hlo : r.range.LowerInc.ns ≤ tn) (hhi : tn < r.range.UpperExc.ns) :
    Relative env (lit "this_week") (some ⟨tn, UTC⟩) = some r := by
  obtain ⟨h1, -⟩ := Absolute_weekToken env (some UTC) y w hy1 hy2 hw1 hw2
  have hloc : env.locOf (some UTC) = UTC := rfl
  rw [hloc, week_UTC, hr] at h1
  simp only [Option.some.injEq] at h1
  subst h1
  simp only at hlo hhi
  have e : lit "this_week" = lit "this" ++ 95 :: lit "week" := by decide
  rw [e, Relative_one env _ (lit "this") (lit "week") (by decide) (by decide) (by decide)
    (by decide), relativeOne_ok _ _ _ (by decide) (by decide) (by decide) (by decide),
    slice_this]
  have ht : (⟨env, some (⟨tn, UTC⟩ : Time)⟩ : Env × Option Time).1.timeOf (some ⟨tn, UTC⟩) =
      ⟨tn, UTC⟩ := rfl
  show some (newRange (lit "week") 0 (1 - 1) ⟨tn, UTC⟩) = _
  rw [newRange_week_UTC]
  generalize civilDays y 1 4 = J at *
  unfold dayNs at *
  congr 4 <;> omega

theorem this_week_is_iso_week_witness :
    1 ≤ (2017 : Nat) ∧ (2017 : Nat) ≤ 9999 ∧ 1 ≤ (11 : Nat) ∧ (11 : Nat) ≤ 53 ∧
      Absolute ⟨UTC, 0⟩ (weekToken 2017 11) (some UTC) =
        some ⟨⟨Date 2017 3 13 0 0 0 0 UTC, Date 2017 3 20 0 0 0 0 UTC⟩, false⟩ ∧
      (Date 2017 3 13 0 0 0 0 UTC).ns ≤ 63625437296000000789 ∧
      63625437296000000789 < (Date 2017 3 20 0 0 0 0 UTC).ns ∧
      Relative ⟨UTC, 0⟩ (lit "this_week") (some ⟨63625437296000000789, UTC⟩) =
        some ⟨⟨Date 2017 3 13 0 0 0 0 UTC, Date 2017 3 20 0 0 0 0 UTC⟩, false⟩ :=
  ⟨by decide, by decide, by decide, by decide, by decide, by decide, by decide,
    this_week_is_iso_week ⟨UTC, 0⟩ 2017 11 63625437296000000789 _ (by decide) (by decide)
      (by decide) (by decide) (by decide) (by decide) (by decide)⟩

theorem af_err : allFailed (some err) := by
  intro r hr
  simp only [Option.some.injEq] at hr
  exact hr ▸ rfl

theorem af_of_eq {r : Result} (h : r = err) : allFailed (some r) := by
  rw [h]; exact af_err

theorem af_pure {r : Result} (h : r = err) : allFailed (pure r) := af_of_eq h

theorem af_bind {α : Type} (x : Option α) (f : α → Option Result)
    (h : ∀ a, x = some a → allFailed (f a)) : allFailed (x >>= f) := by
  intro r hr
  cases x with
  | none => simp at hr
  | some a => exact h a rfl r hr

theorem digitsValue_snoc_bad (l : Str) (d acc : Nat) (hd : isDigitByte d = false) :
    digitsValue (l ++ [d]) acc = none := by
  induction l generalizing acc with
  | nil => simp [digitsValue, hd]
  | cons x xs ih =>
    simp only [List.cons_append, digitsValue]
    split
    · exact ih _
    · rfl

theorem digitsValue_bad4 (a b c d : Nat) (hd : isDigitByte d = false) :
    digitsValue [a, b, c, d] 0 = none ∧ digitsValue [b, c, d] 0 = none :=
  ⟨digitsValue_snoc_bad [a, b, c] d 0 hd, digitsValue_snoc_bad [b, c] d 0 hd⟩

theorem Atoi_bad4 (a b c d : Nat) (hd : isDigitByte d = false) : Atoi [a, b, c, d] = none := by
  obtain ⟨h1, h2⟩ := digitsValue_bad4 a b c d hd
  unfold Atoi
  by_cases hs : a = 45 ∨ a = 43
  · simp only [hs, if_true, h2]
  · simp only [hs, if_false, h1]

theorem parse_bad4 (a b c d : Nat) (hd : isDigitByte d = false) (lo hi : Int) :
    parse [a, b, c, d] lo hi = none := by
  unfold parse
  rw [Atoi_bad4 a b c d hd]

theorem timeAtoi_bad4 (a b c d : Nat) (hd : isDigitByte d = false) :
    timeAtoi [a, b, c, d] = none := by
  obtain ⟨h1, h2⟩ := digitsValue_bad4 a b c d hd
  unfold timeAtoi
  by_cases hs : a = 45 ∨ a = 43
  · simp only [hs, if_true, h2]
  · simp only [hs, if_false, h1]

theorem ParseInLocation_bad4 (layout : List Chunk) (a b c d : Nat) (rest : Str)
    (loc : Location) (hd : isDigitByte d = false) :
    ParseInLocation (Chunk.stdLongYear :: layout) (a :: b :: c :: d :: rest) loc = none := by
  unfold ParseInLocation
  have : parseChunks (Chunk.stdLongYear :: layout) (a :: b :: c :: d :: rest)
      ⟨0, -1, -1, 0, 0, 0, 0⟩ = none := by
    have ht : List.take 4 (a :: b :: c :: d :: rest) = [a, b, c, d] := rfl
    simp only [parseChunks, ht, timeAtoi_bad4 a b c d hd, ite_self]
  rw [this]

theorem parseDate_bad4 (layout : List Chunk) (a b c d : Nat) (rest : Str)
    (loc : Location) (hd : isDigitByte d = false) :
    parseDate (Chunk.stdLongYear :: layout) (a :: b :: c :: d :: rest) loc = err := by
  unfold parseDate
  rw [ParseInLocation_bad4 _ _ _ _ _ _ _ hd]

theorem parseTime_bad4 (layout : List Chunk) (a b c d : Nat) (rest : Str) (n : Int)
    (loc : Location) (hd : isDigitByte d = false) :
    parseTime (Chunk.stdLongYear :: layout) (a :: b :: c :: d :: rest) n loc = err := by
  unfold parseTime
  rw [ParseInLocation_bad4 _ _ _ _ _ _ _ hd]

theorem parseYear_bad4 (a b c d : Nat) (loc : Location) (hd : isDigitByte d = false) :
    parseYear [a, b, c, d] loc = err := by
  unfold parseYear
  rw [parse_bad4 a b c d hd]

theorem parseMonth_bad4 (a b c d : Nat) (sm : Str) (loc : Location)
    (hd : isDigitByte d = false) : parseMonth [a, b, c, d] sm loc = err := by
  unfold parseMonth
  rw [parse_bad4 a b c d hd]

theorem parseISOWeek_bad4 (a b c d : Nat) (sm : Str) (loc : Location)
    (hd : isDigitByte d = false) : parseISOWeek [a, b, c, d] sm loc = err := by
  unfold parseISOWeek
  rw [parse_bad4 a b c d hd]

theorem parseISOWeekDate_bad4 (a b c d : Nat) (sm sd : Str) (loc : Location)
    (hd : isDigitByte d = false) : parseISOWeekDate [a, b, c, d] sm sd loc = err := by
  unfold parseISOWeekDate
  rw [parse_bad4 a b c d hd]

theorem parseOrdinalDate_bad4 (a b c d : Nat) (sm : Str) (loc : Location)
    (hd : isDigitByte d = false) : parseOrdinalDate [a, b, c, d] sm loc = err := by
  unfold parseOrdinalDate
  rw [parse_bad4 a b c d hd]

theorem substr_year (a b c d : Nat) (rest sy : Str)
    (h : substr (a :: b :: c :: d :: rest) 0 4 = some sy) : sy = [a, b, c, d] := by
  unfold substr at h
  split at h
  · simp only [Option.some.injEq] at h
    rw [← h]; rfl
  · exact absurd h (by simp)

set_option maxHeartbeats 1000000 in
theorem Absolute_bad4 (env : Env) (s : Str) (loc : Option Location) (a b c d : Nat)
    (rest : Str) (hs : s = a :: b :: c :: d :: rest) (hd : isDigitByte d = false) :
    allFailed (Absolute env s loc) := by
  have hy : ∀ sy, substr s 0 4 = some sy → sy = [a, b, c, d] :=
    fun sy h => substr_year a b c d rest sy (hs ▸ h)
  have hD : ∀ layout l, parseDate (Chunk.stdLongYear :: layout) s l = err := by
    subst hs
    exact fun layout l => parseDate_bad4 layout a b c d rest l hd
  have hT : ∀ layout n l, parseTime (Chunk.stdLongYear :: layout) s n l = err := by
    subst hs
    exact fun layout n l => parseTime_bad4 layout a b c d rest n l hd
  have hY : s.length = 4 → ∀ l, parseYear s l = err := by
    intro h4 l
    subst hs
    have : rest = [] := by
      simp only [List.length_cons] at h4
      exact List.length_eq_zero.mp (by omega)
    subst this
    exact parseYear_bad4 a b c d l hd
  have hM : ∀ sy sm l, substr s 0 4 = some sy → parseMonth sy sm l = err :=
    fun sy sm l h => by rw [hy sy h]; exact parseMonth_bad4 a b c d sm l hd
  have hW : ∀ sy sm l, substr s 0 4 = some sy → parseISOWeek sy sm l = err :=
    fun sy sm l h => by rw [hy sy h]; exact parseISOWeek_bad4 a b c d sm l hd
  have hO : ∀ sy sm l, substr s 0 4 = some sy → parseOrdinalDate sy sm l = err :=
    fun sy sm l h => by rw [hy sy h]; exact parseOrdinalDate_bad4 a b c d sm l hd
  have hWD : ∀ sy sm sd l, substr s 0 4 = some sy → parseISOWeekDate sy sm sd l = err :=
    fun sy sm sd l h => by rw [hy sy h]; exact parseISOWeekDate_bad4 a b c d sm sd l hd
  clear hy hs
  unfold Absolute
  simp only []
  by_cases h0 : (s.length < 4 ∨ s.length > 23)
  · rw [if_pos h0]
    exact af_err
  rw [if_neg h0]
  cases hI : IndexByte s 45 with
  | none =>
    simp only []
    split_ifs
    · rename_i h4
      exact af_of_eq (hY h4 _)
    · exact af_bind _ _ fun _ h => af_bind _ _ fun _ _ => af_pure (hM _ _ _ h)
    · exact af_err
    · refine af_bind _ _ fun _ _ => ?_
      split_ifs
      · exact af_bind _ _ fun _ h => af_bind _ _ fun _ _ => af_pure (hW _ _ _ h)
      · exact af_bind _ _ fun _ h => af_bind _ _ fun _ _ => af_pure (hO _ _ _ h)
    · refine af_bind _ _ fun _ _ => ?_
      split_ifs
      · exact af_bind _ _ fun _ h => af_bind _ _ fun _ _ => af_bind _ _ fun _ _ =>
          af_pure (hWD _ _ _ _ h)
      · exact af_pure (hD _ _)
    · exact af_of_eq (hT _ _ _)
    · exact af_of_eq (hT _ _ _)
    · exact af_of_eq (hT _ _ _)
    · exact af_of_eq (hT _ _ _)
    · exact af_err
  | some i =>
    simp only []
    split_ifs
    · exact af_bind _ _ fun _ h => af_bind _ _ fun _ _ => af_pure (hM _ _ _ h)
    · refine af_bind _ _ fun _ _ => ?_
      split_ifs
      · exact af_bind _ _ fun _ h => af_bind _ _ fun _ _ => af_pure (hW _ _ _ h)
      · exact af_bind _ _ fun _ h => af_bind _ _ fun _ _ => af_pure (hO _ _ _ h)
    · refine af_bind _ _ fun _ _ => ?_
      split_ifs
      · refine af_bind _ _ fun _ _ => ?_
        split_ifs
        · exact af_bind _ _ fun _ h => af_bind _ _ fun _ _ => af_bind _ _ fun _ _ =>
            af_pure (hWD _ _ _ _ h)
        · exact af_pure (hD _ _)
      · exact af_pure (hD _ _)
    · exact af_of_eq (hT _ _ _)
    · exact af_of_eq (hT _ _ _)
    · exact af_of_eq (hT _ _ _)
    · exact af_of_eq (hT _ _ _)
    · exact af_err
    · exact af_err

/-- A token `Absolute` accepts has a digit at index 3. -/
theorem Absolute_digit3 (env : Env) (s : Str) (loc : Option Location) (r : Result)
    (h : Absolute env s loc = some r) (hr : r.failed = false) :
    4 ≤ s.length ∧ ∃ c, s[3]? = some c ∧ 48 ≤ c ∧ c ≤ 57 := by
  match s, h with
  | [], h | [_], h | [_, _], h | [_, _, _], h =>
    have : r = err := by
      simp only [Absolute, List.length_cons, List.length_nil] at h
      simpa using h.symm
    rw [this] at hr
    exact absurd hr (by decide)
  | a :: b :: c :: d :: rest, h =>
    refine ⟨by simp only [List.length_cons]; omega, d, by simp, ?_⟩
    by_contra hc
    have hd : isDigitByte d = false := by
      unfold isDigitByte
      by_cases h1 : 48 ≤ d
      · have h2 : ¬ d ≤ 57 := fun h2 => hc ⟨h1, h2⟩
        simp [h2]
      · simp [h1]
    have := Absolute_bad4 env _ loc a b c d rest rfl hd r h
    rw [this] at hr
    exact absurd hr (by decide)

theorem Absolute_locOf (env : Env) (s : Str) (loc : Option Location) :
    Absolute env s (some (env.locOf loc)) = Absolute env s loc := by
  unfold Absolute
  rfl

/-- C12: for every token and location, if `Absolute` succeeds then the byte at
index 3 of the token is an ASCII digit and `Expand` returns the same range with
no error. -/
theorem absolute_token_valid_for_expand (env : Env) (s : Str) (loc : Option Location)
    (r : Result) (h : Absolute env s loc = some r) (hr : r.failed = false) :
    (∃ c, s[3]? = some c ∧ 48 ≤ c ∧ c ≤ 57) ∧ Expand env s loc = some r := by
  obtain ⟨h4, c, hc, h1, h2⟩ := Absolute_digit3 env s loc r h hr
  refine ⟨⟨c, hc, h1, h2⟩, ?_⟩
  unfold Expand
  rw [if_neg (by omega)]
  simp only [hc]
  rw [if_pos ⟨h1, h2⟩, Absolute_locOf, h]

theorem absolute_token_valid_for_expand_witness :
    Absolute ⟨UTC, 0⟩ (lit "2017-03-18") (some UTC) =
        some ⟨⟨Date 2017 3 18 0 0 0 0 UTC, Date 2017 3 19 0 0 0 0 UTC⟩, false⟩ ∧
      (∃ c, (lit "2017-03-18")[3]? = some c ∧ 48 ≤ c ∧ c ≤ 57) ∧
      Expand ⟨UTC, 0⟩ (lit "2017-03-18") (some UTC) =
        some ⟨⟨Date 2017 3 18 0 0 0 0 UTC, Date 2017 3 19 0 0 0 0 UTC⟩, false⟩ :=
  ⟨by decide, absolute_token_valid_for_expand ⟨UTC, 0⟩ (lit "2017-03-18") (some UTC) _
    (by decide) rfl⟩

theorem parse_notIntegerIn (fld : Str) (lo hi : Int) (h : notIntegerIn fld lo hi) :
    parse fld lo hi = none := by
  unfold parse
  cases hA : Atoi fld with
  | none => rfl
  | some n =>
    have := h n hA
    simp only []
    rw [if_pos (by omega)]

theorem parseMonth_bad (sy sm : Str) (loc : Location) (h : notIntegerIn sm 1 12) :
    parseMonth sy sm loc = err := by
  unfold parseMonth
  rw [parse_notIntegerIn sm 1 12 h]
  cases parse sy minYear maxYear <;> rfl

theorem parseISOWeek_bad (sy sw : Str) (loc : Location) (h : notIntegerIn sw 1 53) :
    parseISOWeek sy sw loc = err := by
  unfold parseISOWeek
  rw [parse_notIntegerIn sw 1 53 h]
  cases parse sy minYear maxYear <;> rfl

theorem parseISOWeekDate_bad (sy sw swd : Str) (loc : Location)
    (h : notIntegerIn sw 1 53 ∨ notIntegerIn swd 1 7) :
    parseISOWeekDate sy sw swd loc = err := by
  unfold parseISOWeekDate
  rcases h with h | h
  · rw [parse_notIntegerIn sw 1 53 h]
    cases parse sy minYear maxYear <;> rfl
  · rw [parse_notIntegerIn swd 1 7 h]
    cases parse sy minYear maxYear <;> cases parse sw 1 53 <;> rfl

theorem parseOrdinalDate_bad (sy sdy : Str) (loc : Location) (h : notIntegerIn sdy 1 366) :
    parseOrdinalDate sy sdy loc = err := by
  unfold parseOrdinalDate
  rw [parse_notIntegerIn sdy 1 366 h]
  cases parse sy minYear maxYear <;> rfl

/-- What `strconv.Atoi` reads from two digits. -/
theorem Atoi_two_digits (e f : Nat) (he : isDigitByte e = true) (hf : isDigitByte f = true) :
    Atoi [e, f] = some (((e - 48) * 10 + (f - 48) : Nat) : Int) := by
  have he2 : 48 ≤ e ∧ e ≤ 57 := by simpa [isDigitByte] using he
  have hf2 : 48 ≤ f ∧ f ≤ 57 := by simpa [isDigitByte] using hf
  have hs : ¬ (e = 45 ∨ e = 43) := by omega
  unfold Atoi
  simp only [hs, if_false, digitsValue, he, hf, if_true, Nat.zero_mul, Nat.zero_add]
  have h45 : e ≠ 45 := by omega
  simp only [h45, if_false]
  rw [if_pos]
  constructor
  · have : (0 : Int) ≤ (((e - 48) * 10 + (f - 48) : Nat) : Int) := Int.ofNat_nonneg _
    have h2 : -(2 : Int) ^ 63 ≤ 0 := by norm_num
    omega
  · have : (((e - 48) * 10 + (f - 48) : Nat) : Int) ≤ 99 := by omega
    have h2 : (99 : Int) ≤ (2 : Int) ^ 63 - 1 := by norm_num
    omega

/-- The month chunk of `time.Parse` fails on a field that is no integer of
[1,12]. -/
theorem parseChunks_month_bad (e f : Nat) (h : notIntegerIn [e, f] 1 12) (rest : List Chunk)
    (v : Str) (fl : Fields) :
    parseChunks (Chunk.stdZeroMonth :: rest) (e :: f :: v) fl = none := by
  by_cases he : isDigitByte e = true
  · by_cases hf : isDigitByte f = true
    · have hb := h _ (Atoi_two_digits e f he hf)
      simp only [parseChunks, getnum, he, hf, Bool.not_true, Bool.false_eq_true, if_false]
      rw [if_pos (by omega)]
    · simp only [parseChunks, getnum, he, hf, Bool.not_true, Bool.false_eq_true, if_false,
        Bool.not_false, if_true]
  · simp only [parseChunks, getnum, he, Bool.not_false, if_true]

theorem parseDate_month_bad (y : Nat) (hy : y ≤ 9999) (e f : Nat)
    (h : notIntegerIn [e, f] 1 12) (v : Str) (loc : Location) :
    parseDate layoutDate (dec4 y ++ 45 :: e :: f :: v) loc = err ∧
      parseDate layoutBasicDate (dec4 y ++ e :: f :: v) loc = err := by
  constructor
  · unfold parseDate ParseInLocation layoutDate
    rw [parseChunks_year y hy, parseChunks_literal, parseChunks_month_bad e f h]
  · unfold parseDate ParseInLocation layoutBasicDate
    rw [parseChunks_year y hy, parseChunks_month_bad e f h]

theorem Atoi_dash_last (f : Nat) : Atoi [f, 45] = none := by
  unfold Atoi
  by_cases hs : f = 45 ∨ f = 43
  · simp [hs, digitsValue, isDigitByte]
  · have hv : digitsValue [f, 45] 0 = none := digitsValue_snoc_bad [f] 45 0 (by decide)
    simp only [hs, if_false, hv]

/-- C15: for every token with a four-digit year field, `Absolute` fails when the
month field of a year-month or calendar-date token is not an integer in [1,12],
when the week field of an ISO-week or ISO-week-date token is not an integer in
[1,53], when the weekday field of an ISO-week-date token is not an integer in
[1,7], and when the day field of an ordinal-date token is not an integer in
[1,366]; the tokens are taken in their extended and in their basic shape, a
basic token being one without `-`. -/
theorem absolute_rejects_bad_fields (env : Env) (loc : Option Location) (y : Nat)
    (hy : y ≤ 9999) (e f g h i : Nat) :
    (notIntegerIn [e, f] 1 12 →
        Absolute env (dec4 y ++ [45, e, f]) loc = some err ∧
        Absolute env (dec4 y ++ [45, e, f, 45, h, i]) loc = some err ∧
        (e ≠ 45 → f ≠ 45 → Absolute env (dec4 y ++ [e, f]) loc = some err) ∧
        (e ≠ 87 → e ≠ 45 → f ≠ 45 → h ≠ 45 → i ≠ 45 →
          Absolute env (dec4 y ++ [e, f, h, i]) loc = some err)) ∧
      (notIntegerIn [f, g] 1 53 →
        Absolute env (dec4 y ++ [45, 87, f, g]) loc = some err ∧
        Absolute env (dec4 y ++ [45, 87, f, g, 45, i]) loc = some err ∧
        (f ≠ 45 → g ≠ 45 → Absolute env (dec4 y ++ [87, f, g]) loc = some err) ∧
        (f ≠ 45 → g ≠ 45 → i ≠ 45 →
          Absolute env (dec4 y ++ [87, f, g, i]) loc = some err)) ∧
      (notIntegerIn [i] 1 7 →
        Absolute env (dec4 y ++ [45, 87, f, g, 45, i]) loc = some err ∧
        (f ≠ 45 → g ≠ 45 → i ≠ 45 →
          Absolute env (dec4 y ++ [87, f, g, i]) loc = some err)) ∧
      (notIntegerIn [e, f, g] 1 366 → e ≠ 87 →
        Absolute env (dec4 y ++ [45, e, f, g]) loc = some err ∧
        (e ≠ 45 → f ≠ 45 → g ≠ 45 →
          Absolute env (dec4 y ++ [e, f, g]) loc = some err)) := by
  have d0 : ∀ n, digit n ≠ 45 := fun n => digit_ne n 45 (Or.inl (by decide))
  have w45 : (87 : Nat) ≠ 45 := by decide
  refine ⟨fun hm => ⟨?_, ?_, fun he hf => ?_, fun h87 he hf hh hi => ?_⟩,
    fun hw => ⟨?_, ?_, fun hf hg => ?_, fun hf hg hi => ?_⟩,
    fun hd => ⟨?_, fun hf hg hi => ?_⟩,
    fun ho h87 => ⟨?_, fun he hf hg => ?_⟩⟩
  · show Absolute env [_, _, _, _, 45, e, f] loc = _
    rw [Absolute_ext7 env loc _ _ _ _ _ _ (d0 _) (d0 _) (d0 _) (d0 _), parseMonth_bad _ _ _ hm]
  · show Absolute env [_, _, _, _, 45, e, f, 45, h, i] loc = _
    rw [Absolute_ext10 env loc _ _ _ _ _ _ _ _ _ (d0 _) (d0 _) (d0 _) (d0 _)]
    split
    · have hb : notIntegerIn [f, 45] 1 53 := by
        intro n hn
        rw [Atoi_dash_last] at hn
        exact absurd hn (by simp)
      rw [parseISOWeekDate_bad _ _ _ _ (Or.inl hb)]
    · exact congrArg some (parseDate_month_bad y hy e f hm _ _).1
  · show Absolute env [_, _, _, _, e, f] loc = _
    rw [Absolute_bas6 env loc _ _ _ _ _ _ (d0 _) (d0 _) (d0 _) (d0 _) he hf,
      parseMonth_bad _ _ _ hm]
  · show Absolute env [_, _, _, _, e, f, h, i] loc = _
    rw [Absolute_bas8 env loc _ _ _ _ _ _ _ _ (d0 _) (d0 _) (d0 _) (d0 _) he hf hh hi,
      if_neg h87]
    exact congrArg some (parseDate_month_bad y hy e f hm _ _).2
  · show Absolute env [_, _, _, _, 45, 87, f, g] loc = _
    rw [Absolute_ext8 env loc _ _ _ _ _ _ _ (d0 _) (d0 _) (d0 _) (d0 _), if_pos rfl,
      parseISOWeek_bad _ _ _ hw]
  · show Absolute env [_, _, _, _, 45, 87, f, g, 45, i] loc = _
    rw [Absolute_ext10 env loc _ _ _ _ _ _ _ _ _ (d0 _) (d0 _) (d0 _) (d0 _),
      if_pos ⟨rfl, rfl⟩, parseISOWeekDate_bad _ _ _ _ (Or.inl hw)]
  · show Absolute env [_, _, _, _, 87, f, g] loc = _
    rw [Absolute_bas7 env loc _ _ _ _ _ _ _ (d0 _) (d0 _) (d0 _) (d0 _) w45 hf hg, if_pos rfl,
      parseISOWeek_bad _ _ _ hw]
  · show Absolute env [_, _, _, _, 87, f, g, i] loc = _
    rw [Absolute_bas8 env loc _ _ _ _ _ _ _ _ (d0 _) (d0 _) (d0 _) (d0 _) w45 hf hg hi,
      if_pos rfl, parseISOWeekDate_bad _ _ _ _ (Or.inl hw)]
  · show Absolute env [_, _, _, _, 45, 87, f, g, 45, i] loc = _
    rw [Absolute_ext10 env loc _ _ _ _ _ _ _ _ _ (d0 _) (d0 _) (d0 _) (d0 _),
      if_pos ⟨rfl, rfl⟩, parseISOWeekDate_bad _ _ _ _ (Or.inr hd)]
  · show Absolute env [_, _, _, _, 87, f, g, i] loc = _
    rw [Absolute_bas8 env loc _ _ _ _ _ _ _ _ (d0 _) (d0 _) (d0 _) (d0 _) w45 hf hg hi,
      if_pos rfl, parseISOWeekDate_bad _ _ _ _ (Or.inr hd)]
  · show Absolute env [_, _, _, _, 45, e, f, g] loc = _
    rw [Absolute_ext8 env loc _ _ _ _ _ _ _ (d0 _) (d0 _) (d0 _) (d0 _), if_neg h87,
      parseOrdinalDate_bad _ _ _ ho]
  · show Absolute env [_, _, _, _, e, f, g] loc = _
    rw [Absolute_bas7 env loc _ _ _ _ _ _ _ (d0 _) (d0 _) (d0 _) (d0 _) he hf hg, if_neg h87,
      parseOrdinalDate_bad _ _ _ ho]

theorem absolute_rejects_bad_fields_witness :
    (2017 : Nat) ≤ 9999 ∧ notIntegerIn (lit "13") 1 12 ∧
      Absolute ⟨UTC, 0⟩ (lit "2017-13") (some UTC) = some err ∧
      Absolute ⟨UTC, 0⟩ (lit "2017-13-01") (some UTC) = some err :=
  have hb : notIntegerIn (lit "13") 1 12 := by
    intro n hn
    have e : Atoi (lit "13") = some 13 := by decide
    rw [e] at hn
    simp only [Option.some.injEq] at hn
    omega
  ⟨by decide, hb,
    ((absolute_rejects_bad_fields ⟨UTC, 0⟩ (some UTC) 2017 (by decide) 49 51 0 48 49).1 hb).1,
    ((absolute_rejects_bad_fields ⟨UTC, 0⟩ (some UTC) 2017 (by decide) 49 51 0 48 49).1 hb).2.1⟩

theorem absolute_rejects_unlisted_shapes_witness :
    IndexByte (lit "2017031822") 45 = none ∧
      (lit "2017031822").length ∉ [4, 6, 7, 8, 11, 13, 15, 19] ∧
      Absolute ⟨UTC, 0⟩ (lit "2017031822") (some UTC) = some err :=
  ⟨by decide, by decide,
    (absolute_rejects_unlisted_shapes ⟨UTC, 0⟩ (lit "2017031822") (some UTC)).2.2.1
      (by decide) (by decide)⟩

end Timeframe
